import Mathlib

/-!
# gds_processor: mesh generation and reference flattening

A shallow embedding of `src/gds_processor/src/gds_processor.cpp`.

Conventions of the embedding.

* `double` coordinates are values of a type `D`, `float` buffer entries are values of
  a type `F`, and the conversion `(POSITIONS_TYPE)x` is a function `toF : D → F`.
  Comparison of coordinates with `==` is decidable equality on `D` (no NaN).
* `int`, `uint32_t` and `uint64_t` counters are natural numbers.  Every counter of the
  mesh builders counts elements that were written to a `GrowBuffer`, whose byte offset
  is itself an `int`, so on every run in which the C++ arithmetic is defined the
  counters stay far below `2^31` and no conversion wraps.  The global statistics are
  `uint64_t` sums of such counters over the calls of one run.
* A `GrowBuffer<T>` keeps its memory as a list of slots of `sizeof(T)` bytes.  `reset`
  does not clear the memory; what a consumer receives, `size()` elements starting at
  `data`, is `GrowBuffer.view`.
* The CDT library is a parameter: a function from the vertices and constraint edges of
  one polygon to what the calls `RemoveDuplicatesAndRemapEdges`, `insertVertices`,
  `insertEdges`, `eraseOuterTrianglesAndHoles` leave behind, or `none` when one of them
  throws.
* A run that does not return normally (exception, undefined read, unbounded loop)
  is `none`.  The calls of `malloc` and `realloc` succeed.
* The gdstk calls that read files or inspect a library or a cell (`gds_info`,
  `read_gds`, `read_oas`, `top_level`, `bounding_box`, `get_polygons`, `get_labels`)
  are fields of an environment parameter.
* The calls into JavaScript are recorded as a list of events.
-/

namespace GdsProcessor

/-! ## GrowBuffer -/

/-- The restart index of the line buffers, `RESTART_INDEX_VALUE`. -/
def RESTART_INDEX_VALUE : Nat := 0xffffffff

/-- Size in bytes of `POSITIONS_TYPE` (`float`). -/
def sizeof_POSITIONS_TYPE : Nat := 4

/-- Size in bytes of `INDICES_TYPE` (`uint32_t`). -/
def sizeof_INDICES_TYPE : Nat := 4

/-- The struct `GrowBuffer<T>`: the four integer fields and the memory behind `data`,
seen as slots of `sizeof(T)` bytes (slot `i` is the bytes from `i * sizeof(T)`). -/
structure GrowBuffer (T : Type) where
  expansion_size : Nat
  current_offset : Nat
  allocated_size : Nat
  items_count : Nat
  data : List T
deriving DecidableEq, Repr

namespace GrowBuffer

variable {T : Type}

/-- The constructor `GrowBuffer(int reserveBufferSize)`; the assertion
`reserveBufferSize > 0` fails for a zero size. -/
def mk_reserve (reserveBufferSize : Nat) : Option (GrowBuffer T) :=
  if 0 < reserveBufferSize then
    some
      { expansion_size := 1024 * 1024
        current_offset := 0
        allocated_size := reserveBufferSize
        items_count := 0
        data := [] }
  else none

/-- The method `reset()`: clears the offsets, keeps the memory. -/
def reset (b : GrowBuffer T) : GrowBuffer T :=
  { b with current_offset := 0, items_count := 0 }

/-- The method `size()`. -/
def size (b : GrowBuffer T) : Nat :=
  b.items_count

/-- The `memcpy` of one value to slot `i` of the memory. -/
def write_slot (mem : List T) (i : Nat) (value : T) : List T :=
  mem.take i ++ [value] ++ mem.drop (i + 1)

/-- The method `insert(T value)`, for `sizeof(value) = sizeof_T`. -/
def insert (sizeof_T : Nat) (b : GrowBuffer T) (value : T) : GrowBuffer T :=
  let allocated_size :=
    if b.current_offset + sizeof_T > b.allocated_size then
      b.allocated_size + b.expansion_size
    else b.allocated_size
  { b with
    allocated_size := allocated_size
    data := write_slot b.data (b.current_offset / sizeof_T) value
    current_offset := b.current_offset + sizeof_T
    items_count := b.items_count + 1 }

/-- What a consumer of the buffer is handed: `size()` elements starting at `data`. -/
def view (b : GrowBuffer T) : List T :=
  b.data.take b.items_count

/-- A run of `insert` calls, one per element of `values`, in order. -/
def insert_all (sizeof_T : Nat) (b : GrowBuffer T) (values : List T) : GrowBuffer T :=
  values.foldl (insert sizeof_T) b

/-- The offsets of a buffer are consistent: the byte offset is the element count times
the element size, and the elements counted are in memory. -/
def Consistent (sizeof_T : Nat) (b : GrowBuffer T) : Prop :=
  0 < sizeof_T ∧ b.current_offset = sizeof_T * b.items_count ∧ b.items_count ≤ b.data.length

end GrowBuffer

/-! ## Geometry and the triangulation library -/

/-- A 2D point: `gdstk::Vec2` and `CDT::V2d<double>`. -/
structure Vec2 (D : Type) where
  x : D
  y : D
deriving DecidableEq, Repr

/-- The part of `gdstk::Polygon` the mesh builders read. -/
structure Polygon (D : Type) where
  point_array : List (Vec2 D)
deriving DecidableEq, Repr

/-- The three vertex ids `vertices[0..2]` of a `CDT::Triangle`. -/
structure Triangle where
  v0 : Nat
  v1 : Nat
  v2 : Nat
deriving DecidableEq, Repr

/-- The struct `CDT::DuplicatesInfo`. -/
structure DuplicatesInfo where
  mapping : List Nat
  duplicates : List Nat
deriving DecidableEq, Repr

/-- What the CDT calls of `triangulate` leave behind for one polygon: `dup_info`,
`cdt.vertices` and `cdt.triangles`. -/
structure CDTResult (D : Type) where
  dup_info : DuplicatesInfo
  vertices : List (Vec2 D)
  triangles : List Triangle
deriving DecidableEq, Repr

/-- The triangulation library, from the vertices and the constraint edges of one
polygon; `none` when it throws. -/
abbrev Triangulator (D : Type) := List (Vec2 D) → List (Nat × Nat) → Option (CDTResult D)

/-- The global `g_triangulation_stats`. -/
structure TriangulationStats where
  total_vertices : Nat
  total_triangles : Nat
deriving DecidableEq, Repr

/-- The local variables of `triangulate` that live across the polygon loop. -/
structure TriangulateState (F : Type) where
  positions_buffer : GrowBuffer F
  indices_buffer : GrowBuffer Nat
  indices_offset : Nat
  total_vertices : Nat
  total_triangles : Nat
deriving DecidableEq, Repr

/-- What `triangulate` leaves behind: the two buffers and the global statistics. -/
structure TriangulateResult (F : Type) where
  positions_buffer : GrowBuffer F
  indices_buffer : GrowBuffer Nat
  g_triangulation_stats : TriangulationStats
deriving DecidableEq, Repr

/-! ## triangulate -/

section Triangulate

variable {D F : Type} [DecidableEq D]

/-- The test of the rectangle branch of `triangulate` (lines 599-601): four points,
and one of the two axis-aligned patterns. -/
def is_rectangle (poly : Polygon D) : Bool :=
  match poly.point_array with
  | [p0, p1, p2, p3] =>
    (decide (p0.x = p1.x) && decide (p2.x = p3.x) && decide (p0.y = p3.y)
        && decide (p1.y = p2.y))
      || (decide (p0.x = p3.x) && decide (p1.x = p2.x) && decide (p0.y = p1.y)
        && decide (p2.y = p3.y))
  | _ => false

/-- One vertex written to the positions buffer: three `insert` calls. -/
def insert_vertex (positions_buffer : GrowBuffer F) (x y z : F) : GrowBuffer F :=
  ((positions_buffer.insert sizeof_POSITIONS_TYPE x).insert sizeof_POSITIONS_TYPE y).insert
    sizeof_POSITIONS_TYPE z

/-- One index triple written to the indices buffer: three `insert` calls. -/
def insert_triangle (indices_buffer : GrowBuffer Nat) (a b c : Nat) : GrowBuffer Nat :=
  ((indices_buffer.insert sizeof_INDICES_TYPE a).insert sizeof_INDICES_TYPE b).insert
    sizeof_INDICES_TYPE c

/-- The rectangle branch of `triangulate` (lines 604-678) for the points
`p0 p1 p2 p3` of the polygon. -/
def triangulate_rectangle (toF : D → F) (p0 p1 p2 p3 : Vec2 D) (zmin zmax : F)
    (st : TriangulateState F) : TriangulateState F :=
  let total_poly_vertices := 4
  -- BOTTOM FACES
  let bottom_indices_offset := st.indices_offset
  let positions_buffer := st.positions_buffer
  let positions_buffer := insert_vertex positions_buffer (toF p0.x) (toF p0.y) zmin
  let positions_buffer := insert_vertex positions_buffer (toF p1.x) (toF p1.y) zmin
  let positions_buffer := insert_vertex positions_buffer (toF p2.x) (toF p2.y) zmin
  let positions_buffer := insert_vertex positions_buffer (toF p3.x) (toF p3.y) zmin
  let indices_offset := st.indices_offset
  let indices_buffer := st.indices_buffer
  let indices_buffer :=
    insert_triangle indices_buffer (0 + indices_offset) (1 + indices_offset) (2 + indices_offset)
  let indices_buffer :=
    insert_triangle indices_buffer (0 + indices_offset) (2 + indices_offset) (3 + indices_offset)
  let indices_offset := indices_offset + total_poly_vertices
  -- TOP FACES
  let top_indices_offset := indices_offset
  let positions_buffer := insert_vertex positions_buffer (toF p0.x) (toF p0.y) zmax
  let positions_buffer := insert_vertex positions_buffer (toF p1.x) (toF p1.y) zmax
  let positions_buffer := insert_vertex positions_buffer (toF p2.x) (toF p2.y) zmax
  let positions_buffer := insert_vertex positions_buffer (toF p3.x) (toF p3.y) zmax
  let indices_buffer :=
    insert_triangle indices_buffer (0 + indices_offset) (1 + indices_offset) (2 + indices_offset)
  let indices_buffer :=
    insert_triangle indices_buffer (0 + indices_offset) (2 + indices_offset) (3 + indices_offset)
  let indices_offset := indices_offset + total_poly_vertices
  -- SIDES
  let indices_buffer :=
    (List.range total_poly_vertices).foldl
      (fun indices_buffer i =>
        let indices_buffer :=
          insert_triangle indices_buffer
            (i % total_poly_vertices + top_indices_offset)
            ((i + 1) % total_poly_vertices + bottom_indices_offset)
            (i % total_poly_vertices + bottom_indices_offset)
        insert_triangle indices_buffer
          (i % total_poly_vertices + top_indices_offset)
          ((i + 1) % total_poly_vertices + top_indices_offset)
          ((i + 1) % total_poly_vertices + bottom_indices_offset))
      indices_buffer
  { positions_buffer := positions_buffer
    indices_buffer := indices_buffer
    indices_offset := indices_offset
    total_vertices := st.total_vertices + 8
    total_triangles := st.total_triangles + 12 }

/-- The constraint edges of the general branch (lines 692-697) for a polygon of `count`
points.  For `count = 0` the bound `count - 1` of the loop wraps around to `2^64 - 1`
and the loop does not end before memory does. -/
def polygon_edges (count : Nat) : Option (List (Nat × Nat)) :=
  if count = 0 then none
  else
    let edges := (List.range (count - 1)).foldl (fun edges k => edges ++ [(k, k + 1)]) []
    -- close polygon:
    some (edges ++ [(count - 1, 0)])

/-- The orientation update of one triangle (lines 729-735). -/
def update_orientation (orientation : Int) (t : Triangle) : Int :=
  let d0 : Int := (t.v0 : Int) - (t.v1 : Int)
  let d1 : Int := (t.v1 : Int) - (t.v2 : Int)
  let d2 : Int := (t.v2 : Int) - (t.v0 : Int)
  if d0 = 1 ∨ d1 = 1 ∨ d2 = 1 then 1
  else if d0 = -1 ∨ d1 = -1 ∨ d2 = -1 then -1
  else orientation

/-- The side walls when duplicates were removed (lines 766-796): the loop walks the
`count` points of the polygon through `dup_info.mapping`.  A read outside the mapping
is undefined. -/
def extrude_with_duplicates (mapping : List Nat) (count : Nat) (orientation : Int)
    (bottom_indices_offset top_indices_offset : Nat) (indices_buffer : GrowBuffer Nat) :
    Option (GrowBuffer Nat) :=
  (List.range count).foldlM
    (fun indices_buffer i => do
      let m_i ← mapping[i % count]?
      let m_j ← mapping[(i + 1) % count]?
      let ai0 := m_i + bottom_indices_offset
      let ai1 := m_j + bottom_indices_offset
      let ai2 := m_i + top_indices_offset
      let bi0 := m_j + bottom_indices_offset
      let bi1 := m_j + top_indices_offset
      let bi2 := m_i + top_indices_offset
      if orientation = -1 then
        pure (insert_triangle (insert_triangle indices_buffer ai0 ai1 ai2) bi0 bi1 bi2)
      else
        pure (insert_triangle (insert_triangle indices_buffer ai2 ai1 ai0) bi2 bi1 bi0))
    indices_buffer

/-- The side walls when no duplicate was removed (lines 800-822): the loop walks the
`total_poly_vertices` vertices of the triangulation. -/
def extrude_without_duplicates (total_poly_vertices : Nat) (orientation : Int)
    (bottom_indices_offset top_indices_offset : Nat) (indices_buffer : GrowBuffer Nat) :
    GrowBuffer Nat :=
  (List.range total_poly_vertices).foldl
    (fun indices_buffer i =>
      if orientation = -1 then
        insert_triangle
          (insert_triangle indices_buffer
            (i % total_poly_vertices + bottom_indices_offset)
            ((i + 1) % total_poly_vertices + bottom_indices_offset)
            (i % total_poly_vertices + top_indices_offset))
          ((i + 1) % total_poly_vertices + bottom_indices_offset)
          ((i + 1) % total_poly_vertices + top_indices_offset)
          (i % total_poly_vertices + top_indices_offset)
      else
        insert_triangle
          (insert_triangle indices_buffer
            (i % total_poly_vertices + top_indices_offset)
            ((i + 1) % total_poly_vertices + bottom_indices_offset)
            (i % total_poly_vertices + bottom_indices_offset))
          (i % total_poly_vertices + top_indices_offset)
          ((i + 1) % total_poly_vertices + top_indices_offset)
          ((i + 1) % total_poly_vertices + bottom_indices_offset))
    indices_buffer

/-- The general branch of `triangulate` (lines 683-823). -/
def triangulate_general (toF : D → F) (cdt : Triangulator D) (poly : Polygon D)
    (zmin zmax : F) (st : TriangulateState F) : Option (TriangulateState F) := do
  let vertices := poly.point_array.foldl (fun vertices point => vertices ++ [⟨point.x, point.y⟩]) []
  let edges ← polygon_edges poly.point_array.length
  let r ← cdt vertices edges
  let total_triangles := st.total_triangles + r.triangles.length
  let total_vertices := st.total_vertices + r.vertices.length
  -- EXTRUSION
  let total_poly_vertices := r.vertices.length
  -- BOTTOM FACES
  let indices_offset := st.indices_offset
  let bottom_indices_offset := indices_offset
  let positions_buffer :=
    r.vertices.foldl (fun positions_buffer v => insert_vertex positions_buffer (toF v.x) (toF v.y) zmin)
      st.positions_buffer
  let (orientation, indices_buffer) :=
    r.triangles.foldl
      (fun (acc : Int × GrowBuffer Nat) t =>
        (update_orientation acc.1 t,
          insert_triangle acc.2 (t.v2 + indices_offset) (t.v1 + indices_offset)
            (t.v0 + indices_offset)))
      ((0 : Int), st.indices_buffer)
  let indices_offset := indices_offset + total_poly_vertices
  -- TOP FACES
  let top_indices_offset := indices_offset
  let positions_buffer :=
    r.vertices.foldl (fun positions_buffer v => insert_vertex positions_buffer (toF v.x) (toF v.y) zmax)
      positions_buffer
  let indices_buffer :=
    r.triangles.foldl
      (fun indices_buffer t =>
        insert_triangle indices_buffer (t.v0 + indices_offset) (t.v1 + indices_offset)
          (t.v2 + indices_offset))
      indices_buffer
  let indices_offset := indices_offset + total_poly_vertices
  -- EXTRUDE
  let indices_buffer ←
    if r.dup_info.duplicates.length > 0 then
      extrude_with_duplicates r.dup_info.mapping poly.point_array.length orientation
        bottom_indices_offset top_indices_offset indices_buffer
    else
      some (extrude_without_duplicates total_poly_vertices orientation
        bottom_indices_offset top_indices_offset indices_buffer)
  pure
    { positions_buffer := positions_buffer
      indices_buffer := indices_buffer
      indices_offset := indices_offset
      total_vertices := total_vertices
      total_triangles := total_triangles }

/-- The body of the polygon loop of `triangulate` (lines 596-824). -/
def triangulate_polygon (toF : D → F) (cdt : Triangulator D) (zmin zmax : F)
    (st : TriangulateState F) (poly : Polygon D) : Option (TriangulateState F) :=
  match poly.point_array, is_rectangle poly with
  | [p0, p1, p2, p3], true => some (triangulate_rectangle toF p0 p1 p2 p3 zmin zmax st)
  | _, _ => triangulate_general toF cdt poly zmin zmax st

/-- The function `triangulate` (lines 583-831). -/
def triangulate (toF : D → F) (cdt : Triangulator D) (polygons : List (Polygon D))
    (positions_buffer : GrowBuffer F) (indices_buffer : GrowBuffer Nat) (zmin zmax : F)
    (g_triangulation_stats : TriangulationStats) : Option (TriangulateResult F) := do
  let st : TriangulateState F :=
    { positions_buffer := positions_buffer.reset
      indices_buffer := indices_buffer.reset
      indices_offset := 0
      total_vertices := 0
      total_triangles := 0 }
  let st ← polygons.foldlM (triangulate_polygon toF cdt zmin zmax) st
  pure
    { positions_buffer := st.positions_buffer
      indices_buffer := st.indices_buffer
      g_triangulation_stats :=
        { total_vertices := g_triangulation_stats.total_vertices + st.total_vertices
          total_triangles := g_triangulation_stats.total_triangles + st.total_triangles } }

end Triangulate

/-! ## createLineBuffers -/

section Lines

variable {D F : Type}

/-- The local variables of `createLineBuffers` that live across the polygon loop. -/
structure LineState (F : Type) where
  positions_buffer : GrowBuffer F
  indices_buffer : GrowBuffer Nat
  indices_offset : Nat
deriving DecidableEq, Repr

/-- What `createLineBuffers` leaves behind: the two buffers. -/
structure LineBuffers (F : Type) where
  positions_buffer : GrowBuffer F
  indices_buffer : GrowBuffer Nat
deriving DecidableEq, Repr

/-- One ring of `createLineBuffers` (lines 847-855 and 863-871): for each point, with
its loop counter `k`, the vertex at height `z` and the index `k + indices_offset`.
The accumulator carries the two buffers and `k`. -/
def line_ring (toF : D → F) (points : List (Vec2 D)) (z : F) (indices_offset : Nat)
    (positions_buffer : GrowBuffer F) (indices_buffer : GrowBuffer Nat) :
    GrowBuffer F × GrowBuffer Nat × Nat :=
  points.foldl
    (fun (acc : GrowBuffer F × GrowBuffer Nat × Nat) point =>
      let positions_buffer := acc.1.insert sizeof_POSITIONS_TYPE (toF point.x)
      let positions_buffer := positions_buffer.insert sizeof_POSITIONS_TYPE (toF point.y)
      let positions_buffer := positions_buffer.insert sizeof_POSITIONS_TYPE z
      let indices_buffer := acc.2.1.insert sizeof_INDICES_TYPE (acc.2.2 + indices_offset)
      (positions_buffer, indices_buffer, acc.2.2 + 1))
    (positions_buffer, indices_buffer, 0)

/-- The body of the polygon loop of `createLineBuffers` (lines 842-884). -/
def createLineBuffers_polygon (toF : D → F) (zmin zmax : F) (st : LineState F)
    (poly : Polygon D) : LineState F :=
  let points_count := poly.point_array.length
  let indices_offset := st.indices_offset
  -- BOTTOM
  let ring := line_ring toF poly.point_array zmin indices_offset st.positions_buffer
    st.indices_buffer
  let positions_buffer := ring.1
  let indices_buffer := ring.2.1.insert sizeof_INDICES_TYPE indices_offset
  let indices_buffer := indices_buffer.insert sizeof_INDICES_TYPE RESTART_INDEX_VALUE
  let indices_offset := indices_offset + points_count
  -- TOP
  let ring := line_ring toF poly.point_array zmax indices_offset positions_buffer
    indices_buffer
  let positions_buffer := ring.1
  let indices_buffer := ring.2.1.insert sizeof_INDICES_TYPE indices_offset
  let indices_buffer := indices_buffer.insert sizeof_INDICES_TYPE RESTART_INDEX_VALUE
  let indices_offset := indices_offset + points_count
  -- Vertical lines
  let indices_buffer :=
    (List.range points_count).foldl
      (fun indices_buffer k =>
        let indices_buffer :=
          indices_buffer.insert sizeof_INDICES_TYPE (k + indices_offset - points_count)
        let indices_buffer :=
          indices_buffer.insert sizeof_INDICES_TYPE (k + indices_offset - 2 * points_count)
        indices_buffer.insert sizeof_INDICES_TYPE RESTART_INDEX_VALUE)
      indices_buffer
  { positions_buffer := positions_buffer
    indices_buffer := indices_buffer
    indices_offset := indices_offset }

/-- The function `createLineBuffers` (lines 833-886). -/
def createLineBuffers (toF : D → F) (polygons : List (Polygon D))
    (positions_buffer : GrowBuffer F) (indices_buffer : GrowBuffer Nat) (zmin zmax : F) :
    LineBuffers F :=
  let st : LineState F :=
    { positions_buffer := positions_buffer.reset
      indices_buffer := indices_buffer.reset
      indices_offset := 0 }
  let st := polygons.foldl (createLineBuffers_polygon toF zmin zmax) st
  { positions_buffer := st.positions_buffer
    indices_buffer := st.indices_buffer }

end Lines

/-! ## Reference hierarchy -/

/-- The enum `gdstk::PropertyType`. -/
inductive PropertyType where
  | UnsignedInteger
  | Integer
  | Real
  | String
deriving DecidableEq, Repr

/-- One node of a `gdstk::PropertyValue` chain: its type tag and, of the payload union,
the `bytes` member the processor reads (as the C string it holds). -/
structure PropertyValue where
  type : PropertyType
  bytes : String
deriving DecidableEq, Repr

/-- One node of a `gdstk::Property` chain: its name and its chain of values (`value`
and the `next` links). -/
structure Property where
  name : String
  value : List PropertyValue
deriving DecidableEq, Repr

/-- The enum `gdstk::RepetitionType`. -/
inductive RepetitionType where
  | None
  | Rectangular
  | Regular
  | Explicit
  | ExplicitX
  | ExplicitY
deriving DecidableEq, Repr

/-- A `gdstk::Repetition` as the processor sees it: the type tag and the offsets that
`get_offsets` appends to an empty array. -/
structure Repetition (D : Type) where
  type : RepetitionType
  get_offsets : List (Vec2 D)
deriving DecidableEq, Repr

/-- The cell a reference points to, `ref->cell`, of which the name is read. -/
structure ReferencedCell where
  name : String
deriving DecidableEq, Repr

/-- The part of `gdstk::Reference` the processor reads. -/
structure Reference (D : Type) where
  cell : ReferencedCell
  origin : Vec2 D
  rotation : D
  x_reflection : Bool
  repetition : Repetition D
  properties : List Property
deriving DecidableEq, Repr

/-- The part of `gdstk::Cell` the reference walk reads. -/
structure Cell (D : Type) where
  name : String
  reference_array : List (Reference D)
deriving DecidableEq, Repr

/-- The part of `gdstk::Library` the reference walk reads. -/
structure Library (D : Type) where
  cell_array : List (Cell D)
deriving DecidableEq, Repr

/-- The calls into JavaScript made by the reference walk: `JS_gds_add_reference` with
its seven arguments, and `JS_gds_finished_references`. -/
inductive JSEvent (D : Type) where
  | gds_add_reference (parent_cell_name cell_name instance_name : String)
      (origin_x origin_y rotation : D) (x_reflection : Bool)
  | gds_finished_references
deriving DecidableEq, Repr

/-- The function `GDSTKUTIL_is_gds_property` (lines 264-272); the gdstk constant
`s_gds_property_name` is a parameter. -/
def GDSTKUTIL_is_gds_property (s_gds_property_name : String) (property : Property) : Bool :=
  if property.name ≠ s_gds_property_name then false
  else
    match property.value with
    | [] => false
    | attr :: next =>
      if attr.type ≠ PropertyType.UnsignedInteger then false
      else
        match next with
        | [] => false
        | value :: _ => if value.type ≠ PropertyType.String then false else true

/-- The function `GDSTKUTIL_get_first_gds_property` (lines 274-279): walks the chain
to the first GDS property and returns `properties->value->next`, or `NULL`. -/
def GDSTKUTIL_get_first_gds_property (s_gds_property_name : String) :
    List Property → Option PropertyValue
  | [] => none
  | property :: next =>
    if GDSTKUTIL_is_gds_property s_gds_property_name property then property.value.tail.head?
    else GDSTKUTIL_get_first_gds_property s_gds_property_name next

section References

variable {D : Type} [Add D]

/-- The instance name chosen for a reference (lines 536-546). -/
def child_instance_name (s_gds_property_name : String) (ref : Reference D) : String :=
  match GDSTKUTIL_get_first_gds_property s_gds_property_name ref.properties with
  | none => "???"
  | some gds_instance_name_prop => gds_instance_name_prop.bytes

/-- The body of the reference loop of `processReferencesHierarchy` (lines 534-576);
`events` is the log of JavaScript calls made so far. -/
def processReference (s_gds_property_name : String) (cell : Cell D) (ref : Reference D)
    (events : List (JSEvent D)) : List (JSEvent D) :=
  let child_instance_name := child_instance_name s_gds_property_name ref
  if ref.repetition.type ≠ RepetitionType.None then
    let offsets := ref.repetition.get_offsets
    offsets.foldl
      (fun events offset_p =>
        let origin_x := ref.origin.x + offset_p.x
        let origin_y := ref.origin.y + offset_p.y
        events ++ [JSEvent.gds_add_reference cell.name ref.cell.name child_instance_name
          origin_x origin_y ref.rotation ref.x_reflection])
      events
  else
    events ++ [JSEvent.gds_add_reference cell.name ref.cell.name child_instance_name
      ref.origin.x ref.origin.y ref.rotation ref.x_reflection]

/-- The function `processReferencesHierarchy` (lines 525-581): the JavaScript calls it
makes, in order. -/
def processReferencesHierarchy (s_gds_property_name : String) (lib : Library D) :
    List (JSEvent D) :=
  let events :=
    lib.cell_array.foldl
      (fun events cell =>
        cell.reference_array.foldl
          (fun events ref => processReference s_gds_property_name cell ref events)
          events)
      []
  events ++ [JSEvent.gds_finished_references]

end References

/-! ## The meshes as lists -/

section MeshLists

variable {D F : Type}

/-- The scalars of one ring of vertices at height `z`: `x, y, z` per vertex. -/
def cap_positions (toF : D → F) (vs : List (Vec2 D)) (z : F) : List F :=
  vs.flatMap fun v => [toF v.x, toF v.y, z]

/-- The 36 indices of the box of a rectangle whose first vertex has index 0: two
bottom triangles, two top triangles, and two triangles for each of the four walls. -/
def rectangle_local_indices : List Nat :=
  [0, 1, 2, 0, 2, 3,
   4, 5, 6, 4, 6, 7,
   4, 1, 0, 4, 5, 1,
   5, 2, 1, 5, 6, 2,
   6, 3, 2, 6, 7, 3,
   7, 0, 3, 7, 4, 0]

/-- The indices of the box of a rectangle whose first vertex has index `offset`. -/
def rectangle_indices (offset : Nat) : List Nat :=
  rectangle_local_indices.map (· + offset)

/-- The bottom cap of a triangulation: every triangle reversed, shifted by `offset`. -/
def bottom_cap_indices (ts : List Triangle) (offset : Nat) : List Nat :=
  ts.flatMap fun t => [t.v2 + offset, t.v1 + offset, t.v0 + offset]

/-- The top cap of a triangulation: every triangle as it is, shifted by `offset`. -/
def top_cap_indices (ts : List Triangle) (offset : Nat) : List Nat :=
  ts.flatMap fun t => [t.v0 + offset, t.v1 + offset, t.v2 + offset]

/-- The orientation the triangle loop ends with. -/
def inferred_orientation (ts : List Triangle) : Int :=
  ts.foldl update_orientation 0

/-- The two wall triangles between ring vertices `m_i` and `m_j`, with the bottom ring
at `bottom` and the top ring at `top`, in the vertex order chosen by `orientation`. -/
def wall_pair (orientation : Int) (bottom top m_i m_j : Nat) : List Nat :=
  if orientation = -1 then
    [m_i + bottom, m_j + bottom, m_i + top, m_j + bottom, m_j + top, m_i + top]
  else
    [m_i + top, m_j + bottom, m_i + bottom, m_i + top, m_j + top, m_j + bottom]

/-- The side walls over the `n` vertices of a triangulation without duplicates. -/
def side_wall_indices (n : Nat) (orientation : Int) (bottom top : Nat) : List Nat :=
  (List.range n).flatMap fun i => wall_pair orientation bottom top (i % n) ((i + 1) % n)

/-- The side walls over the `count` points of a polygon, through the mapping to the
vertex ids. -/
def side_wall_indices_remapped (mapping : List Nat) (count : Nat) (orientation : Int)
    (bottom top : Nat) : List Nat :=
  (List.range count).flatMap fun i =>
    wall_pair orientation bottom top
      (mapping.getD (i % count) 0) (mapping.getD ((i + 1) % count) 0)

end MeshLists


section MeshParts

variable {D F : Type}

/-- What one polygon adds to the mesh: the scalars appended to the positions buffer,
the indices appended to the indices buffer, the number of vertices by which
`indices_offset` advances, and the amounts added to the two local totals. -/
structure MeshPart (F : Type) where
  positions : List F
  indices : List Nat
  vertices : Nat
  stat_vertices : Nat
  stat_triangles : Nat
deriving DecidableEq, Repr

/-- The state of the polygon loop after one more part of the mesh was written. -/
def TriangulateState.append (st : TriangulateState F) (m : MeshPart F) : TriangulateState F :=
  { positions_buffer := st.positions_buffer.insert_all sizeof_POSITIONS_TYPE m.positions
    indices_buffer := st.indices_buffer.insert_all sizeof_INDICES_TYPE m.indices
    indices_offset := st.indices_offset + m.vertices
    total_vertices := st.total_vertices + m.stat_vertices
    total_triangles := st.total_triangles + m.stat_triangles }

/-- The box of a rectangle with points `p0 p1 p2 p3`, first vertex at `offset`. -/
def rectangle_part (toF : D → F) (p0 p1 p2 p3 : Vec2 D) (zmin zmax : F) (offset : Nat) :
    MeshPart F :=
  { positions :=
      cap_positions toF [p0, p1, p2, p3] zmin ++ cap_positions toF [p0, p1, p2, p3] zmax
    indices := rectangle_indices offset
    vertices := 8
    stat_vertices := 8
    stat_triangles := 12 }

/-- The side walls of the general branch for a polygon of `count` points. -/
def general_side_indices (r : CDTResult D) (count : Nat) (offset : Nat) : List Nat :=
  if r.dup_info.duplicates.length > 0 then
    side_wall_indices_remapped r.dup_info.mapping count (inferred_orientation r.triangles)
      offset (offset + r.vertices.length)
  else
    side_wall_indices r.vertices.length (inferred_orientation r.triangles)
      offset (offset + r.vertices.length)

/-- The extrusion of a triangulation `r` of a polygon of `count` points, first vertex
at `offset`: both rings of vertices, bottom cap, top cap, side walls. -/
def general_part (toF : D → F) (r : CDTResult D) (count : Nat) (zmin zmax : F)
    (offset : Nat) : MeshPart F :=
  { positions := cap_positions toF r.vertices zmin ++ cap_positions toF r.vertices zmax
    indices :=
      bottom_cap_indices r.triangles offset
        ++ top_cap_indices r.triangles (offset + r.vertices.length)
        ++ general_side_indices r count offset
    vertices := r.vertices.length + r.vertices.length
    stat_vertices := r.vertices.length
    stat_triangles := r.triangles.length }

/-- The constraint edges of a closed ring of `count` points. -/
def ring_edges (count : Nat) : List (Nat × Nat) :=
  (List.range count).map fun k => (k, (k + 1) % count)

end MeshParts

/-! ## Predicates used by the theorems -/

section Predicates

variable {D F : Type}

/-- The output of the triangulator for a polygon of `count` points is well formed:
every triangle vertex id is below the number of vertices, and the duplicate mapping
has one entry, below the number of vertices, for each of the `count` points. -/
def CDTResult.WellFormed (r : CDTResult D) (count : Nat) : Prop :=
  (∀ t ∈ r.triangles,
      t.v0 < r.vertices.length ∧ t.v1 < r.vertices.length ∧ t.v2 < r.vertices.length)
    ∧ r.dup_info.mapping.length = count
    ∧ ∀ m ∈ r.dup_info.mapping, m < r.vertices.length

/-- The invariant of the polygon loop of `triangulate`: both buffers are consistent,
the positions buffer holds three scalars for each of the `indices_offset` vertices,
every index written is below `indices_offset`, and the indices come in triples. -/
def TriangulateState.Inv (st : TriangulateState F) : Prop :=
  GrowBuffer.Consistent sizeof_POSITIONS_TYPE st.positions_buffer
    ∧ GrowBuffer.Consistent sizeof_INDICES_TYPE st.indices_buffer
    ∧ st.positions_buffer.items_count = 3 * st.indices_offset
    ∧ (∀ i ∈ st.indices_buffer.view, i < st.indices_offset)
    ∧ 3 ∣ st.indices_buffer.items_count

/-- A part of the mesh is in range at `offset`: three scalars per vertex, every index
below the offset after the part, and the indices come in triples. -/
def MeshPart.InRange (m : MeshPart F) (offset : Nat) : Prop :=
  m.positions.length = 3 * m.vertices
    ∧ (∀ i ∈ m.indices, i < offset + m.vertices)
    ∧ 3 ∣ m.indices.length

end Predicates

/-! ## Concrete inputs -/

/-- A buffer as `processCells` constructs it, `GrowBuffer(1024 * 1024)`. -/
def fresh_buffer {T : Type} : GrowBuffer T :=
  { expansion_size := 1024 * 1024
    current_offset := 0
    allocated_size := 1024 * 1024
    items_count := 0
    data := [] }

/-- The 10 by 10 square `(0,0), (0,10), (10,10), (10,0)`. -/
def square_10 : Polygon Int :=
  { point_array := [⟨0, 0⟩, ⟨0, 10⟩, ⟨10, 10⟩, ⟨10, 0⟩] }

/-- The triangle `(0,0), (4,0), (0,3)`. -/
def triangle_3 : Polygon Int :=
  { point_array := [⟨0, 0⟩, ⟨4, 0⟩, ⟨0, 3⟩] }

/-- A triangulator that answers a ring of points without duplicates with the fan of
triangles `(0, k, k + 1)` over the same points. -/
def fan_triangulator : Triangulator Int := fun vertices _ =>
  some
    { dup_info := { mapping := List.range vertices.length, duplicates := [] }
      vertices := vertices
      triangles := (List.range (vertices.length - 2)).map fun k => ⟨0, k + 1, k + 2⟩ }

/-! ## Triangles and edges of an index buffer -/

/-- The triangles of an index list: its consecutive triples. -/
def triangles_of : List Nat → List (Nat × Nat × Nat)
  | a :: b :: c :: rest => (a, b, c) :: triangles_of rest
  | _ => []

/-- The triangle `t` has the undirected edge between `u` and `v`: the two are
consecutive among its vertices, in one order or the other. -/
def has_edge (t : Nat × Nat × Nat) (u v : Nat) : Bool :=
  (t.1 == u && t.2.1 == v) || (t.2.1 == u && t.2.2 == v) || (t.2.2 == u && t.1 == v)
    || (t.1 == v && t.2.1 == u) || (t.2.1 == v && t.2.2 == u) || (t.2.2 == v && t.1 == u)

/-- The number of triangles of `ts` that have the undirected edge between `u` and `v`. -/
def edge_count (ts : List (Nat × Nat × Nat)) (u v : Nat) : Nat :=
  ts.countP fun t => has_edge t u v

/-- The triangles that the rectangle branch of `triangulate` adds to the indices buffer
of `st`: what the buffer holds after the branch, past what it held before. -/
def rectangle_branch_triangles {D F : Type} (toF : D → F) (p0 p1 p2 p3 : Vec2 D)
    (zmin zmax : F) (st : TriangulateState F) : List (Nat × Nat × Nat) :=
  triangles_of
    ((triangulate_rectangle toF p0 p1 p2 p3 zmin zmax st).indices_buffer.view.drop
      st.indices_buffer.size)

/-- The state of `triangulate` when it enters the polygon loop with fresh buffers. -/
def fresh_state {F : Type} : TriangulateState F :=
  { positions_buffer := fresh_buffer.reset
    indices_buffer := fresh_buffer.reset
    indices_offset := 0
    total_vertices := 0
    total_triangles := 0 }

/-! ## Geometry of a mesh with integer coordinates -/

/-- The vertex with index `i` of a positions list: the scalars `3 i`, `3 i + 1`,
`3 i + 2`. -/
def mesh_vertex (positions : List Int) (i : Nat) : Int × Int × Int :=
  (positions.getD (3 * i) 0, positions.getD (3 * i + 1) 0, positions.getD (3 * i + 2) 0)

/-- The right-hand-rule normal of the triangle `a b c`: `(b - a) × (c - a)`. -/
def triangle_normal (a b c : Int × Int × Int) : Int × Int × Int :=
  let ux := b.1 - a.1
  let uy := b.2.1 - a.2.1
  let uz := b.2.2 - a.2.2
  let vx := c.1 - a.1
  let vy := c.2.1 - a.2.1
  let vz := c.2.2 - a.2.2
  (uy * vz - uz * vy, uz * vx - ux * vz, ux * vy - uy * vx)

/-- The normals of the triangles of a mesh, in the order of the indices buffer. -/
def mesh_normals (positions : List Int) (indices : List Nat) : List (Int × Int × Int) :=
  (triangles_of indices).map fun t =>
    triangle_normal (mesh_vertex positions t.1) (mesh_vertex positions t.2.1)
      (mesh_vertex positions t.2.2)

/-- The 10 by 10 square in counter-clockwise order `(0,0), (10,0), (10,10), (0,10)`. -/
def square_10_ccw : Polygon Int :=
  { point_array := [⟨0, 0⟩, ⟨10, 0⟩, ⟨10, 10⟩, ⟨0, 10⟩] }

/-! ## The line buffers as lists -/

/-- The indices of one closed ring of `count` vertices starting at `offset`: the
vertices in order, the first one again, and the restart index. -/
def ring_indices (count offset : Nat) : List Nat :=
  (List.range count).map (· + offset) ++ [offset, RESTART_INDEX_VALUE]

/-- The indices of the vertical segments of a polygon of `count` points, written when
`indices_offset` is past both rings: top vertex, bottom vertex, restart index. -/
def strut_indices (count indices_offset : Nat) : List Nat :=
  (List.range count).flatMap fun k =>
    [k + indices_offset - count, k + indices_offset - 2 * count, RESTART_INDEX_VALUE]

/-- The indices that `createLineBuffers` writes for a polygon of `count` points whose
first vertex has index `offset`. -/
def line_indices (count offset : Nat) : List Nat :=
  ring_indices count offset ++ ring_indices count (offset + count)
    ++ strut_indices count (offset + count + count)

/-- The polygon without points. -/
def empty_polygon : Polygon Int :=
  { point_array := [] }

/-- The invariant of the polygon loop of `createLineBuffers` over polygons that have
points: both buffers are consistent, the positions buffer holds three scalars for
each of the `indices_offset` vertices, and every index written is the restart index
or below `indices_offset`. -/
def LineState.Inv {F : Type} (st : LineState F) : Prop :=
  GrowBuffer.Consistent sizeof_POSITIONS_TYPE st.positions_buffer
    ∧ GrowBuffer.Consistent sizeof_INDICES_TYPE st.indices_buffer
    ∧ st.positions_buffer.items_count = 3 * st.indices_offset
    ∧ ∀ i ∈ st.indices_buffer.view, i = RESTART_INDEX_VALUE ∨ i < st.indices_offset

/-! ## The reference walk as lists -/

section ReferenceLists

variable {D : Type} [Add D]

/-- The placement of the reference `ref` of `cell` at the point `(x, y)`. -/
def placement_at (s_gds_property_name : String) (cell : Cell D) (ref : Reference D)
    (x y : D) : JSEvent D :=
  JSEvent.gds_add_reference cell.name ref.cell.name
    (child_instance_name s_gds_property_name ref) x y ref.rotation ref.x_reflection

/-- The placements of one reference: one at its origin when it has no repetition, and
otherwise one for each offset of the repetition, at the origin plus the offset. -/
def reference_placements (s_gds_property_name : String) (cell : Cell D) (ref : Reference D) :
    List (JSEvent D) :=
  if ref.repetition.type = RepetitionType.None then
    [placement_at s_gds_property_name cell ref ref.origin.x ref.origin.y]
  else
    ref.repetition.get_offsets.map fun offset =>
      placement_at s_gds_property_name cell ref (ref.origin.x + offset.x)
        (ref.origin.y + offset.y)

/-- The placements of a library: by cell, then by reference of the cell, then by
offset of the repetition. -/
def library_placements (s_gds_property_name : String) (lib : Library D) : List (JSEvent D) :=
  lib.cell_array.flatMap fun cell =>
    cell.reference_array.flatMap fun ref => reference_placements s_gds_property_name cell ref

end ReferenceLists

/-- A property matches the GDS schema: its name is the GDS property name, its first
value is of type `UnsignedInteger`, and that value is immediately followed by a value
of type `String`. -/
def matches_gds_schema (s_gds_property_name : String) (property : Property) : Prop :=
  property.name = s_gds_property_name
    ∧ ∃ attr value rest, property.value = attr :: value :: rest
        ∧ attr.type = PropertyType.UnsignedInteger ∧ value.type = PropertyType.String

/-- A GDS property with attribute number `attr` and string `text`, as
`gdstk::set_gds_property` builds it; the property name is `"S_GDS_PROPERTY"`. -/
def gds_property (text : String) : Property :=
  { name := "S_GDS_PROPERTY"
    value := [⟨PropertyType.UnsignedInteger, ""⟩, ⟨PropertyType.String, text⟩] }

/-- A property that is not a GDS property: another name. -/
def other_property : Property :=
  { name := "comment"
    value := [⟨PropertyType.String, "note"⟩] }

/-- A reference to the cell `"inv"` at `(100, 200)`, without repetition, with the
given properties. -/
def single_reference (properties : List Property) : Reference Int :=
  { cell := ⟨"inv"⟩
    origin := ⟨100, 200⟩
    rotation := 0
    x_reflection := false
    repetition := ⟨RepetitionType.None, []⟩
    properties := properties }

/-- A reference to the cell `"inv"` at `(100, 200)`, repeated at three offsets. -/
def array_reference : Reference Int :=
  { cell := ⟨"inv"⟩
    origin := ⟨100, 200⟩
    rotation := 0
    x_reflection := true
    repetition := ⟨RepetitionType.Rectangular, [⟨0, 0⟩, ⟨10, 0⟩, ⟨20, 0⟩]⟩
    properties := [other_property, gds_property "X1", gds_property "X2"] }

/-- A cell `"top"` that owns the given references. -/
def top_cell (refs : List (Reference Int)) : Cell Int :=
  { name := "top", reference_array := refs }

/-! ## Buffers obtained through the interface -/

/-- The buffer `b` is obtained from the constructor by calls of `insert` (for elements
of `sizeof_T` bytes) and `reset`, and `high_water` is the largest number of elements it
has held so far. -/
inductive GrowBuffer.Reachable {T : Type} (sizeof_T : Nat) : GrowBuffer T → Nat → Prop where
  | construct (reserveBufferSize : Nat) (b : GrowBuffer T) :
      GrowBuffer.mk_reserve reserveBufferSize = some b → GrowBuffer.Reachable sizeof_T b 0
  | insert (b : GrowBuffer T) (high_water : Nat) (value : T) :
      GrowBuffer.Reachable sizeof_T b high_water →
        GrowBuffer.Reachable sizeof_T (b.insert sizeof_T value) (max high_water (b.items_count + 1))
  | reset (b : GrowBuffer T) (high_water : Nat) :
      GrowBuffer.Reachable sizeof_T b high_water →
        GrowBuffer.Reachable sizeof_T b.reset high_water

/-- A buffer of `uint32_t` that was constructed with 8 bytes, filled with three
elements and reset. -/
def used_buffer : GrowBuffer Nat :=
  ((((GrowBuffer.mk 1048576 0 8 0 []).insert 4 7).insert 4 8).insert 4 9).reset

/-! ## The whole mesh as a list, with the undefined reads -/

section CheckedParts

variable {D F : Type}

/-- The side walls through the mapping for the ring positions of a list, `none` when a
position has no entry in the mapping. -/
def collect_walls (mapping : List Nat) (count : Nat) (orientation : Int) (bottom top : Nat) :
    List Nat → Option (List Nat)
  | [] => some []
  | i :: rest => do
    let m_i ← mapping[i % count]?
    let m_j ← mapping[(i + 1) % count]?
    let walls ← collect_walls mapping count orientation bottom top rest
    pure (wall_pair orientation bottom top m_i m_j ++ walls)

/-- The part without vertices. -/
def MeshPart.empty : MeshPart F :=
  { positions := []
    indices := []
    vertices := 0
    stat_vertices := 0
    stat_triangles := 0 }

/-- Two parts of the mesh, one after the other. -/
def MeshPart.append (m n : MeshPart F) : MeshPart F :=
  { positions := m.positions ++ n.positions
    indices := m.indices ++ n.indices
    vertices := m.vertices + n.vertices
    stat_vertices := m.stat_vertices + n.stat_vertices
    stat_triangles := m.stat_triangles + n.stat_triangles }

/-- The extrusion of a triangulation `r` of a polygon of `count` points, `none` when
the side walls read outside the mapping. -/
def general_part_checked (toF : D → F) (r : CDTResult D) (count : Nat) (zmin zmax : F)
    (offset : Nat) : Option (MeshPart F) := do
  let sides ←
    if r.dup_info.duplicates.length > 0 then
      collect_walls r.dup_info.mapping count (inferred_orientation r.triangles) offset
        (offset + r.vertices.length) (List.range count)
    else
      some (side_wall_indices r.vertices.length (inferred_orientation r.triangles) offset
        (offset + r.vertices.length))
  pure
    { positions := cap_positions toF r.vertices zmin ++ cap_positions toF r.vertices zmax
      indices :=
        bottom_cap_indices r.triangles offset
          ++ top_cap_indices r.triangles (offset + r.vertices.length) ++ sides
      vertices := r.vertices.length + r.vertices.length
      stat_vertices := r.vertices.length
      stat_triangles := r.triangles.length }

/-- What the polygon `poly` adds to the mesh when the first free vertex index is
`offset`; `none` when the run does not get past the polygon. -/
def polygon_part [DecidableEq D] (toF : D → F) (cdt : Triangulator D) (zmin zmax : F)
    (offset : Nat) (poly : Polygon D) : Option (MeshPart F) :=
  match poly.point_array, is_rectangle poly with
  | [p0, p1, p2, p3], true => some (rectangle_part toF p0 p1 p2 p3 zmin zmax offset)
  | _, _ => do
    let es ← polygon_edges poly.point_array.length
    let r ← cdt poly.point_array es
    general_part_checked toF r poly.point_array.length zmin zmax offset

/-- What a list of polygons adds to the mesh when the first free vertex index is
`offset`. -/
def mesh_parts [DecidableEq D] (toF : D → F) (cdt : Triangulator D) (zmin zmax : F) :
    Nat → List (Polygon D) → Option (MeshPart F)
  | _, [] => some MeshPart.empty
  | offset, poly :: rest => do
    let m ← polygon_part toF cdt zmin zmax offset poly
    let ms ← mesh_parts toF cdt zmin zmax (offset + m.vertices) rest
    pure (m.append ms)

/-- What a consumer reads from the two buffers: the contents and `size()` of each. -/
def TriangulateResult.contents (r : TriangulateResult F) : List F × Nat × List Nat × Nat :=
  (r.positions_buffer.view, r.positions_buffer.size, r.indices_buffer.view,
    r.indices_buffer.size)

/-- What a consumer reads from the two line buffers. -/
def LineBuffers.contents (r : LineBuffers F) : List F × Nat × List Nat × Nat :=
  (r.positions_buffer.view, r.positions_buffer.size, r.indices_buffer.view,
    r.indices_buffer.size)

/-- The scalars that `createLineBuffers` writes for a list of polygons. -/
def lines_positions (toF : D → F) (zmin zmax : F) (polygons : List (Polygon D)) : List F :=
  polygons.flatMap fun poly =>
    cap_positions toF poly.point_array zmin ++ cap_positions toF poly.point_array zmax

/-- The indices that `createLineBuffers` writes for a list of polygons when the first
free vertex index is `offset`. -/
def lines_indices : Nat → List (Polygon D) → List Nat
  | _, [] => []
  | offset, poly :: rest =>
    line_indices poly.point_array.length offset
      ++ lines_indices (offset + poly.point_array.length + poly.point_array.length) rest

end CheckedParts

/-- A triangulator that rejects every polygon with more than four points and answers
the others as `fan_triangulator` does. -/
def strict_triangulator : Triangulator Int := fun vertices edges =>
  if vertices.length > 4 then none else fan_triangulator vertices edges

/-- A bow tie of five points whose edges cross. -/
def bow_tie : Polygon Int :=
  { point_array := [⟨0, 0⟩, ⟨4, 4⟩, ⟨4, 0⟩, ⟨0, 4⟩, ⟨2, 1⟩] }

/-- A triangle given with four points, the second one twice. -/
def triangle_dup : Polygon Int :=
  { point_array := [⟨0, 0⟩, ⟨4, 0⟩, ⟨4, 0⟩, ⟨0, 3⟩] }

/-- A triangulator that answers with the triangulation of `triangle_dup`: the
duplicate point removed, the mapping of the four points to the three vertices, and
one triangle. -/
def dedup_triangulator : Triangulator Int := fun _ _ =>
  some
    { dup_info := { mapping := [0, 1, 1, 2], duplicates := [2] }
      vertices := [⟨0, 0⟩, ⟨4, 0⟩, ⟨0, 3⟩]
      triangles := [⟨0, 1, 2⟩] }

/-! ## processGDS -/

/-- The comparison loop of `check_extension_matches` (lines 251-259), over the rest of
the file name from `offset` on and the rest of the extension.  The file name has at
least as many characters left as the extension; past its end the loop would read the
terminating zero, which differs from every character of the extension. -/
def check_extension_loop : List Char → List Char → Bool
  | _, [] => true
  | [], _ :: _ => false
  | f :: filename, t :: target_extension =>
    if f.toLower ≠ t.toLower then false
    else check_extension_loop filename target_extension

/-- The function `check_extension_matches` (lines 241-262); a C string is the list of
its characters. -/
def check_extension_matches (filename target_extension : String) : Bool :=
  let extension_length := target_extension.data.length
  let filename_len := filename.data.length
  -- Filename too short
  if filename_len < extension_length + 2
      ∨ filename.data.getD (filename_len - extension_length - 1) (Char.ofNat 0) ≠ '.' then
    false
  else
    let offset := filename_len - extension_length
    check_extension_loop (filename.data.drop offset) target_extension.data

/-- The fields of `gdstk::LibraryInfo` that `JS_gds_stats` passes on. -/
structure LibraryInfo (D : Type) where
  cell_names_count : Nat
  shape_tags_count : Nat
  label_tags_count : Nat
  num_polygons : Nat
  num_paths : Nat
  num_references : Nat
  num_labels : Nat
  unit : D
  precision : D
deriving DecidableEq, Repr

/-- The value of `gdstk::LibraryInfo lib_info = {}`. -/
def LibraryInfo.zero {D : Type} [Zero D] : LibraryInfo D :=
  { cell_names_count := 0
    shape_tags_count := 0
    label_tags_count := 0
    num_polygons := 0
    num_paths := 0
    num_references := 0
    num_labels := 0
    unit := 0
    precision := 0 }

/-- The gdstk calls of `processGDS`, which depend on the files and on the library:
`gds_info`, `read_gds`, `read_oas`, `Library::top_level` and `Cell::bounding_box`. -/
structure GdsEnvironment (D : Type) where
  gds_info : String → LibraryInfo D
  read_gds : String → Library D
  read_oas : String → Library D
  top_level : Library D → List (Cell D)
  bounding_box : Cell D → Vec2 D × Vec2 D

/-- The calls into JavaScript made by `processGDS`: `JS_gds_process_progress`,
`JS_gds_stats`, `JS_gds_add_cell`, and the calls of the reference walk.  The progress
is an exact number.  The calls of `JS_gds_info_log`, which carry formatted text and
the elapsed time, are not recorded. -/
inductive ProcessEvent (D : Type) where
  | gds_process_progress (progress : ℚ)
  | gds_stats (design_name : String) (info : LibraryInfo D)
  | gds_add_cell (cell_name : String) (min max : Vec2 D) (is_top_cell : Bool)
  | reference_walk (event : JSEvent D)
deriving DecidableEq, Repr

section ProcessGDS

variable {D : Type} [DecidableEq D] [Add D] [Zero D]

/-- The part of `processGDS` after the library was read (lines 323-354): the top
cell, the statistics, the bounding box of every cell, the reference walk.  Reading
`top_cells[0]` of an empty array is undefined. -/
def process_library (env : GdsEnvironment D) (s_gds_property_name : String)
    (g_lib : Library D) (lib_info : LibraryInfo D) (events : List (ProcessEvent D)) :
    Option (List (ProcessEvent D)) :=
  let events := events ++ [ProcessEvent.gds_process_progress 5]
  let top_cells := env.top_level g_lib
  match top_cells with
  | [] => none
  | top_cell :: _ =>
    let events := events ++ [ProcessEvent.gds_stats top_cell.name lib_info]
    let events :=
      g_lib.cell_array.foldl
        (fun events cell =>
          let box := env.bounding_box cell
          let is_top_cell := decide (cell ∈ top_cells)
          events ++ [ProcessEvent.gds_add_cell cell.name box.1 box.2 is_top_cell])
        events
    some (events
      ++ (processReferencesHierarchy s_gds_property_name g_lib).map ProcessEvent.reference_walk)

/-- The function `processGDS` (lines 296-355): the library it leaves in `g_lib` and the
JavaScript calls it makes, in order.  The flag `opt_just_lines` is only logged. -/
def processGDS (env : GdsEnvironment D) (s_gds_property_name : String)
    (gds_filepath : String) (_opt_just_lines : Bool) :
    Option (Library D × List (ProcessEvent D)) :=
  let events := [ProcessEvent.gds_process_progress 0]
  let lib_info : LibraryInfo D := LibraryInfo.zero
  let read : LibraryInfo D × List (ProcessEvent D) × Library D :=
    if check_extension_matches gds_filepath "gds" then
      let lib_info := env.gds_info gds_filepath
      let events := events ++ [ProcessEvent.gds_process_progress 1]
      (lib_info, events, env.read_gds gds_filepath)
    else
      (lib_info, events, env.read_oas gds_filepath)
  let g_lib := read.2.2
  (process_library env s_gds_property_name g_lib read.1 read.2.1).map fun events =>
    (g_lib, events)

end ProcessGDS

/-- A library of one cell `"top"` with one reference. -/
def small_library : Library Int :=
  { cell_array := [top_cell [single_reference []]] }

/-- An environment in which every file reads as `small_library`, every cell is a top
cell, and every bounding box is the square from `(0, 0)` to `(10, 10)`. -/
def small_environment : GdsEnvironment Int :=
  { gds_info := fun _ => LibraryInfo.zero
    read_gds := fun _ => small_library
    read_oas := fun _ => small_library
    top_level := fun lib => lib.cell_array
    bounding_box := fun _ => (⟨0, 0⟩, ⟨10, 10⟩) }

/-! ## Orientation and the rectangle test in words -/

/-- One of the cyclic vertex-index differences `v0 - v1`, `v1 - v2`, `v2 - v0` of the
triangle is `+1`. -/
def Triangle.has_plus_one (t : Triangle) : Prop :=
  (t.v0 : Int) - (t.v1 : Int) = 1 ∨ (t.v1 : Int) - (t.v2 : Int) = 1
    ∨ (t.v2 : Int) - (t.v0 : Int) = 1

/-- One of the cyclic vertex-index differences of the triangle is `-1`. -/
def Triangle.has_minus_one (t : Triangle) : Prop :=
  (t.v0 : Int) - (t.v1 : Int) = -1 ∨ (t.v1 : Int) - (t.v2 : Int) = -1
    ∨ (t.v2 : Int) - (t.v0 : Int) = -1

instance (t : Triangle) : Decidable t.has_plus_one := by
  unfold Triangle.has_plus_one
  infer_instance

instance (t : Triangle) : Decidable t.has_minus_one := by
  unfold Triangle.has_minus_one
  infer_instance

/-- A quadrilateral that is not a rectangle. -/
def quad_4 : Polygon Int :=
  { point_array := [⟨0, 0⟩, ⟨4, 0⟩, ⟨5, 3⟩, ⟨0, 3⟩] }

/-- A triangulator that answers a ring of four points with the two triangles
`(0, 1, 2)` and `(3, 2, 0)`. -/
def twisted_triangulator : Triangulator Int := fun vertices _ =>
  some
    { dup_info := { mapping := List.range vertices.length, duplicates := [] }
      vertices := vertices
      triangles := [⟨0, 1, 2⟩, ⟨3, 2, 0⟩] }

/-! ## Composition of line buffers -/

/-- The number of vertices that `createLineBuffers` writes for a list of polygons: two
for every point. -/
def lines_vertices {D : Type} : List (Polygon D) → Nat
  | [] => 0
  | poly :: rest => poly.point_array.length + poly.point_array.length + lines_vertices rest

/-- An index moved up by `n` vertices; the restart index stays as it is. -/
def shift_index (n i : Nat) : Nat :=
  if i = RESTART_INDEX_VALUE then i else i + n

/-! ## The layer stack and processCells -/

/-- A gdstk `Tag`, which `make_tag` packs from a layer number and a datatype and
`get_layer` and `get_type` take apart. -/
structure Tag where
  layer : Nat
  type : Nat
deriving DecidableEq, Repr

/-- The gdstk function `make_tag`. -/
def make_tag (layer type : Nat) : Tag :=
  { layer := layer, type := type }

/-- The gdstk function `get_layer`. -/
def get_layer (tag : Tag) : Nat :=
  tag.layer

/-- The gdstk function `get_type`. -/
def get_type (tag : Tag) : Nat :=
  tag.type

/-- What `strncpy(dest, src, n)` leaves in the first `n` characters of `dest`: the
first `n` characters of the C string `src`, filled up with zeros. -/
def strncpy (src : List Char) (n : Nat) : List Char :=
  src.take n ++ List.replicate (n - src.length) (Char.ofNat 0)

/-- The C string held by a character array: the characters before the first zero. -/
def c_string (buffer : List Char) : List Char :=
  buffer.takeWhile fun c => c ≠ Char.ofNat 0

/-- The struct `layer_stack_data` (lines 92-103); `name` is the array `char name[255]`. -/
structure layer_stack_data (D : Type) where
  tag : Tag
  name : List Char
  zmin : D
  zmax : D
deriving DecidableEq, Repr

/-- The constructor of `layer_stack_data` (lines 98-102): `strncpy` of 255 characters,
then a zero in the last place. -/
def layer_stack_data.construct {D : Type} (tag : Tag) (name : String) (zmin zmax : D) :
    layer_stack_data D :=
  let buffer := strncpy name.data 255
  let buffer := buffer.set (255 - 1) (Char.ofNat 0)
  { tag := tag, name := buffer, zmin := zmin, zmax := zmax }

/-- The function `addProcessLayer` (lines 284-290) on the global `g_layer_stack`. -/
def addProcessLayer {D : Type} (g_layer_stack : List (layer_stack_data D))
    (layer_number layer_datatype : Nat) (name : String) (layer_zmin layer_zmax : D) :
    List (layer_stack_data D) :=
  let layer := layer_stack_data.construct (make_tag layer_number layer_datatype) name
    layer_zmin layer_zmax
  g_layer_stack ++ [layer]

/-- The part of `gdstk::Label` that `processCells` reads. -/
structure Label (D : Type) where
  tag : Tag
  text : String
  origin : Vec2 D
deriving DecidableEq, Repr

/-- The gdstk calls of `processCells` that inspect a cell: `Cell::get_polygons` and
`Cell::get_labels` for a tag. -/
structure CellsEnvironment (D : Type) where
  get_polygons : Cell D → Tag → List (Polygon D)
  get_labels : Cell D → Tag → List (Label D)

/-- The calls into JavaScript made by `processCells`: `JS_gds_add_mesh` and
`JS_gds_add_lines` with the contents of the two buffers, `JS_gds_add_label`, and
`JS_gds_process_progress`.  Heights of labels and progress are exact numbers. -/
inductive CellsEvent (D F : Type) where
  | gds_add_mesh (cell_name mesh_name : String) (tag_layer tag_type : Nat)
      (positions : List F) (indices : List Nat)
  | gds_add_lines (cell_name mesh_name : String) (tag_layer tag_type : Nat)
      (positions : List F) (indices : List Nat)
  | gds_add_label (cell_name : String) (tag_layer tag_type : Nat) (text : String)
      (origin_x origin_y : D) (pos_z : ℚ)
  | gds_process_progress (progress : ℚ)
deriving DecidableEq, Repr

/-- The function `buildMeshName` (lines 219-222): the two names joined by `_`. -/
def buildMeshName (cell_name layer_name : String) : String :=
  cell_name ++ "_" ++ layer_name

/-- The tables `label_layers` and `label_layers_heights` of `processCells`. -/
def label_layers : List (Tag × ℚ) :=
  [(make_tag 67 5, 1136 / 1000 + 3 / 100), (make_tag 68 5, 1736 / 1000 + 3 / 100),
   (make_tag 69 5, 236 / 100 + 3 / 100), (make_tag 70 5, 3631 / 1000 + 3 / 100),
   (make_tag 71 5, 48661 / 10000 + 3 / 100), (make_tag 72 5, 66311 / 10000 + 3 / 100)]

/-- The variables of `processCells` that live across its loops: the two buffers, the
global statistics, and the JavaScript calls made so far. -/
structure CellsState (D F : Type) where
  positions_buffer : GrowBuffer F
  indices_buffer : GrowBuffer Nat
  g_triangulation_stats : TriangulationStats
  events : List (CellsEvent D F)

section ProcessCells

variable {D F : Type} [DecidableEq D]

/-- The body of the layer loop of `processCells` (lines 383-417). -/
def process_cell_layer (toF : D → F) (cdt : Triangulator D) (env : CellsEnvironment D)
    (opt_just_lines : Bool) (cell : Cell D) (st : CellsState D F)
    (layer : layer_stack_data D) : Option (CellsState D F) :=
  let tag := layer.tag
  let polygons := env.get_polygons cell tag
  if polygons.length > 0 then
    let mesh_name := buildMeshName cell.name (String.mk (c_string layer.name))
    if opt_just_lines then
      -- Lines
      let r := createLineBuffers toF polygons st.positions_buffer st.indices_buffer
        (toF layer.zmin) (toF layer.zmax)
      some
        { st with
          positions_buffer := r.positions_buffer
          indices_buffer := r.indices_buffer
          events := st.events ++ [CellsEvent.gds_add_lines cell.name mesh_name
            (get_layer tag) (get_type tag) r.positions_buffer.view r.indices_buffer.view] }
    else do
      -- Triangles
      let r ← triangulate toF cdt polygons st.positions_buffer st.indices_buffer
        (toF layer.zmin) (toF layer.zmax) st.g_triangulation_stats
      some
        { positions_buffer := r.positions_buffer
          indices_buffer := r.indices_buffer
          g_triangulation_stats := r.g_triangulation_stats
          events := st.events ++ [CellsEvent.gds_add_mesh cell.name mesh_name
            (get_layer tag) (get_type tag) r.positions_buffer.view r.indices_buffer.view] }
  else some st

/-- The label loops of `processCells` (lines 496-510) for one cell. -/
def process_cell_labels (env : CellsEnvironment D) (cell : Cell D)
    (events : List (CellsEvent D F)) : List (CellsEvent D F) :=
  label_layers.foldl
    (fun events entry =>
      let tag := entry.1
      let pos_z := entry.2
      let labels := env.get_labels cell tag
      labels.foldl
        (fun events label =>
          events ++ [CellsEvent.gds_add_label cell.name (get_layer label.tag)
            (get_type label.tag) label.text label.origin.x label.origin.y pos_z])
        events)
    events

/-- The body of the cell loop of `processCells` (lines 375-514) for the cell with
index `i` among `count` cells. -/
def process_cell (toF : D → F) (cdt : Triangulator D) (env : CellsEnvironment D)
    (g_layer_stack : List (layer_stack_data D)) (opt_just_lines : Bool) (count : Nat)
    (acc : CellsState D F × Nat) (cell : Cell D) : Option (CellsState D F × Nat) := do
  let i := acc.2
  -- LOOP LAYERS IN CELL
  let st ← g_layer_stack.foldlM (process_cell_layer toF cdt env opt_just_lines cell) acc.1
  -- LABELS
  let events := process_cell_labels env cell st.events
  let perc : ℚ := ((i : ℚ) + 1) / (count : ℚ)
  let perc := perc * 95 + 5
  some ({ st with events := events ++ [CellsEvent.gds_process_progress perc] }, i + 1)

/-- The function `processCells` (lines 362-522) on the globals `g_lib`, `g_layer_stack`
and `g_triangulation_stats`: the statistics it leaves and the JavaScript calls it
makes, in order. -/
def processCells (toF : D → F) (cdt : Triangulator D) (env : CellsEnvironment D)
    (g_lib : Library D) (g_layer_stack : List (layer_stack_data D))
    (g_triangulation_stats : TriangulationStats) (opt_just_lines : Bool) :
    Option (TriangulationStats × List (CellsEvent D F)) := do
  let positions_buffer ← GrowBuffer.mk_reserve (1024 * 1024)
  let indices_buffer ← GrowBuffer.mk_reserve (1024 * 1024)
  let st : CellsState D F :=
    { positions_buffer := positions_buffer
      indices_buffer := indices_buffer
      g_triangulation_stats := g_triangulation_stats
      events := [] }
  let acc ← g_lib.cell_array.foldlM
    (process_cell toF cdt env g_layer_stack opt_just_lines g_lib.cell_array.length) (st, 0)
  some (acc.1.g_triangulation_stats,
    acc.1.events ++ [CellsEvent.gds_process_progress 100])

end ProcessCells

/-- The progress values among the JavaScript calls of `processCells`, in order. -/
def progress_values {D F : Type} (events : List (CellsEvent D F)) : List ℚ :=
  events.filterMap fun e =>
    match e with
    | CellsEvent.gds_process_progress p => some p
    | _ => none

/-- A library of three cells without references. -/
def three_cells : Library Int :=
  { cell_array := [⟨"a", []⟩, ⟨"b", []⟩, ⟨"c", []⟩] }

/-- An environment in which every cell has the 10 by 10 square on layer 68/20 and no
label. -/
def square_environment : CellsEnvironment Int :=
  { get_polygons := fun _ tag => if tag = make_tag 68 20 then [square_10] else []
    get_labels := fun _ _ => [] }

/-- The layer stack after `addProcessLayer(68, 20, "met1", 0, 1)`. -/
def met1_stack : List (layer_stack_data Int) :=
  addProcessLayer [] 68 20 "met1" 0 1

/-! # Lemmas and theorems -/

namespace GrowBuffer
variable {T : Type}

theorem consistent_reset {s : Nat} (hs : 0 < s) (b : GrowBuffer T) : Consistent s b.reset := by
  simp [Consistent, reset, hs]

@[simp] theorem view_reset (b : GrowBuffer T) : b.reset.view = [] := by
  simp [view, reset]

theorem view_length {s : Nat} {b : GrowBuffer T} (h : Consistent s b) :
    b.view.length = b.items_count := by
  simp [view, h.2.2]

theorem consistent_insert {s : Nat} {b : GrowBuffer T} (h : Consistent s b) (v : T) :
    Consistent s (b.insert s v) ∧ (b.insert s v).view = b.view ++ [v] := by
  obtain ⟨hs, hoff, hlen⟩ := h
  have hslot : b.current_offset / s = b.items_count := by
    rw [hoff]; exact Nat.mul_div_cancel_left _ hs
  have htake : (b.data.take b.items_count).length = b.items_count := by
    simp [hlen]
  refine ⟨⟨hs, ?_, ?_⟩, ?_⟩
  · simp [insert, hoff, Nat.mul_add]
  · simp only [insert, write_slot, hslot, List.length_append, htake, List.length_singleton]
    omega
  · simp only [insert, view, write_slot, hslot]
    rw [List.append_assoc, List.take_append_eq_append_take, htake]
    simp [List.take_take]

theorem consistent_insert_all {s : Nat} (values : List T) :
    ∀ {b : GrowBuffer T}, Consistent s b →
      Consistent s (b.insert_all s values) ∧ (b.insert_all s values).view = b.view ++ values := by
  induction values with
  | nil => intro b h; exact ⟨h, by simp [insert_all]⟩
  | cons v vs ih =>
    intro b h
    obtain ⟨h1, h2⟩ := consistent_insert h v
    obtain ⟨h3, h4⟩ := ih h1
    refine ⟨h3, ?_⟩
    have : b.insert_all s (v :: vs) = (b.insert s v).insert_all s vs := rfl
    rw [this, h4, h2]; simp

theorem insert_all_append (s : Nat) (b : GrowBuffer T) (xs ys : List T) :
    b.insert_all s (xs ++ ys) = (b.insert_all s xs).insert_all s ys := by
  simp [insert_all, List.foldl_append]

@[simp] theorem insert_all_nil (s : Nat) (b : GrowBuffer T) : b.insert_all s [] = b := rfl

theorem foldl_insert_all {α : Type} (s : Nat) (f : α → List T) (xs : List α) :
    ∀ b : GrowBuffer T,
      xs.foldl (fun b x => b.insert_all s (f x)) b = b.insert_all s (xs.flatMap f) := by
  induction xs with
  | nil => intro b; rfl
  | cons x xs ih =>
    intro b
    simp only [List.foldl_cons, List.flatMap_cons, insert_all_append, ih]

end GrowBuffer

section
variable {D F : Type}

theorem insert_vertex_eq (b : GrowBuffer F) (x y z : F) :
    insert_vertex b x y z = b.insert_all sizeof_POSITIONS_TYPE [x, y, z] := rfl

theorem insert_triangle_eq (b : GrowBuffer Nat) (x y z : Nat) :
    insert_triangle b x y z = b.insert_all sizeof_INDICES_TYPE [x, y, z] := rfl

theorem triangulate_rectangle_eq (toF : D → F) (p0 p1 p2 p3 : Vec2 D) (zmin zmax : F)
    (st : TriangulateState F) :
    triangulate_rectangle toF p0 p1 p2 p3 zmin zmax st =
      { positions_buffer :=
          st.positions_buffer.insert_all sizeof_POSITIONS_TYPE
            (cap_positions toF [p0, p1, p2, p3] zmin ++ cap_positions toF [p0, p1, p2, p3] zmax)
        indices_buffer :=
          st.indices_buffer.insert_all sizeof_INDICES_TYPE (rectangle_indices st.indices_offset)
        indices_offset := st.indices_offset + 8
        total_vertices := st.total_vertices + 8
        total_triangles := st.total_triangles + 12 } := by
  have hr : List.range 4 = [0, 1, 2, 3] := by decide
  simp only [triangulate_rectangle, hr, List.foldl_cons, List.foldl_nil, insert_vertex_eq,
    insert_triangle_eq, ← GrowBuffer.insert_all_append, cap_positions, rectangle_indices,
    rectangle_local_indices, List.flatMap_cons, List.flatMap_nil, List.map_cons, List.map_nil,
    List.cons_append, List.nil_append, List.append_nil]
  simp [Nat.add_comm, Nat.add_left_comm, Nat.add_assoc]

end

section
variable {D F : Type}

theorem foldl_push_points (ps : List (Vec2 D)) :
    ∀ acc : List (Vec2 D),
      ps.foldl (fun vertices point => vertices ++ [(⟨point.x, point.y⟩ : Vec2 D)]) acc
        = acc ++ ps := by
  induction ps with
  | nil => intro acc; simp
  | cons p ps ih => intro acc; simp [ih]

theorem foldl_cap_positions (toF : D → F) (z : F) (vs : List (Vec2 D)) (b : GrowBuffer F) :
    vs.foldl (fun positions_buffer v => insert_vertex positions_buffer (toF v.x) (toF v.y) z) b
      = b.insert_all sizeof_POSITIONS_TYPE (cap_positions toF vs z) := by
  simp only [insert_vertex_eq, cap_positions]
  exact GrowBuffer.foldl_insert_all _ _ vs b

theorem foldl_bottom_cap (offset : Nat) (ts : List Triangle) :
    ∀ (o : Int) (b : GrowBuffer Nat),
      ts.foldl
        (fun (acc : Int × GrowBuffer Nat) t =>
          (update_orientation acc.1 t,
            insert_triangle acc.2 (t.v2 + offset) (t.v1 + offset) (t.v0 + offset)))
        (o, b)
      = (ts.foldl update_orientation o,
          b.insert_all sizeof_INDICES_TYPE (bottom_cap_indices ts offset)) := by
  induction ts with
  | nil => intro o b; rfl
  | cons t ts ih =>
    intro o b
    rw [List.foldl_cons, ih]
    simp only [bottom_cap_indices, List.flatMap_cons, GrowBuffer.insert_all_append,
      insert_triangle_eq, List.foldl_cons]

theorem foldl_top_cap (offset : Nat) (ts : List Triangle) (b : GrowBuffer Nat) :
    ts.foldl
        (fun indices_buffer t =>
          insert_triangle indices_buffer (t.v0 + offset) (t.v1 + offset) (t.v2 + offset)) b
      = b.insert_all sizeof_INDICES_TYPE (top_cap_indices ts offset) := by
  simp only [insert_triangle_eq, top_cap_indices]
  exact GrowBuffer.foldl_insert_all _ _ ts b

theorem extrude_without_duplicates_eq (n : Nat) (o : Int) (bottom top : Nat)
    (b : GrowBuffer Nat) :
    extrude_without_duplicates n o bottom top b
      = b.insert_all sizeof_INDICES_TYPE (side_wall_indices n o bottom top) := by
  unfold extrude_without_duplicates side_wall_indices
  rw [← GrowBuffer.foldl_insert_all]
  congr 1
  funext ib i
  unfold wall_pair
  split <;> rfl

theorem wall_pair_step (mapping : List Nat) (count : Nat) (o : Int) (bottom top i : Nat)
    (h1 : i % count < mapping.length) (h2 : (i + 1) % count < mapping.length)
    (b : GrowBuffer Nat) :
    (do
        let m_i ← mapping[i % count]?
        let m_j ← mapping[(i + 1) % count]?
        let ai0 := m_i + bottom
        let ai1 := m_j + bottom
        let ai2 := m_i + top
        let bi0 := m_j + bottom
        let bi1 := m_j + top
        let bi2 := m_i + top
        if o = -1 then
          pure (insert_triangle (insert_triangle b ai0 ai1 ai2) bi0 bi1 bi2)
        else
          pure (insert_triangle (insert_triangle b ai2 ai1 ai0) bi2 bi1 bi0) : Option _)
      = some (b.insert_all sizeof_INDICES_TYPE
          (wall_pair o bottom top (mapping.getD (i % count) 0)
            (mapping.getD ((i + 1) % count) 0))) := by
  rw [List.getElem?_eq_getElem h1, List.getElem?_eq_getElem h2]
  simp only [Option.some_bind, Option.bind_eq_bind, List.getD_eq_getElem _ _ h1,
    List.getD_eq_getElem _ _ h2, wall_pair, insert_triangle_eq,
    ← GrowBuffer.insert_all_append, List.cons_append, List.nil_append]
  split <;> rfl

theorem extrude_with_duplicates_eq (mapping : List Nat) (count : Nat) (o : Int)
    (bottom top : Nat) (hlen : count ≤ mapping.length) (b : GrowBuffer Nat) :
    extrude_with_duplicates mapping count o bottom top b
      = some (b.insert_all sizeof_INDICES_TYPE
          (side_wall_indices_remapped mapping count o bottom top)) := by
  unfold extrude_with_duplicates side_wall_indices_remapped
  have key : ∀ (is : List Nat), (∀ i ∈ is, i < count) → ∀ b : GrowBuffer Nat,
      is.foldlM
        (fun indices_buffer i => do
          let m_i ← mapping[i % count]?
          let m_j ← mapping[(i + 1) % count]?
          let ai0 := m_i + bottom
          let ai1 := m_j + bottom
          let ai2 := m_i + top
          let bi0 := m_j + bottom
          let bi1 := m_j + top
          let bi2 := m_i + top
          if o = -1 then
            pure (insert_triangle (insert_triangle indices_buffer ai0 ai1 ai2) bi0 bi1 bi2)
          else
            pure (insert_triangle (insert_triangle indices_buffer ai2 ai1 ai0) bi2 bi1 bi0))
        b
      = some (b.insert_all sizeof_INDICES_TYPE
          (is.flatMap fun i =>
            wall_pair o bottom top (mapping.getD (i % count) 0)
              (mapping.getD ((i + 1) % count) 0))) := by
    intro is
    induction is with
    | nil => intro _ b; rfl
    | cons i is ih =>
      intro his b
      have hi : i < count := his i (List.mem_cons_self _ _)
      have hpos : 0 < count := by omega
      have h1 : i % count < mapping.length := lt_of_lt_of_le (Nat.mod_lt _ hpos) hlen
      have h2 : (i + 1) % count < mapping.length := lt_of_lt_of_le (Nat.mod_lt _ hpos) hlen
      rw [List.foldlM_cons, wall_pair_step mapping count o bottom top i h1 h2 b]
      simp only [Option.some_bind, Option.bind_eq_bind, List.flatMap_cons,
        GrowBuffer.insert_all_append]
      exact ih (fun j hj => his j (List.mem_cons_of_mem _ hj)) _
  exact key _ (fun i hi => List.mem_range.mp hi) b

end

section
variable {D F : Type}

theorem polygon_edges_isSome {count : Nat} (h : count ≠ 0) :
    ∃ es, polygon_edges count = some es := by
  simp [polygon_edges, h]

theorem polygon_edges_zero : polygon_edges 0 = none := rfl

theorem triangulate_general_eq (toF : D → F) (cdt : Triangulator D) (poly : Polygon D)
    (zmin zmax : F) (st : TriangulateState F) {es : List (Nat × Nat)} {r : CDTResult D}
    (hedges : polygon_edges poly.point_array.length = some es)
    (hcdt : cdt poly.point_array es = some r)
    (hmap : r.dup_info.duplicates.length > 0 →
      poly.point_array.length ≤ r.dup_info.mapping.length) :
    triangulate_general toF cdt poly zmin zmax st
      = some (st.append (general_part toF r poly.point_array.length zmin zmax
          st.indices_offset)) := by
  unfold triangulate_general
  simp only [foldl_push_points, List.nil_append, hedges, hcdt, Option.some_bind,
    Option.bind_eq_bind, foldl_cap_positions, foldl_bottom_cap, foldl_top_cap]
  by_cases hd : r.dup_info.duplicates.length > 0
  · simp only [hd, if_true, extrude_with_duplicates_eq _ _ _ _ _ (hmap hd), Option.some_bind,
      Option.pure_def, TriangulateState.append, general_part, general_side_indices,
      GrowBuffer.insert_all_append, inferred_orientation, Nat.add_assoc]
  · simp only [hd, if_false, extrude_without_duplicates_eq, Option.some_bind,
      Option.pure_def, TriangulateState.append, general_part, general_side_indices,
      GrowBuffer.insert_all_append, inferred_orientation, Nat.add_assoc]

theorem triangulate_general_none_of_edges (toF : D → F) (cdt : Triangulator D)
    (poly : Polygon D) (zmin zmax : F) (st : TriangulateState F)
    (h : polygon_edges poly.point_array.length = none) :
    triangulate_general toF cdt poly zmin zmax st = none := by
  simp [triangulate_general, h]

theorem triangulate_general_none_of_cdt (toF : D → F) (cdt : Triangulator D)
    (poly : Polygon D) (zmin zmax : F) (st : TriangulateState F) {es : List (Nat × Nat)}
    (hedges : polygon_edges poly.point_array.length = some es)
    (h : cdt poly.point_array es = none) :
    triangulate_general toF cdt poly zmin zmax st = none := by
  simp [triangulate_general, hedges, foldl_push_points, h]

theorem triangulate_polygon_rectangle [DecidableEq D] (toF : D → F) (cdt : Triangulator D)
    (zmin zmax : F) (st : TriangulateState F) (poly : Polygon D) (p0 p1 p2 p3 : Vec2 D)
    (hpts : poly.point_array = [p0, p1, p2, p3]) (hrect : is_rectangle poly = true) :
    triangulate_polygon toF cdt zmin zmax st poly
      = some (st.append (rectangle_part toF p0 p1 p2 p3 zmin zmax st.indices_offset)) := by
  unfold triangulate_polygon
  rw [hrect, hpts]
  simp only [triangulate_rectangle_eq, TriangulateState.append, rectangle_part]

theorem triangulate_polygon_general [DecidableEq D] (toF : D → F) (cdt : Triangulator D)
    (zmin zmax : F) (st : TriangulateState F) (poly : Polygon D)
    (hrect : is_rectangle poly = false) :
    triangulate_polygon toF cdt zmin zmax st poly
      = triangulate_general toF cdt poly zmin zmax st := by
  unfold triangulate_polygon
  rw [hrect]
  split
  · rename_i h; cases h
  · rfl

end

/-! ## The polygon loop -/

section
variable {D F : Type}

theorem triangulate_eq [DecidableEq D] (toF : D → F) (cdt : Triangulator D)
    (polygons : List (Polygon D)) (positions_buffer : GrowBuffer F)
    (indices_buffer : GrowBuffer Nat) (zmin zmax : F) (stats : TriangulationStats) :
    triangulate toF cdt polygons positions_buffer indices_buffer zmin zmax stats
      = (polygons.foldlM (triangulate_polygon toF cdt zmin zmax)
          { positions_buffer := positions_buffer.reset
            indices_buffer := indices_buffer.reset
            indices_offset := 0
            total_vertices := 0
            total_triangles := 0 }).map
          (fun st =>
            { positions_buffer := st.positions_buffer
              indices_buffer := st.indices_buffer
              g_triangulation_stats :=
                { total_vertices := stats.total_vertices + st.total_vertices
                  total_triangles := stats.total_triangles + st.total_triangles } }) := by
  unfold triangulate
  dsimp only
  generalize polygons.foldlM (triangulate_polygon toF cdt zmin zmax) _ = o
  cases o <;> rfl

theorem sizeof_POSITIONS_TYPE_pos : 0 < sizeof_POSITIONS_TYPE := by decide

theorem sizeof_INDICES_TYPE_pos : 0 < sizeof_INDICES_TYPE := by decide

/-- The view and the size of a buffer that was reset and then filled. -/
theorem view_insert_all_reset {T : Type} {s : Nat} (hs : 0 < s) (b : GrowBuffer T)
    (values : List T) :
    (b.reset.insert_all s values).view = values
      ∧ (b.reset.insert_all s values).size = values.length := by
  obtain ⟨h1, h2⟩ := GrowBuffer.consistent_insert_all values (GrowBuffer.consistent_reset hs b)
  refine ⟨by simpa using h2, ?_⟩
  rw [GrowBuffer.size, ← GrowBuffer.view_length h1, h2]
  simp

end

/-! ## C1 -/

section
variable {D F : Type}

/-- C1: for a polygon that takes the rectangle fast path, `triangulate` on the list
of that polygon alone returns, and leaves 24 position scalars (the four points in
ring order at `zmin`, then the same four points at `zmax`, so 8 vertices), 36 indices
(2 bottom, 2 top and 8 side triangles, so 12 triangles), and statistics increased by
8 vertices and 12 triangles. -/
theorem triangulate_rectangle_box [DecidableEq D] (toF : D → F) (cdt : Triangulator D)
    (poly : Polygon D) (p0 p1 p2 p3 : Vec2 D) (zmin zmax : F)
    (positions_buffer : GrowBuffer F) (indices_buffer : GrowBuffer Nat)
    (stats : TriangulationStats)
    (hpts : poly.point_array = [p0, p1, p2, p3]) (hrect : is_rectangle poly = true) :
    ∃ r, triangulate toF cdt [poly] positions_buffer indices_buffer zmin zmax stats = some r
      ∧ r.positions_buffer.view =
          [toF p0.x, toF p0.y, zmin, toF p1.x, toF p1.y, zmin,
           toF p2.x, toF p2.y, zmin, toF p3.x, toF p3.y, zmin,
           toF p0.x, toF p0.y, zmax, toF p1.x, toF p1.y, zmax,
           toF p2.x, toF p2.y, zmax, toF p3.x, toF p3.y, zmax]
      ∧ r.positions_buffer.size = 3 * 8
      ∧ r.indices_buffer.view =
          [0, 1, 2, 0, 2, 3,
           4, 5, 6, 4, 6, 7,
           4, 1, 0, 4, 5, 1, 5, 2, 1, 5, 6, 2, 6, 3, 2, 6, 7, 3, 7, 0, 3, 7, 4, 0]
      ∧ r.indices_buffer.size = 3 * 12
      ∧ r.g_triangulation_stats.total_vertices = stats.total_vertices + 8
      ∧ r.g_triangulation_stats.total_triangles = stats.total_triangles + 12 := by
  rw [triangulate_eq]
  simp only [List.foldlM_cons, List.foldlM_nil,
    triangulate_polygon_rectangle toF cdt zmin zmax _ poly p0 p1 p2 p3 hpts hrect]
  refine ⟨_, rfl, ?_, ?_, ?_, ?_, ?_, ?_⟩
  · exact (view_insert_all_reset sizeof_POSITIONS_TYPE_pos positions_buffer _).1
  · exact (view_insert_all_reset sizeof_POSITIONS_TYPE_pos positions_buffer _).2
  · exact (view_insert_all_reset sizeof_INDICES_TYPE_pos indices_buffer _).1
  · exact (view_insert_all_reset sizeof_INDICES_TYPE_pos indices_buffer _).2
  · simp [TriangulateState.append, rectangle_part]
  · simp [TriangulateState.append, rectangle_part]

end

section
variable {D F : Type}

/-- C1 at the 10 by 10 square with `zmin = 0`, `zmax = 5`. -/
theorem triangulate_rectangle_box_witness :
    square_10.point_array = [⟨0, 0⟩, ⟨0, 10⟩, ⟨10, 10⟩, ⟨10, 0⟩]
      ∧ is_rectangle square_10 = true
      ∧ ∃ r, triangulate (fun x : Int => x) fan_triangulator [square_10] fresh_buffer
            fresh_buffer 0 5 ⟨0, 0⟩ = some r
          ∧ r.positions_buffer.view =
              [0, 0, 0, 0, 10, 0, 10, 10, 0, 10, 0, 0,
               0, 0, 5, 0, 10, 5, 10, 10, 5, 10, 0, 5]
          ∧ r.positions_buffer.size = 3 * 8
          ∧ r.indices_buffer.view =
              [0, 1, 2, 0, 2, 3,
               4, 5, 6, 4, 6, 7,
               4, 1, 0, 4, 5, 1, 5, 2, 1, 5, 6, 2, 6, 3, 2, 6, 7, 3, 7, 0, 3, 7, 4, 0]
          ∧ r.indices_buffer.size = 3 * 12
          ∧ r.g_triangulation_stats.total_vertices = 0 + 8
          ∧ r.g_triangulation_stats.total_triangles = 0 + 12 :=
  ⟨rfl, by decide,
    triangulate_rectangle_box (fun x : Int => x) fan_triangulator square_10
      ⟨0, 0⟩ ⟨0, 10⟩ ⟨10, 10⟩ ⟨10, 0⟩ 0 5 fresh_buffer fresh_buffer ⟨0, 0⟩ rfl (by decide)⟩

end

/-! ## Index range (C2) -/

section
variable {D F : Type}

theorem length_flatMap_const {α β : Type} (f : α → List β) (k : Nat)
    (hf : ∀ x, (f x).length = k) (xs : List α) : (xs.flatMap f).length = k * xs.length := by
  induction xs with
  | nil => simp
  | cons x xs ih => simp [List.flatMap_cons, hf, ih, Nat.mul_add, Nat.add_comm]

theorem length_cap_positions (toF : D → F) (vs : List (Vec2 D)) (z : F) :
    (cap_positions toF vs z).length = 3 * vs.length := by
  unfold cap_positions
  apply length_flatMap_const
  intro _
  rfl

theorem length_bottom_cap_indices (ts : List Triangle) (offset : Nat) :
    (bottom_cap_indices ts offset).length = 3 * ts.length := by
  unfold bottom_cap_indices
  apply length_flatMap_const
  intro _
  rfl

theorem length_top_cap_indices (ts : List Triangle) (offset : Nat) :
    (top_cap_indices ts offset).length = 3 * ts.length := by
  unfold top_cap_indices
  apply length_flatMap_const
  intro _
  rfl

theorem length_wall_pair (o : Int) (bottom top a b : Nat) :
    (wall_pair o bottom top a b).length = 6 := by
  unfold wall_pair; split <;> rfl

theorem length_side_wall_indices (n : Nat) (o : Int) (bottom top : Nat) :
    (side_wall_indices n o bottom top).length = 6 * n := by
  unfold side_wall_indices
  rw [length_flatMap_const _ 6 (fun _ => length_wall_pair _ _ _ _ _), List.length_range]

theorem length_side_wall_indices_remapped (mapping : List Nat) (count : Nat) (o : Int)
    (bottom top : Nat) :
    (side_wall_indices_remapped mapping count o bottom top).length = 6 * count := by
  unfold side_wall_indices_remapped
  rw [length_flatMap_const _ 6 (fun _ => length_wall_pair _ _ _ _ _), List.length_range]

theorem mem_wall_pair {o : Int} {bottom top a b i : Nat} (h : i ∈ wall_pair o bottom top a b) :
    i = a + bottom ∨ i = b + bottom ∨ i = a + top ∨ i = b + top := by
  unfold wall_pair at h
  split at h <;> simp at h <;> omega

theorem rectangle_part_inRange (toF : D → F) (p0 p1 p2 p3 : Vec2 D) (zmin zmax : F)
    (offset : Nat) : (rectangle_part toF p0 p1 p2 p3 zmin zmax offset).InRange offset := by
  refine ⟨rfl, ?_, ⟨12, rfl⟩⟩
  intro i hi
  simp only [rectangle_part, rectangle_indices, rectangle_local_indices, List.map_cons,
    List.map_nil, List.mem_cons, List.mem_nil_iff, or_false] at hi
  simp only [rectangle_part]
  omega

theorem general_part_inRange (toF : D → F) (r : CDTResult D) (count : Nat) (zmin zmax : F)
    (offset : Nat) (hwf : r.WellFormed count) :
    (general_part toF r count zmin zmax offset).InRange offset := by
  obtain ⟨htri, hlen, hmap⟩ := hwf
  refine ⟨?_, ?_, ?_⟩
  · simp only [general_part, List.length_append, length_cap_positions]; omega
  · intro i hi
    simp only [general_part, List.mem_append, bottom_cap_indices, top_cap_indices,
      List.mem_flatMap, List.mem_cons, List.mem_nil_iff, or_false] at hi
    simp only [general_part]
    rcases hi with (⟨t, ht, h⟩ | ⟨t, ht, h⟩) | hi
    · have := htri t ht; omega
    · have := htri t ht; omega
    · unfold general_side_indices at hi
      split at hi
      · simp only [side_wall_indices_remapped, List.mem_flatMap, List.mem_range] at hi
        obtain ⟨k, hk, hmem⟩ := hi
        have hpos : 0 < count := by omega
        have h1 : k % count < r.dup_info.mapping.length := by
          rw [hlen]; exact Nat.mod_lt _ hpos
        have h2 : (k + 1) % count < r.dup_info.mapping.length := by
          rw [hlen]; exact Nat.mod_lt _ hpos
        have m1 := hmap _ (List.getElem_mem h1)
        have m2 := hmap _ (List.getElem_mem h2)
        rw [← List.getD_eq_getElem _ 0 h1] at m1
        rw [← List.getD_eq_getElem _ 0 h2] at m2
        have := mem_wall_pair hmem
        omega
      · simp only [side_wall_indices, List.mem_flatMap, List.mem_range] at hi
        obtain ⟨k, hk, hmem⟩ := hi
        have hpos : 0 < r.vertices.length := by omega
        have h1 := Nat.mod_lt k hpos
        have h2 := Nat.mod_lt (k + 1) hpos
        have := mem_wall_pair hmem
        omega
  · simp only [general_part, general_side_indices, List.length_append,
      length_bottom_cap_indices, length_top_cap_indices]
    split
    · rw [length_side_wall_indices_remapped]; omega
    · rw [length_side_wall_indices]; omega

theorem inv_append {st : TriangulateState F} {m : MeshPart F} (hst : st.Inv)
    (hm : m.InRange st.indices_offset) : (st.append m).Inv := by
  obtain ⟨hp, hi, hcount, hrange, hdiv⟩ := hst
  obtain ⟨mlen, mrange, mdiv⟩ := hm
  obtain ⟨hp1, hp2⟩ := GrowBuffer.consistent_insert_all m.positions hp
  obtain ⟨hi1, hi2⟩ := GrowBuffer.consistent_insert_all m.indices hi
  refine ⟨hp1, hi1, ?_, ?_, ?_⟩
  · have := GrowBuffer.view_length hp1
    have h0 := GrowBuffer.view_length hp
    simp only [TriangulateState.append] at *
    rw [← this, hp2, List.length_append, h0, hcount, mlen]; omega
  · intro i hmem
    simp only [TriangulateState.append] at *
    rw [hi2, List.mem_append] at hmem
    rcases hmem with h | h
    · have := hrange i h; omega
    · exact mrange i h
  · have := GrowBuffer.view_length hi1
    have h0 := GrowBuffer.view_length hi
    simp only [TriangulateState.append] at *
    rw [← this, hi2, List.length_append, h0]
    exact Nat.dvd_add hdiv mdiv

theorem inv_initial (positions_buffer : GrowBuffer F) (indices_buffer : GrowBuffer Nat) :
    TriangulateState.Inv
      { positions_buffer := positions_buffer.reset
        indices_buffer := indices_buffer.reset
        indices_offset := 0
        total_vertices := 0
        total_triangles := 0 } := by
  refine ⟨GrowBuffer.consistent_reset sizeof_POSITIONS_TYPE_pos _,
    GrowBuffer.consistent_reset sizeof_INDICES_TYPE_pos _, rfl, ?_, ?_⟩
  · intro i hi; simp at hi
  · simp [GrowBuffer.reset]

theorem is_rectangle_points [DecidableEq D] {poly : Polygon D} (h : is_rectangle poly = true) :
    ∃ p0 p1 p2 p3, poly.point_array = [p0, p1, p2, p3] := by
  unfold is_rectangle at h
  split at h
  · exact ⟨_, _, _, _, by assumption⟩
  · cases h

end

section
variable {D F : Type}

theorem triangulate_polygon_inv [DecidableEq D] (toF : D → F) (cdt : Triangulator D)
    (zmin zmax : F) {st st1 : TriangulateState F} (poly : Polygon D) (hst : st.Inv)
    (hwf : is_rectangle poly = false → ∀ es r,
      polygon_edges poly.point_array.length = some es → cdt poly.point_array es = some r →
        r.WellFormed poly.point_array.length)
    (h : triangulate_polygon toF cdt zmin zmax st poly = some st1) : st1.Inv := by
  cases hrect : is_rectangle poly with
  | true =>
    obtain ⟨p0, p1, p2, p3, hpts⟩ := is_rectangle_points hrect
    rw [triangulate_polygon_rectangle toF cdt zmin zmax st poly p0 p1 p2 p3 hpts hrect] at h
    cases h
    exact inv_append hst (rectangle_part_inRange _ _ _ _ _ _ _ _)
  | false =>
    rw [triangulate_polygon_general toF cdt zmin zmax st poly hrect] at h
    cases hedges : polygon_edges poly.point_array.length with
    | none => rw [triangulate_general_none_of_edges _ _ _ _ _ _ hedges] at h; cases h
    | some es =>
      cases hcdt : cdt poly.point_array es with
      | none => rw [triangulate_general_none_of_cdt _ _ _ _ _ _ hedges hcdt] at h; cases h
      | some r =>
        have hr := hwf hrect es r hedges hcdt
        rw [triangulate_general_eq toF cdt poly zmin zmax st hedges hcdt
          (fun _ => le_of_eq hr.2.1.symm)] at h
        cases h
        exact inv_append hst (general_part_inRange _ _ _ _ _ _ hr)

theorem triangulate_polygon_isSome [DecidableEq D] (toF : D → F) (cdt : Triangulator D)
    (zmin zmax : F) (st : TriangulateState F) (poly : Polygon D)
    (hwf : is_rectangle poly = false → ∀ es r,
      polygon_edges poly.point_array.length = some es → cdt poly.point_array es = some r →
        r.WellFormed poly.point_array.length)
    (hok : is_rectangle poly = false →
      poly.point_array ≠ [] ∧ ∀ es, polygon_edges poly.point_array.length = some es →
        (cdt poly.point_array es).isSome) :
    (triangulate_polygon toF cdt zmin zmax st poly).isSome := by
  cases hrect : is_rectangle poly with
  | true =>
    obtain ⟨p0, p1, p2, p3, hpts⟩ := is_rectangle_points hrect
    rw [triangulate_polygon_rectangle toF cdt zmin zmax st poly p0 p1 p2 p3 hpts hrect]
    rfl
  | false =>
    rw [triangulate_polygon_general toF cdt zmin zmax st poly hrect]
    obtain ⟨hne, hcdt⟩ := hok hrect
    have hcount : poly.point_array.length ≠ 0 := by simpa using hne
    obtain ⟨es, hedges⟩ := polygon_edges_isSome hcount
    obtain ⟨r, hr⟩ := Option.isSome_iff_exists.mp (hcdt es hedges)
    have hw := hwf hrect es r hedges hr
    rw [triangulate_general_eq toF cdt poly zmin zmax st hedges hr
      (fun _ => le_of_eq hw.2.1.symm)]
    rfl

theorem foldlM_triangulate_polygon_inv [DecidableEq D] (toF : D → F) (cdt : Triangulator D)
    (zmin zmax : F) (polygons : List (Polygon D)) :
    ∀ {st st1 : TriangulateState F}, st.Inv →
      (∀ poly ∈ polygons, is_rectangle poly = false → ∀ es r,
        polygon_edges poly.point_array.length = some es → cdt poly.point_array es = some r →
          r.WellFormed poly.point_array.length) →
      polygons.foldlM (triangulate_polygon toF cdt zmin zmax) st = some st1 → st1.Inv := by
  induction polygons with
  | nil => intro st st1 hst _ h; simp at h; cases h; exact hst
  | cons poly rest ih =>
    intro st st1 hst hwf h
    rw [List.foldlM_cons] at h
    cases hstep : triangulate_polygon toF cdt zmin zmax st poly with
    | none => rw [hstep] at h; cases h
    | some st2 =>
      rw [hstep] at h
      have h2 := triangulate_polygon_inv toF cdt zmin zmax poly hst
        (hwf poly (List.mem_cons_self _ _)) hstep
      exact ih h2 (fun p hp => hwf p (List.mem_cons_of_mem _ hp)) h

theorem foldlM_triangulate_polygon_isSome [DecidableEq D] (toF : D → F)
    (cdt : Triangulator D) (zmin zmax : F) (polygons : List (Polygon D)) :
    ∀ (st : TriangulateState F),
      (∀ poly ∈ polygons, is_rectangle poly = false → ∀ es r,
        polygon_edges poly.point_array.length = some es → cdt poly.point_array es = some r →
          r.WellFormed poly.point_array.length) →
      (∀ poly ∈ polygons, is_rectangle poly = false →
        poly.point_array ≠ [] ∧ ∀ es, polygon_edges poly.point_array.length = some es →
          (cdt poly.point_array es).isSome) →
      (polygons.foldlM (triangulate_polygon toF cdt zmin zmax) st).isSome := by
  induction polygons with
  | nil => intro st _ _; rfl
  | cons poly rest ih =>
    intro st hwf hok
    rw [List.foldlM_cons]
    obtain ⟨st2, hstep⟩ := Option.isSome_iff_exists.mp
      (triangulate_polygon_isSome toF cdt zmin zmax st poly
        (hwf poly (List.mem_cons_self _ _)) (hok poly (List.mem_cons_self _ _)))
    rw [hstep]
    exact ih st2 (fun p hp => hwf p (List.mem_cons_of_mem _ hp))
      (fun p hp => hok p (List.mem_cons_of_mem _ hp))

/-- C2: for every list of polygons and every `zmin`, `zmax` (equal or not), when the
output of the triangulator for the polygons on the general path is well formed, every
index that `triangulate` leaves in the indices buffer is below the number of vertices
in the positions buffer, `positions.size() / 3`, and the number of indices is a
multiple of 3; and `triangulate` does return when, in addition, every polygon on
the general path has a point and is accepted by the triangulator. -/
theorem triangulate_indices_in_range [DecidableEq D] (toF : D → F) (cdt : Triangulator D)
    (polygons : List (Polygon D)) (positions_buffer : GrowBuffer F)
    (indices_buffer : GrowBuffer Nat) (zmin zmax : F) (stats : TriangulationStats)
    (hwf : ∀ poly ∈ polygons, is_rectangle poly = false → ∀ es r,
      polygon_edges poly.point_array.length = some es → cdt poly.point_array es = some r →
        r.WellFormed poly.point_array.length) :
    (∀ r, triangulate toF cdt polygons positions_buffer indices_buffer zmin zmax stats = some r →
        (∀ i ∈ r.indices_buffer.view, i < r.positions_buffer.size / 3)
          ∧ 3 ∣ r.indices_buffer.size)
      ∧ ((∀ poly ∈ polygons, is_rectangle poly = false →
            poly.point_array ≠ [] ∧ ∀ es, polygon_edges poly.point_array.length = some es →
              (cdt poly.point_array es).isSome) →
          (triangulate toF cdt polygons positions_buffer indices_buffer zmin zmax
            stats).isSome) := by
  rw [triangulate_eq]
  constructor
  · intro r hr
    rw [Option.map_eq_some'] at hr
    obtain ⟨st, hfold, rfl⟩ := hr
    obtain ⟨_, _, hcount, hrange, hdiv⟩ :=
      foldlM_triangulate_polygon_inv toF cdt zmin zmax polygons
        (inv_initial positions_buffer indices_buffer) hwf hfold
    refine ⟨?_, hdiv⟩
    intro i hi
    have := hrange i hi
    simp only [GrowBuffer.size, hcount]
    omega
  · intro hok
    rw [Option.isSome_map']
    exact foldlM_triangulate_polygon_isSome toF cdt zmin zmax polygons _ hwf hok

end

theorem fan_triangulator_wellFormed {vs : List (Vec2 Int)} {es : List (Nat × Nat)}
    {r : CDTResult Int} (h : fan_triangulator vs es = some r) : r.WellFormed vs.length := by
  simp only [fan_triangulator, Option.some.injEq] at h
  subst h
  refine ⟨?_, by simp, ?_⟩
  · intro t ht
    simp only [List.mem_map, List.mem_range] at ht
    obtain ⟨k, hk, rfl⟩ := ht
    simp only
    omega
  · intro m hm
    simpa using hm

theorem example_polygons_accepted :
    ∀ poly ∈ [square_10, triangle_3], is_rectangle poly = false →
      poly.point_array ≠ [] ∧ ∀ es, polygon_edges poly.point_array.length = some es →
        (fan_triangulator poly.point_array es).isSome := by
  intro poly hp _
  refine ⟨?_, fun _ _ => rfl⟩
  simp only [List.mem_cons, List.mem_nil_iff, or_false] at hp
  rcases hp with rfl | rfl <;> simp [square_10, triangle_3]

/-- C2 at the list of the 10 by 10 square and a triangle, with `zmin = zmax = 0`. -/
theorem triangulate_indices_in_range_witness :
    (∀ poly ∈ [square_10, triangle_3], is_rectangle poly = false → ∀ es r,
        polygon_edges poly.point_array.length = some es →
          fan_triangulator poly.point_array es = some r →
            r.WellFormed poly.point_array.length)
      ∧ (∀ poly ∈ [square_10, triangle_3], is_rectangle poly = false →
          poly.point_array ≠ [] ∧ ∀ es, polygon_edges poly.point_array.length = some es →
            (fan_triangulator poly.point_array es).isSome)
      ∧ (∀ r, triangulate (fun x : Int => x) fan_triangulator [square_10, triangle_3]
            fresh_buffer fresh_buffer 0 0 ⟨0, 0⟩ = some r →
          (∀ i ∈ r.indices_buffer.view, i < r.positions_buffer.size / 3)
            ∧ 3 ∣ r.indices_buffer.size)
      ∧ (triangulate (fun x : Int => x) fan_triangulator [square_10, triangle_3]
            fresh_buffer fresh_buffer 0 0 ⟨0, 0⟩).isSome :=
  ⟨fun _ _ _ _ _ _ h => fan_triangulator_wellFormed h, example_polygons_accepted,
    (triangulate_indices_in_range (fun x : Int => x) fan_triangulator
      [square_10, triangle_3] fresh_buffer fresh_buffer 0 0 ⟨0, 0⟩
      (fun _ _ _ _ _ _ h => fan_triangulator_wellFormed h)).1,
    (triangulate_indices_in_range (fun x : Int => x) fan_triangulator
      [square_10, triangle_3] fresh_buffer fresh_buffer 0 0 ⟨0, 0⟩
      (fun _ _ _ _ _ _ h => fan_triangulator_wellFormed h)).2 example_polygons_accepted⟩

/-! ## C3 -/

section
variable {D F : Type}

/-- C3: for a polygon of `N` points on the general path, when the triangulator removes
no duplicate and returns `V = N` vertices and `T` triangles, `triangulate` on the
list of that polygon alone returns, and leaves `2 * V` vertices (three scalars each)
and `2 * T + 2 * N` triangles (three indices each). -/
theorem triangulate_general_counts [DecidableEq D] (toF : D → F) (cdt : Triangulator D)
    (poly : Polygon D) (zmin zmax : F) (positions_buffer : GrowBuffer F)
    (indices_buffer : GrowBuffer Nat) (stats : TriangulationStats)
    (es : List (Nat × Nat)) (r : CDTResult D)
    (hrect : is_rectangle poly = false)
    (hedges : polygon_edges poly.point_array.length = some es)
    (hcdt : cdt poly.point_array es = some r)
    (hnodup : r.dup_info.duplicates = [])
    (hV : r.vertices.length = poly.point_array.length) :
    ∃ res, triangulate toF cdt [poly] positions_buffer indices_buffer zmin zmax stats = some res
      ∧ res.positions_buffer.size = 3 * (2 * r.vertices.length)
      ∧ res.indices_buffer.size
          = 3 * (2 * r.triangles.length + 2 * poly.point_array.length) := by
  rw [triangulate_eq]
  simp only [List.foldlM_cons, List.foldlM_nil,
    triangulate_polygon_general toF cdt zmin zmax _ poly hrect]
  rw [triangulate_general_eq toF cdt poly zmin zmax _ hedges hcdt
    (fun h => by simp [hnodup] at h)]
  refine ⟨_, rfl, ?_, ?_⟩
  · refine ((view_insert_all_reset sizeof_POSITIONS_TYPE_pos positions_buffer _).2).trans ?_
    simp only [general_part, List.length_append, length_cap_positions]
    omega
  · refine ((view_insert_all_reset sizeof_INDICES_TYPE_pos indices_buffer _).2).trans ?_
    simp only [general_part, general_side_indices, hnodup, List.length_nil, gt_iff_lt,
      lt_self_iff_false, if_false, List.length_append, length_bottom_cap_indices,
      length_top_cap_indices, length_side_wall_indices]
    omega

/-- C3 at a triangle of 3 points with `zmin = 0`, `zmax = 1`, triangulated as one
triangle: 6 vertices and 8 triangles. -/
theorem triangulate_general_counts_witness :
    is_rectangle triangle_3 = false
      ∧ polygon_edges triangle_3.point_array.length = some [(0, 1), (1, 2), (2, 0)]
      ∧ fan_triangulator triangle_3.point_array [(0, 1), (1, 2), (2, 0)]
          = some ⟨⟨[0, 1, 2], []⟩, triangle_3.point_array, [⟨0, 1, 2⟩]⟩
      ∧ ∃ res, triangulate (fun x : Int => x) fan_triangulator [triangle_3] fresh_buffer
            fresh_buffer 0 1 ⟨0, 0⟩ = some res
          ∧ res.positions_buffer.size = 3 * (2 * 3)
          ∧ res.indices_buffer.size = 3 * (2 * 1 + 2 * 3) :=
  ⟨by decide, by decide, by decide,
    triangulate_general_counts (fun x : Int => x) fan_triangulator triangle_3 0 1
      fresh_buffer fresh_buffer ⟨0, 0⟩ [(0, 1), (1, 2), (2, 0)]
      ⟨⟨[0, 1, 2], []⟩, triangle_3.point_array, [⟨0, 1, 2⟩]⟩
      (by decide) (by decide) (by decide) rfl rfl⟩

end

/-! ## C4 -/

section
variable {D F : Type}

theorem triangles_of_map_add (offset : Nat) :
    ∀ (n : Nat) (l : List Nat), l.length ≤ n →
      triangles_of (l.map (· + offset))
        = (triangles_of l).map fun t => (t.1 + offset, t.2.1 + offset, t.2.2 + offset) := by
  intro n
  induction n using Nat.strong_induction_on with
  | _ n ih =>
    intro l hl
    match l, hl with
    | [], _ => rfl
    | [_], _ => rfl
    | [_, _], _ => rfl
    | a :: b :: c :: rest, hl =>
      simp only [List.map_cons, triangles_of]
      simp only [List.length_cons] at hl
      rw [ih rest.length (by omega) rest (le_refl _)]

theorem beq_add_right (a b offset : Nat) : (a + offset == b + offset) = (a == b) := by
  rw [Bool.eq_iff_iff, beq_iff_eq, beq_iff_eq]
  omega

theorem has_edge_shift (offset : Nat) (t : Nat × Nat × Nat) (u v : Nat) :
    has_edge (t.1 + offset, t.2.1 + offset, t.2.2 + offset) (u + offset) (v + offset)
      = has_edge t u v := by
  simp only [has_edge, beq_add_right]

theorem has_edge_shift_ge {offset : Nat} {t : Nat × Nat × Nat} {u v : Nat}
    (h : has_edge (t.1 + offset, t.2.1 + offset, t.2.2 + offset) u v = true) :
    offset ≤ u ∧ offset ≤ v := by
  simp only [has_edge, Bool.or_eq_true, Bool.and_eq_true, beq_iff_eq] at h
  omega

theorem edge_count_shift (offset : Nat) (ts : List (Nat × Nat × Nat)) (u v : Nat) :
    edge_count (ts.map fun t => (t.1 + offset, t.2.1 + offset, t.2.2 + offset))
        (u + offset) (v + offset)
      = edge_count ts u v := by
  unfold edge_count
  rw [List.countP_map]
  congr 1
  funext t
  exact has_edge_shift offset t u v

theorem rectangle_branch_triangles_eq (toF : D → F) (p0 p1 p2 p3 : Vec2 D) (zmin zmax : F)
    (st : TriangulateState F)
    (hc : GrowBuffer.Consistent sizeof_INDICES_TYPE st.indices_buffer) :
    rectangle_branch_triangles toF p0 p1 p2 p3 zmin zmax st
      = (triangles_of rectangle_local_indices).map fun t =>
          (t.1 + st.indices_offset, t.2.1 + st.indices_offset, t.2.2 + st.indices_offset) := by
  unfold rectangle_branch_triangles
  rw [triangulate_rectangle_eq]
  simp only
  rw [(GrowBuffer.consistent_insert_all _ hc).2, GrowBuffer.size, ← GrowBuffer.view_length hc,
    List.drop_left, rectangle_indices]
  exact triangles_of_map_add _ 36 _ (by decide)

set_option maxRecDepth 100000 in
theorem local_edges_twice :
    ∀ u < 8, ∀ v < 8, (∃ t ∈ triangles_of rectangle_local_indices, has_edge t u v = true) →
      edge_count (triangles_of rectangle_local_indices) u v = 2 := by
  decide

theorem local_edges_bound {t : Nat × Nat × Nat} (ht : t ∈ triangles_of rectangle_local_indices) :
    t.1 < 8 ∧ t.2.1 < 8 ∧ t.2.2 < 8 := by
  simp only [rectangle_local_indices, triangles_of, List.mem_cons, List.mem_nil_iff,
    or_false] at ht
  rcases ht with h | h | h | h | h | h | h | h | h | h | h | h <;> subst h <;> decide

theorem local_ring_edges :
    ∀ i < 4,
      edge_count ((triangles_of rectangle_local_indices).take 4) i ((i + 1) % 4) = 1
        ∧ edge_count ((triangles_of rectangle_local_indices).drop 4) i ((i + 1) % 4) = 1
        ∧ edge_count ((triangles_of rectangle_local_indices).take 4) (i + 4)
            ((i + 1) % 4 + 4) = 1
        ∧ edge_count ((triangles_of rectangle_local_indices).drop 4) (i + 4)
            ((i + 1) % 4 + 4) = 1 := by
  decide

end

section
variable {D F : Type}

/-- C4: the 12 triangles that the rectangle branch adds, at any index offset, use
the 8 vertex indices from the offset on and form a closed manifold: every undirected
edge of a triangle belongs to exactly two triangles; and every edge of the bottom
ring and of the top ring belongs to exactly one of the 4 cap triangles and exactly
one of the 8 side-wall triangles. -/
theorem rectangle_mesh_manifold (toF : D → F) (p0 p1 p2 p3 : Vec2 D) (zmin zmax : F)
    (st : TriangulateState F)
    (hc : GrowBuffer.Consistent sizeof_INDICES_TYPE st.indices_buffer) :
    (rectangle_branch_triangles toF p0 p1 p2 p3 zmin zmax st).length = 12
      ∧ (∀ t ∈ rectangle_branch_triangles toF p0 p1 p2 p3 zmin zmax st,
          (st.indices_offset ≤ t.1 ∧ t.1 < st.indices_offset + 8)
            ∧ (st.indices_offset ≤ t.2.1 ∧ t.2.1 < st.indices_offset + 8)
            ∧ (st.indices_offset ≤ t.2.2 ∧ t.2.2 < st.indices_offset + 8))
      ∧ (∀ u v,
          (∃ t ∈ rectangle_branch_triangles toF p0 p1 p2 p3 zmin zmax st,
              has_edge t u v = true) →
            edge_count (rectangle_branch_triangles toF p0 p1 p2 p3 zmin zmax st) u v = 2)
      ∧ (∀ i < 4,
          edge_count ((rectangle_branch_triangles toF p0 p1 p2 p3 zmin zmax st).take 4)
              (i + st.indices_offset) ((i + 1) % 4 + st.indices_offset) = 1
            ∧ edge_count ((rectangle_branch_triangles toF p0 p1 p2 p3 zmin zmax st).drop 4)
              (i + st.indices_offset) ((i + 1) % 4 + st.indices_offset) = 1
            ∧ edge_count ((rectangle_branch_triangles toF p0 p1 p2 p3 zmin zmax st).take 4)
              (i + 4 + st.indices_offset) ((i + 1) % 4 + 4 + st.indices_offset) = 1
            ∧ edge_count ((rectangle_branch_triangles toF p0 p1 p2 p3 zmin zmax st).drop 4)
              (i + 4 + st.indices_offset) ((i + 1) % 4 + 4 + st.indices_offset) = 1) := by
  rw [rectangle_branch_triangles_eq toF p0 p1 p2 p3 zmin zmax st hc]
  refine ⟨by simp [rectangle_local_indices, triangles_of], ?_, ?_, ?_⟩
  · intro t ht
    obtain ⟨t0, ht0, rfl⟩ := List.mem_map.mp ht
    have := local_edges_bound ht0
    simp only
    omega
  · intro u v ⟨t, ht, he⟩
    obtain ⟨t0, ht0, rfl⟩ := List.mem_map.mp ht
    obtain ⟨hu, hv⟩ := has_edge_shift_ge he
    obtain ⟨u0, rfl⟩ : ∃ u0, u = u0 + st.indices_offset := ⟨u - st.indices_offset, by omega⟩
    obtain ⟨v0, rfl⟩ : ∃ v0, v = v0 + st.indices_offset := ⟨v - st.indices_offset, by omega⟩
    rw [has_edge_shift] at he
    rw [edge_count_shift]
    have hb := local_edges_bound ht0
    have hu0 : u0 < 8 := by
      simp only [has_edge, Bool.or_eq_true, Bool.and_eq_true, beq_iff_eq] at he
      omega
    have hv0 : v0 < 8 := by
      simp only [has_edge, Bool.or_eq_true, Bool.and_eq_true, beq_iff_eq] at he
      omega
    exact local_edges_twice u0 hu0 v0 hv0 ⟨t0, ht0, he⟩
  · intro i hi
    rw [← List.map_take, ← List.map_drop]
    simp only [edge_count_shift]
    exact local_ring_edges i hi

/-- C4 at the state in which `triangulate` enters the polygon loop. -/
theorem rectangle_mesh_manifold_witness :
    GrowBuffer.Consistent sizeof_INDICES_TYPE (fresh_state (F := Int)).indices_buffer
      ∧ (rectangle_branch_triangles (fun x : Int => x) ⟨0, 0⟩ ⟨0, 10⟩ ⟨10, 10⟩ ⟨10, 0⟩
          0 5 fresh_state).length = 12
      ∧ (∀ u v,
          (∃ t ∈ rectangle_branch_triangles (fun x : Int => x) ⟨0, 0⟩ ⟨0, 10⟩ ⟨10, 10⟩
              ⟨10, 0⟩ 0 5 fresh_state, has_edge t u v = true) →
            edge_count (rectangle_branch_triangles (fun x : Int => x) ⟨0, 0⟩ ⟨0, 10⟩
              ⟨10, 10⟩ ⟨10, 0⟩ 0 5 fresh_state) u v = 2) :=
  ⟨GrowBuffer.consistent_reset sizeof_INDICES_TYPE_pos _,
    (rectangle_mesh_manifold (fun x : Int => x) ⟨0, 0⟩ ⟨0, 10⟩ ⟨10, 10⟩ ⟨10, 0⟩ 0 5
      fresh_state (GrowBuffer.consistent_reset sizeof_INDICES_TYPE_pos _)).1,
    (rectangle_mesh_manifold (fun x : Int => x) ⟨0, 0⟩ ⟨0, 10⟩ ⟨10, 10⟩ ⟨10, 0⟩ 0 5
      fresh_state (GrowBuffer.consistent_reset sizeof_INDICES_TYPE_pos _)).2.2.1⟩

end

/-! ## C5 -/

/-- C5, at the clockwise 10 by 10 square with `zmin = 0`, `zmax = 5`: the normals of
the 12 triangles that `triangulate` emits.  The two bottom triangles point to `-z` and
the eight side-wall triangles point away from the centre `(5, 5)`, but the two
top triangles (third and fourth) point to `-z` as well, into the box. -/
theorem rectangle_clockwise_normals :
    (triangulate (fun x : Int => x) fan_triangulator [square_10] fresh_buffer fresh_buffer
        0 5 ⟨0, 0⟩).map
        (fun r => mesh_normals r.positions_buffer.view r.indices_buffer.view)
      = some
          [(0, 0, -100), (0, 0, -100), (0, 0, -100), (0, 0, -100),
           (-50, 0, 0), (-50, 0, 0), (0, 50, 0), (0, 50, 0),
           (50, 0, 0), (50, 0, 0), (0, -50, 0), (0, -50, 0)] := by
  decide

/-- The same for the counter-clockwise 10 by 10 square: the two top triangles point
to `+z`, but so do the two bottom triangles, and the eight side-wall triangles point
towards the centre `(5, 5)`. -/
theorem rectangle_counterclockwise_normals :
    (triangulate (fun x : Int => x) fan_triangulator [square_10_ccw] fresh_buffer
        fresh_buffer 0 5 ⟨0, 0⟩).map
        (fun r => mesh_normals r.positions_buffer.view r.indices_buffer.view)
      = some
          [(0, 0, 100), (0, 0, 100), (0, 0, 100), (0, 0, 100),
           (0, 50, 0), (0, 50, 0), (-50, 0, 0), (-50, 0, 0),
           (0, -50, 0), (0, -50, 0), (50, 0, 0), (50, 0, 0)] := by
  decide

/-! ## createLineBuffers as lists -/

section
variable {D F : Type}

theorem line_ring_foldl (toF : D → F) (z : F) (indices_offset : Nat) (points : List (Vec2 D)) :
    ∀ (positions_buffer : GrowBuffer F) (indices_buffer : GrowBuffer Nat) (k : Nat),
      points.foldl
        (fun (acc : GrowBuffer F × GrowBuffer Nat × Nat) point =>
          let positions_buffer := acc.1.insert sizeof_POSITIONS_TYPE (toF point.x)
          let positions_buffer := positions_buffer.insert sizeof_POSITIONS_TYPE (toF point.y)
          let positions_buffer := positions_buffer.insert sizeof_POSITIONS_TYPE z
          let indices_buffer := acc.2.1.insert sizeof_INDICES_TYPE (acc.2.2 + indices_offset)
          (positions_buffer, indices_buffer, acc.2.2 + 1))
        (positions_buffer, indices_buffer, k)
      = (positions_buffer.insert_all sizeof_POSITIONS_TYPE (cap_positions toF points z),
          indices_buffer.insert_all sizeof_INDICES_TYPE
            ((List.range' k points.length).map (· + indices_offset)),
          k + points.length) := by
  induction points with
  | nil => intro pb ib k; rfl
  | cons p ps ih =>
    intro pb ib k
    rw [List.foldl_cons]
    simp only []
    rw [ih]
    simp only [cap_positions, List.flatMap_cons, GrowBuffer.insert_all_append,
      List.length_cons, List.range'_succ, List.map_cons]
    refine Prod.ext rfl (Prod.ext rfl ?_)
    simp only
    omega

theorem line_ring_eq (toF : D → F) (points : List (Vec2 D)) (z : F) (indices_offset : Nat)
    (positions_buffer : GrowBuffer F) (indices_buffer : GrowBuffer Nat) :
    line_ring toF points z indices_offset positions_buffer indices_buffer
      = (positions_buffer.insert_all sizeof_POSITIONS_TYPE (cap_positions toF points z),
          indices_buffer.insert_all sizeof_INDICES_TYPE
            ((List.range points.length).map (· + indices_offset)),
          points.length) := by
  unfold line_ring
  rw [line_ring_foldl, List.range_eq_range', Nat.zero_add]

theorem createLineBuffers_polygon_eq (toF : D → F) (zmin zmax : F) (st : LineState F)
    (poly : Polygon D) :
    createLineBuffers_polygon toF zmin zmax st poly
      = { positions_buffer :=
            st.positions_buffer.insert_all sizeof_POSITIONS_TYPE
              (cap_positions toF poly.point_array zmin
                ++ cap_positions toF poly.point_array zmax)
          indices_buffer :=
            st.indices_buffer.insert_all sizeof_INDICES_TYPE
              (line_indices poly.point_array.length st.indices_offset)
          indices_offset :=
            st.indices_offset + poly.point_array.length + poly.point_array.length } := by
  unfold createLineBuffers_polygon
  simp only [line_ring_eq, line_indices, ring_indices, strut_indices,
    GrowBuffer.insert_all_append]
  congr 1
  rw [← GrowBuffer.foldl_insert_all]
  rfl

end

section
variable {D F : Type}

theorem createLineBuffers_eq (toF : D → F) (polygons : List (Polygon D))
    (positions_buffer : GrowBuffer F) (indices_buffer : GrowBuffer Nat) (zmin zmax : F) :
    createLineBuffers toF polygons positions_buffer indices_buffer zmin zmax
      = { positions_buffer :=
            (polygons.foldl (createLineBuffers_polygon toF zmin zmax)
              { positions_buffer := positions_buffer.reset
                indices_buffer := indices_buffer.reset
                indices_offset := 0 }).positions_buffer
          indices_buffer :=
            (polygons.foldl (createLineBuffers_polygon toF zmin zmax)
              { positions_buffer := positions_buffer.reset
                indices_buffer := indices_buffer.reset
                indices_offset := 0 }).indices_buffer } := rfl

theorem length_ring_indices (count offset : Nat) :
    (ring_indices count offset).length = count + 2 := by
  simp [ring_indices]

theorem length_strut_indices (count indices_offset : Nat) :
    (strut_indices count indices_offset).length = 3 * count := by
  unfold strut_indices
  rw [length_flatMap_const _ 3, List.length_range]
  intro _
  rfl

theorem length_line_indices (count offset : Nat) :
    (line_indices count offset).length = 5 * count + 4 := by
  simp only [line_indices, List.length_append, length_ring_indices, length_strut_indices]
  omega

theorem mem_line_indices {count offset i : Nat} (hcount : 0 < count)
    (h : i ∈ line_indices count offset) :
    i = RESTART_INDEX_VALUE ∨ i < offset + count + count := by
  simp only [line_indices, ring_indices, strut_indices, List.mem_append, List.mem_map,
    List.mem_range, List.mem_cons, List.mem_nil_iff, or_false, List.mem_flatMap] at h
  rcases h with ((⟨k, hk, rfl⟩ | h | h) | (⟨k, hk, rfl⟩ | h | h)) | ⟨k, hk, h | h | h⟩
  all_goals first
    | (left; assumption)
    | (right; omega)

theorem createLineBuffers_polygon_inv (toF : D → F) (zmin zmax : F) {st : LineState F}
    (poly : Polygon D) (hst : st.Inv) (hne : poly.point_array ≠ []) :
    (createLineBuffers_polygon toF zmin zmax st poly).Inv := by
  obtain ⟨hp, hi, hcount, hrange⟩ := hst
  rw [createLineBuffers_polygon_eq]
  obtain ⟨hp1, hp2⟩ := GrowBuffer.consistent_insert_all
    (cap_positions toF poly.point_array zmin ++ cap_positions toF poly.point_array zmax) hp
  obtain ⟨hi1, hi2⟩ := GrowBuffer.consistent_insert_all
    (line_indices poly.point_array.length st.indices_offset) hi
  have hpos : 0 < poly.point_array.length := List.length_pos.mpr hne
  refine ⟨hp1, hi1, ?_, ?_⟩
  · have := GrowBuffer.view_length hp1
    have h0 := GrowBuffer.view_length hp
    simp only at *
    rw [← this, hp2, List.length_append, List.length_append, h0, hcount,
      length_cap_positions, length_cap_positions]
    omega
  · intro i hmem
    simp only at *
    rw [hi2, List.mem_append] at hmem
    rcases hmem with h | h
    · rcases hrange i h with h | h
      · exact Or.inl h
      · right; omega
    · exact mem_line_indices hpos h

/-- Over polygons that all have at least one point, every value that
`createLineBuffers` leaves in the indices buffer is the restart index or refers to a
vertex of the positions buffer. -/
theorem createLineBuffers_indices_in_range_of_nonempty (toF : D → F)
    (polygons : List (Polygon D)) (positions_buffer : GrowBuffer F)
    (indices_buffer : GrowBuffer Nat) (zmin zmax : F)
    (hne : ∀ poly ∈ polygons, poly.point_array ≠ []) :
    ∀ i ∈ (createLineBuffers toF polygons positions_buffer indices_buffer zmin
        zmax).indices_buffer.view,
      i = RESTART_INDEX_VALUE
        ∨ i < (createLineBuffers toF polygons positions_buffer indices_buffer zmin
            zmax).positions_buffer.size / 3 := by
  rw [createLineBuffers_eq]
  have key : ∀ (ps : List (Polygon D)) (st : LineState F), st.Inv →
      (∀ poly ∈ ps, poly.point_array ≠ []) →
      (ps.foldl (createLineBuffers_polygon toF zmin zmax) st).Inv := by
    intro ps
    induction ps with
    | nil => intro st hst _; exact hst
    | cons p ps ih =>
      intro st hst h
      rw [List.foldl_cons]
      exact ih _ (createLineBuffers_polygon_inv toF zmin zmax p hst
        (h p (List.mem_cons_self _ _))) (fun q hq => h q (List.mem_cons_of_mem _ hq))
  have h0 : LineState.Inv
      { positions_buffer := positions_buffer.reset
        indices_buffer := indices_buffer.reset
        indices_offset := 0 } := by
    refine ⟨GrowBuffer.consistent_reset sizeof_POSITIONS_TYPE_pos _,
      GrowBuffer.consistent_reset sizeof_INDICES_TYPE_pos _, rfl, ?_⟩
    intro i hi; simp at hi
  obtain ⟨_, _, hcount, hrange⟩ := key polygons _ h0 hne
  intro i hi
  rcases hrange i hi with h | h
  · exact Or.inl h
  · right
    simp only [GrowBuffer.size, hcount]
    omega

/-! ## C6 -/

/-- C6, at the list of one polygon without points: `createLineBuffers` writes no
vertex and the four indices `0, 0xFFFFFFFF, 0, 0xFFFFFFFF`; the two indices `0`
are not the restart index and refer to a vertex that is not in the positions buffer. -/
theorem createLineBuffers_empty_polygon :
    (createLineBuffers (fun x : Int => x) [empty_polygon] fresh_buffer fresh_buffer 0
        1).positions_buffer.size = 0
      ∧ (createLineBuffers (fun x : Int => x) [empty_polygon] fresh_buffer fresh_buffer 0
        1).indices_buffer.view = [0, 4294967295, 0, 4294967295]
      ∧ ¬ ∀ i ∈ (createLineBuffers (fun x : Int => x) [empty_polygon] fresh_buffer
            fresh_buffer 0 1).indices_buffer.view,
          i = RESTART_INDEX_VALUE
            ∨ i < (createLineBuffers (fun x : Int => x) [empty_polygon] fresh_buffer
                fresh_buffer 0 1).positions_buffer.size / 3 := by
  decide

/-! ## C7 -/

/-- C7 as stated fails at a triangle: `createLineBuffers` leaves 19 indices, not
`3 * 3 + 2 * 3 + 2 * 3 = 21`. -/
theorem createLineBuffers_count_counterexample :
    (createLineBuffers (fun x : Int => x) [triangle_3] fresh_buffer fresh_buffer 0
        1).indices_buffer.size = 19
      ∧ (createLineBuffers (fun x : Int => x) [triangle_3] fresh_buffer fresh_buffer 0
        1).indices_buffer.size ≠ 3 * 3 + 2 * 3 + 2 * 3 := by
  decide

/-- C7, amended: for a single polygon with `K` points the indices buffer left by
`createLineBuffers` holds exactly `5 * K + 4` entries: `K + 2` for each of the two
rings (the `K` indices, the first index again, one restart index) and `3 * K` for
the vertical segments (two indices and one restart index each). -/
theorem createLineBuffers_single_count (toF : D → F) (poly : Polygon D)
    (positions_buffer : GrowBuffer F) (indices_buffer : GrowBuffer Nat) (zmin zmax : F) :
    (createLineBuffers toF [poly] positions_buffer indices_buffer zmin zmax).indices_buffer.size
      = 5 * poly.point_array.length + 4
      ∧ 5 * poly.point_array.length + 4
          = (poly.point_array.length + 2) + (poly.point_array.length + 2)
            + 3 * poly.point_array.length := by
  rw [createLineBuffers_eq]
  simp only [List.foldl_cons, List.foldl_nil, createLineBuffers_polygon_eq]
  refine ⟨?_, by omega⟩
  rw [(view_insert_all_reset sizeof_INDICES_TYPE_pos indices_buffer _).2, length_line_indices]

end

/-! ## The reference walk (C8, C9) -/

section
variable {D : Type} [Add D]

theorem foldl_push_map {α β : Type} (f : α → β) (xs : List α) :
    ∀ acc : List β, xs.foldl (fun acc x => acc ++ [f x]) acc = acc ++ xs.map f := by
  induction xs with
  | nil => intro acc; simp
  | cons x xs ih => intro acc; simp [ih]

theorem processReference_eq (s : String) (cell : Cell D) (ref : Reference D)
    (events : List (JSEvent D)) :
    processReference s cell ref events = events ++ reference_placements s cell ref := by
  unfold processReference reference_placements placement_at
  by_cases h : ref.repetition.type = RepetitionType.None
  · simp [h]
  · simp only [ne_eq, h, not_false_eq_true, if_true, if_false]
    exact foldl_push_map _ _ _

theorem foldl_processReference (s : String) (cell : Cell D) (refs : List (Reference D)) :
    ∀ events : List (JSEvent D),
      refs.foldl (fun events ref => processReference s cell ref events) events
        = events ++ refs.flatMap fun ref => reference_placements s cell ref := by
  induction refs with
  | nil => intro events; simp
  | cons r rs ih =>
    intro events
    rw [List.foldl_cons, ih, processReference_eq, List.flatMap_cons, List.append_assoc]

theorem foldl_cells (s : String) (cells : List (Cell D)) :
    ∀ events : List (JSEvent D),
      cells.foldl
          (fun events cell =>
            cell.reference_array.foldl
              (fun events ref => processReference s cell ref events) events)
          events
        = events ++ cells.flatMap fun cell =>
            cell.reference_array.flatMap fun ref => reference_placements s cell ref := by
  induction cells with
  | nil => intro events; simp
  | cons c cs ih =>
    intro events
    rw [List.foldl_cons, ih, foldl_processReference, List.flatMap_cons, List.append_assoc]

/-- C8: a reference without repetition adds exactly one placement, with its stored
origin, rotation and x-reflection; a reference whose repetition yields `R` offsets
adds exactly `R` placements, the `i`-th at the origin plus the `i`-th offset, all
with the same parent name, child name, instance name, rotation and x-reflection. -/
theorem processReference_placements (s : String) (cell : Cell D) (ref : Reference D)
    (events : List (JSEvent D)) :
    (ref.repetition.type = RepetitionType.None →
        processReference s cell ref events
          = events ++ [JSEvent.gds_add_reference cell.name ref.cell.name
              (child_instance_name s ref) ref.origin.x ref.origin.y ref.rotation
              ref.x_reflection])
      ∧ (ref.repetition.type ≠ RepetitionType.None →
          ∃ placements, processReference s cell ref events = events ++ placements
            ∧ placements.length = ref.repetition.get_offsets.length
            ∧ ∀ i (hi : i < ref.repetition.get_offsets.length),
                placements[i]? = some (JSEvent.gds_add_reference cell.name ref.cell.name
                  (child_instance_name s ref)
                  (ref.origin.x + ref.repetition.get_offsets[i].x)
                  (ref.origin.y + ref.repetition.get_offsets[i].y)
                  ref.rotation ref.x_reflection)) := by
  rw [processReference_eq]
  constructor
  · intro h
    simp [reference_placements, placement_at, h]
  · intro h
    refine ⟨_, rfl, ?_, ?_⟩
    · simp [reference_placements, h]
    · intro i hi
      simp [reference_placements, placement_at, h, List.getElem?_map,
        List.getElem?_eq_getElem hi]

/-- C9: the events of `processReferencesHierarchy` are the placements of all
references, by cell, then by reference within the cell, then by offset within the
repetition, followed by the one signal that the references are finished; no placement
is that signal, and for a library without references the signal is the only event. -/
theorem processReferencesHierarchy_events (s : String) (lib : Library D) :
    processReferencesHierarchy s lib
        = library_placements s lib ++ [JSEvent.gds_finished_references]
      ∧ (∀ e ∈ library_placements s lib, e ≠ JSEvent.gds_finished_references)
      ∧ ((∀ cell ∈ lib.cell_array, cell.reference_array = []) →
          processReferencesHierarchy s lib = [JSEvent.gds_finished_references]) := by
  have h1 : processReferencesHierarchy s lib
      = library_placements s lib ++ [JSEvent.gds_finished_references] := by
    unfold processReferencesHierarchy library_placements
    simp only [foldl_cells, List.nil_append]
  refine ⟨h1, ?_, ?_⟩
  · intro e he
    simp only [library_placements, List.mem_flatMap] at he
    obtain ⟨cell, _, ref, _, he⟩ := he
    unfold reference_placements at he
    split at he
    · simp only [List.mem_singleton] at he
      subst he
      simp [placement_at]
    · simp only [List.mem_map] at he
      obtain ⟨_, _, rfl⟩ := he
      simp [placement_at]
  · intro hempty
    rw [h1]
    have : library_placements s lib = [] := by
      unfold library_placements
      rw [List.flatMap_eq_nil_iff]
      intro cell hcell
      rw [hempty cell hcell]
      rfl
    rw [this]
    rfl

end

/-- C8 at a reference without repetition and at a reference repeated at three
offsets. -/
theorem processReference_placements_witness :
    (single_reference []).repetition.type = RepetitionType.None
      ∧ processReference "S_GDS_PROPERTY" (top_cell []) (single_reference []) []
          = [JSEvent.gds_add_reference "top" "inv" "???" 100 200 0 false]
      ∧ array_reference.repetition.type ≠ RepetitionType.None
      ∧ ∃ placements,
          processReference "S_GDS_PROPERTY" (top_cell []) array_reference [] = [] ++ placements
            ∧ placements.length = array_reference.repetition.get_offsets.length :=
  ⟨rfl,
    (processReference_placements "S_GDS_PROPERTY" (top_cell []) (single_reference [])
      []).1 rfl,
    by decide,
    ((processReference_placements "S_GDS_PROPERTY" (top_cell []) array_reference
      []).2 (by decide)).imp fun _ h => ⟨h.1, h.2.1⟩⟩

/-- C9 at a library of one cell with a single reference and a repeated reference,
and at a library of two cells without references. -/
theorem processReferencesHierarchy_events_witness :
    processReferencesHierarchy "S_GDS_PROPERTY"
        (⟨[top_cell [single_reference [], array_reference]]⟩ : Library Int)
      = [JSEvent.gds_add_reference "top" "inv" "???" 100 200 0 false,
         JSEvent.gds_add_reference "top" "inv" "X1" 100 200 0 true,
         JSEvent.gds_add_reference "top" "inv" "X1" 110 200 0 true,
         JSEvent.gds_add_reference "top" "inv" "X1" 120 200 0 true,
         JSEvent.gds_finished_references]
      ∧ (∀ cell ∈ [top_cell [], top_cell []], cell.reference_array = [])
      ∧ processReferencesHierarchy "S_GDS_PROPERTY"
          (⟨[top_cell [], top_cell []]⟩ : Library Int) = [JSEvent.gds_finished_references] :=
  ⟨(processReferencesHierarchy_events "S_GDS_PROPERTY"
      (⟨[top_cell [single_reference [], array_reference]]⟩ : Library Int)).1.trans
      (by decide),
    by decide,
    (processReferencesHierarchy_events "S_GDS_PROPERTY"
      (⟨[top_cell [], top_cell []]⟩ : Library Int)).2.2 (by decide)⟩

/-! ## The instance name (C10) -/

theorem is_gds_property_iff (s : String) (property : Property) :
    GDSTKUTIL_is_gds_property s property = true ↔ matches_gds_schema s property := by
  unfold GDSTKUTIL_is_gds_property matches_gds_schema
  constructor
  · intro h
    split at h
    · cases h
    · rename_i hname
      split at h
      · cases h
      · rename_i attr next hv
        split at h
        · cases h
        · rename_i hattr
          split at h
          · cases h
          · rename_i value rest
            split at h
            · cases h
            · rename_i hvalue
              exact ⟨by simpa using hname, attr, value, rest, hv, by simpa using hattr,
                by simpa using hvalue⟩
  · rintro ⟨hname, attr, value, rest, hv, h1, h2⟩
    simp [hv, hname, h1, h2]

theorem get_first_of_no_match (s : String) (properties : List Property)
    (h : ∀ q ∈ properties, ¬ matches_gds_schema s q) :
    GDSTKUTIL_get_first_gds_property s properties = none := by
  induction properties with
  | nil => rfl
  | cons p ps ih =>
    have hp : GDSTKUTIL_is_gds_property s p = false := by
      rw [← Bool.not_eq_true, is_gds_property_iff]
      exact h p (List.mem_cons_self _ _)
    simp only [GDSTKUTIL_get_first_gds_property, hp, Bool.false_eq_true, if_false]
    exact ih (fun q hq => h q (List.mem_cons_of_mem _ hq))

theorem get_first_of_first_match (s : String) (pre : List Property) (p : Property)
    (post : List Property) (attr value : PropertyValue) (rest : List PropertyValue)
    (hpre : ∀ q ∈ pre, ¬ matches_gds_schema s q) (hp : matches_gds_schema s p)
    (hv : p.value = attr :: value :: rest) :
    GDSTKUTIL_get_first_gds_property s (pre ++ p :: post) = some value := by
  induction pre with
  | nil =>
    have : GDSTKUTIL_is_gds_property s p = true := (is_gds_property_iff s p).mpr hp
    simp [GDSTKUTIL_get_first_gds_property, this, hv]
  | cons q qs ih =>
    have hq : GDSTKUTIL_is_gds_property s q = false := by
      rw [← Bool.not_eq_true, is_gds_property_iff]
      exact hpre q (List.mem_cons_self _ _)
    simp only [List.cons_append, GDSTKUTIL_get_first_gds_property, hq, Bool.false_eq_true,
      if_false]
    exact ih (fun r hr => hpre r (List.mem_cons_of_mem _ hr))

theorem get_first_eq_none_iff (s : String) (properties : List Property) :
    GDSTKUTIL_get_first_gds_property s properties = none
      ↔ ∀ q ∈ properties, ¬ matches_gds_schema s q := by
  constructor
  · intro h
    induction properties with
    | nil => intro q hq; cases hq
    | cons p ps ih =>
      by_cases hp : GDSTKUTIL_is_gds_property s p = true
      · exfalso
        obtain ⟨_, attr, value, rest, hv, _, _⟩ := (is_gds_property_iff s p).mp hp
        simp [GDSTKUTIL_get_first_gds_property, hp, hv] at h
      · simp only [GDSTKUTIL_get_first_gds_property, hp, if_false] at h
        intro q hq
        rcases List.mem_cons.mp hq with rfl | hq
        · rwa [← is_gds_property_iff]
        · exact ih h q hq
  · exact get_first_of_no_match s properties

/-- C10 as stated fails at a reference whose only property is a GDS property with the
string `"???"`: the instance name is the placeholder although a property matches. -/
theorem child_instance_name_counterexample :
    child_instance_name "S_GDS_PROPERTY" (single_reference [gds_property "???"]) = "???"
      ∧ matches_gds_schema "S_GDS_PROPERTY" (gds_property "???")
      ∧ ¬ (child_instance_name "S_GDS_PROPERTY" (single_reference [gds_property "???"])
            = "???"
          ↔ ∀ q ∈ (single_reference [gds_property "???"]).properties,
              ¬ matches_gds_schema "S_GDS_PROPERTY" q) := by
  have hm : matches_gds_schema "S_GDS_PROPERTY" (gds_property "???") :=
    ⟨rfl, _, _, _, rfl, rfl, rfl⟩
  have hn : child_instance_name "S_GDS_PROPERTY" (single_reference [gds_property "???"])
      = "???" := by decide
  refine ⟨hn, hm, ?_⟩
  intro h
  exact h.mp hn (gds_property "???") (List.mem_cons_self _ _) hm

/-- C10, amended: the instance name of a reference is the string value of the first
property, in list order, that matches the GDS schema: properties before it that do
not match are skipped and properties after it are ignored; the walk finds no
property exactly when no property of the list matches, and then the instance name
is the placeholder `"???"`. -/
theorem child_instance_name_first_match {D : Type} (s : String) (ref : Reference D) :
    (∀ pre p post attr value rest,
        ref.properties = pre ++ p :: post → (∀ q ∈ pre, ¬ matches_gds_schema s q) →
          matches_gds_schema s p → p.value = attr :: value :: rest →
            child_instance_name s ref = value.bytes)
      ∧ (GDSTKUTIL_get_first_gds_property s ref.properties = none
          ↔ ∀ q ∈ ref.properties, ¬ matches_gds_schema s q)
      ∧ ((∀ q ∈ ref.properties, ¬ matches_gds_schema s q) →
          child_instance_name s ref = "???") := by
  refine ⟨?_, get_first_eq_none_iff s ref.properties, ?_⟩
  · intro pre p post attr value rest hprops hpre hp hv
    unfold child_instance_name
    rw [hprops, get_first_of_first_match s pre p post attr value rest hpre hp hv]
  · intro h
    unfold child_instance_name
    rw [get_first_of_no_match s ref.properties h]

/-- C10, amended, at the properties of the repeated reference (a property that does
not match, then two GDS properties) and at a reference without properties. -/
theorem child_instance_name_first_match_witness :
    array_reference.properties = [other_property] ++ gds_property "X1" :: [gds_property "X2"]
      ∧ (∀ q ∈ [other_property], ¬ matches_gds_schema "S_GDS_PROPERTY" q)
      ∧ matches_gds_schema "S_GDS_PROPERTY" (gds_property "X1")
      ∧ child_instance_name "S_GDS_PROPERTY" array_reference = "X1"
      ∧ (∀ q ∈ (single_reference []).properties, ¬ matches_gds_schema "S_GDS_PROPERTY" q)
      ∧ child_instance_name "S_GDS_PROPERTY" (single_reference []) = "???" := by
  have h1 : ∀ q ∈ [other_property], ¬ matches_gds_schema "S_GDS_PROPERTY" q := by
    intro q hq
    rw [List.mem_singleton.mp hq, ← is_gds_property_iff]
    decide
  have h2 : matches_gds_schema "S_GDS_PROPERTY" (gds_property "X1") :=
    ⟨rfl, _, _, _, rfl, rfl, rfl⟩
  have h3 : ∀ q ∈ (single_reference []).properties,
      ¬ matches_gds_schema "S_GDS_PROPERTY" q := by
    intro q hq; cases hq
  exact ⟨rfl, h1, h2,
    (child_instance_name_first_match "S_GDS_PROPERTY" array_reference).1
      [other_property] (gds_property "X1") [gds_property "X2"] _ _ _ rfl h1 h2 rfl,
    h3,
    (child_instance_name_first_match "S_GDS_PROPERTY" (single_reference [])).2.2 h3⟩

/-! ## GrowBuffer (C11, C12, C13) -/

namespace GrowBuffer

variable {T : Type}

theorem consistent_mk_reserve {s : Nat} (hs : 0 < s) {r : Nat} {b : GrowBuffer T}
    (h : mk_reserve r = some b) : Consistent s b := by
  unfold mk_reserve at h
  split at h
  · cases h
    exact ⟨hs, rfl, Nat.zero_le _⟩
  · cases h

theorem getElem?_view {b : GrowBuffer T} {i : Nat} (hi : i < b.items_count) :
    b.view[i]? = b.data[i]? := by
  unfold view
  rw [List.getElem?_take]
  simp [hi]

theorem insert_data_of_lt {s : Nat} {b : GrowBuffer T} (h : Consistent s b) (v : T) {i : Nat}
    (hi : i < b.items_count) : (b.insert s v).data[i]? = b.data[i]? := by
  obtain ⟨hs, hoff, hlen⟩ := h
  have hslot : b.current_offset / s = b.items_count := by
    rw [hoff]; exact Nat.mul_div_cancel_left _ hs
  simp only [insert, write_slot, hslot, List.append_assoc]
  rw [List.getElem?_append_left (by simp; omega), List.getElem?_take]
  simp [hi]

theorem insert_data_at_count {s : Nat} {b : GrowBuffer T} (h : Consistent s b) (v : T) :
    (b.insert s v).data[b.items_count]? = some v := by
  obtain ⟨hs, hoff, hlen⟩ := h
  have hslot : b.current_offset / s = b.items_count := by
    rw [hoff]; exact Nat.mul_div_cancel_left _ hs
  have htake : (b.data.take b.items_count).length = b.items_count := by simp [hlen]
  simp only [insert, write_slot, hslot, List.append_assoc]
  rw [List.getElem?_append_right (by omega), htake]
  simp

theorem reachable_inv {s : Nat} (hs : 0 < s) {b : GrowBuffer T} {hw : Nat}
    (h : Reachable s b hw) : Consistent s b ∧ b.expansion_size = 1048576 := by
  induction h with
  | construct r b hb =>
    refine ⟨consistent_mk_reserve hs hb, ?_⟩
    unfold mk_reserve at hb
    split at hb
    · cases hb; rfl
    · cases hb
  | insert b hw v _ ih => exact ⟨(consistent_insert ih.1 v).1, ih.2⟩
  | reset b hw _ ih => exact ⟨consistent_reset hs b, ih.2⟩

theorem reachable_capacity {s : Nat} (hs : 0 < s) (hexp : s ≤ 1048576) {b : GrowBuffer T}
    {hw : Nat} (h : Reachable s b hw) :
    b.current_offset ≤ b.allocated_size ∧ s * hw ≤ b.allocated_size
      ∧ b.items_count ≤ hw := by
  induction h with
  | construct r b hb =>
    unfold mk_reserve at hb
    split at hb
    · cases hb; simp
    · cases hb
  | insert b hw v hb ih =>
    obtain ⟨hc, hexpb⟩ := reachable_inv hs hb
    obtain ⟨_, hoff, _⟩ := hc
    obtain ⟨h1, h2, h3⟩ := ih
    have hmax : s * max hw (b.items_count + 1) ≤ max (s * hw) (b.current_offset + s) := by
      rcases Nat.le_total hw (b.items_count + 1) with hle | hle
      · rw [Nat.max_eq_right hle, Nat.mul_add, Nat.mul_one, ← hoff]
        exact Nat.le_max_right _ _
      · rw [Nat.max_eq_left hle]
        exact Nat.le_max_left _ _
    simp only [insert]
    refine ⟨?_, ?_, Nat.le_max_right _ _⟩
    · split <;> omega
    · refine le_trans hmax (Nat.max_le.mpr ⟨?_, ?_⟩) <;> split <;> omega
  | reset b hw _ ih =>
    obtain ⟨h1, h2, h3⟩ := ih
    exact ⟨Nat.zero_le _, h2, Nat.zero_le _⟩

theorem insert_all_allocated_size {s : Nat} (values : List T) :
    ∀ {b : GrowBuffer T}, Consistent s b →
      s * (b.items_count + values.length) ≤ b.allocated_size →
        (b.insert_all s values).allocated_size = b.allocated_size := by
  induction values with
  | nil => intro b _ _; rfl
  | cons v vs ih =>
    intro b hc hcap
    have hstep : (b.insert s v).allocated_size = b.allocated_size := by
      obtain ⟨_, hoff, _⟩ := hc
      simp only [insert]
      rw [if_neg]
      simp only [List.length_cons] at hcap
      have : s * (b.items_count + 1) ≤ s * (b.items_count + (vs.length + 1)) :=
        Nat.mul_le_mul_left _ (by omega)
      rw [Nat.mul_add, Nat.mul_one, ← hoff] at this
      omega
    have hnext := ih (consistent_insert hc v).1 (by
      rw [hstep]
      simp only [insert, List.length_cons] at hcap ⊢
      rwa [Nat.add_assoc, Nat.add_comm 1])
    have : b.insert_all s (v :: vs) = (b.insert s v).insert_all s vs := rfl
    rw [this, hnext, hstep]

end GrowBuffer

section
variable {T : Type}

/-- C11: for a buffer that was just constructed or just reset, after the `N` calls of
`insert` for the values of a list, `size()` is `N`, the number of elements, and
the `i`-th element in memory is the `i`-th value inserted. -/
theorem insert_all_size_elements (s : Nat) (hs : 0 < s) (b : GrowBuffer T) (values : List T)
    (hb : (∃ r, GrowBuffer.mk_reserve r = some b) ∨ ∃ b0 : GrowBuffer T, b = b0.reset) :
    (b.insert_all s values).size = values.length
      ∧ (b.insert_all s values).view = values
      ∧ ∀ i (hi : i < values.length), (b.insert_all s values).data[i]? = some values[i] := by
  have hc : GrowBuffer.Consistent s b ∧ b.view = [] := by
    rcases hb with ⟨r, hr⟩ | ⟨b0, rfl⟩
    · refine ⟨GrowBuffer.consistent_mk_reserve hs hr, ?_⟩
      unfold GrowBuffer.mk_reserve at hr
      split at hr
      · cases hr; rfl
      · cases hr
    · exact ⟨GrowBuffer.consistent_reset hs b0, GrowBuffer.view_reset b0⟩
  obtain ⟨h1, h2⟩ := GrowBuffer.consistent_insert_all values hc.1
  rw [hc.2, List.nil_append] at h2
  have hsize : (b.insert_all s values).size = values.length := by
    rw [GrowBuffer.size, ← GrowBuffer.view_length h1, h2]
  refine ⟨hsize, h2, ?_⟩
  intro i hi
  rw [← GrowBuffer.getElem?_view (by rw [← GrowBuffer.size, hsize]; exact hi), h2,
    List.getElem?_eq_getElem hi]

/-- C11 at a fresh buffer and at a used buffer that was reset, with three values of
four bytes each: `size()` is 3, not 12. -/
theorem insert_all_size_elements_witness :
    ((∃ r, GrowBuffer.mk_reserve r = some (fresh_buffer : GrowBuffer Nat))
        ∨ ∃ b0 : GrowBuffer Nat, fresh_buffer = b0.reset)
      ∧ ((fresh_buffer : GrowBuffer Nat).insert_all 4 [5, 6, 7]).size = [5, 6, 7].length
      ∧ ((fresh_buffer : GrowBuffer Nat).insert_all 4 [5, 6, 7]).view = [5, 6, 7]
      ∧ (used_buffer.insert_all 4 [5, 6]).view = [5, 6]
      ∧ (used_buffer.insert_all 4 [5, 6]).data = [5, 6, 9] :=
  ⟨Or.inl ⟨1024 * 1024, rfl⟩,
    (insert_all_size_elements 4 (by decide) fresh_buffer [5, 6, 7]
      (Or.inl ⟨1024 * 1024, rfl⟩)).1,
    (insert_all_size_elements 4 (by decide) fresh_buffer [5, 6, 7]
      (Or.inl ⟨1024 * 1024, rfl⟩)).2.1,
    (insert_all_size_elements 4 (by decide) used_buffer [5, 6] (Or.inr ⟨_, rfl⟩)).2.1,
    by decide⟩

/-- C12: `reset` sets `size()` to 0 and leaves the allocated size and the memory as
they are; after the reset, inserting up to as many elements as the buffer has ever
held leaves `allocated_size` unchanged; and an `insert` changes `allocated_size`
exactly when its element does not fit in the current capacity.  The element size
is at most the expansion increment. -/
theorem reset_keeps_capacity (s : Nat) (hs : 0 < s) (hexp : s ≤ 1048576) (b : GrowBuffer T)
    (high_water : Nat) (hb : GrowBuffer.Reachable s b high_water) :
    b.reset.size = 0
      ∧ b.reset.allocated_size = b.allocated_size
      ∧ b.reset.data = b.data
      ∧ (∀ values : List T, values.length ≤ high_water →
          (b.reset.insert_all s values).allocated_size = b.allocated_size)
      ∧ (∀ (values : List T) (v : T),
          (((b.reset.insert_all s values).insert s v).allocated_size
              ≠ (b.reset.insert_all s values).allocated_size
            ↔ (b.reset.insert_all s values).current_offset + s
                > (b.reset.insert_all s values).allocated_size)) := by
  refine ⟨rfl, rfl, rfl, ?_, ?_⟩
  · intro values hlen
    have hcap := (GrowBuffer.reachable_capacity hs hexp hb).2.1
    have := GrowBuffer.insert_all_allocated_size values (GrowBuffer.consistent_reset hs b)
      (by
        show s * (0 + values.length) ≤ b.allocated_size
        rw [Nat.zero_add]
        exact le_trans (Nat.mul_le_mul_left _ hlen) hcap)
    exact this
  · intro values v
    have hexpb : (b.reset.insert_all s values).expansion_size = 1048576 := by
      have key : ∀ (vs : List T) (c : GrowBuffer T),
          (c.insert_all s vs).expansion_size = c.expansion_size := by
        intro vs
        induction vs with
        | nil => intro c; rfl
        | cons x xs ih => intro c; exact (ih (c.insert s x)).trans rfl
      rw [key]
      exact (GrowBuffer.reachable_inv hs hb).2
    simp only [GrowBuffer.insert, hexpb]
    split <;> constructor <;> intro h <;> omega

/-- C12 at a buffer of `uint32_t` that was constructed with 8 bytes and has held
three elements: after the reset three more inserts leave the 1048584 bytes as they
are. -/
theorem reset_keeps_capacity_witness :
    GrowBuffer.Reachable 4 used_buffer 3
      ∧ used_buffer.size = 0
      ∧ used_buffer.reset.allocated_size = 1048584
      ∧ (used_buffer.reset.insert_all 4 [1, 2, 3]).allocated_size = 1048584 := by
  have h0 : GrowBuffer.Reachable 4 (GrowBuffer.mk 1048576 0 8 0 ([] : List Nat)) 0 :=
    GrowBuffer.Reachable.construct 8 _ rfl
  have h3 : GrowBuffer.Reachable 4 used_buffer 3 :=
    GrowBuffer.Reachable.reset _ _
      (GrowBuffer.Reachable.insert _ _ 9
        (GrowBuffer.Reachable.insert _ _ 8 (GrowBuffer.Reachable.insert _ _ 7 h0)))
  exact ⟨h3, rfl,
    (reset_keeps_capacity 4 (by decide) (by decide) used_buffer 3 h3).2.1.trans (by decide),
    ((reset_keeps_capacity 4 (by decide) (by decide) used_buffer 3 h3).2.2.2.1 [1, 2, 3]
      (by decide)).trans (by decide)⟩

/-- C13: `insert` on a buffer obtained through the interface appends one element:
the allocated size grows by the expansion increment, 1048576 bytes, when
`current_offset + sizeof(T) > allocated_size` and stays as it is otherwise; the
elements stored before are unchanged and the new value is stored at the old
element count. -/
theorem insert_appends_one (s : Nat) (hs : 0 < s) (b : GrowBuffer T) (high_water : Nat)
    (hb : GrowBuffer.Reachable s b high_water) (v : T) :
    b.expansion_size = 1048576
      ∧ (b.current_offset + s > b.allocated_size →
          (b.insert s v).allocated_size = b.allocated_size + 1048576)
      ∧ (¬ b.current_offset + s > b.allocated_size →
          (b.insert s v).allocated_size = b.allocated_size)
      ∧ (b.insert s v).size = b.size + 1
      ∧ (∀ i, i < b.size → (b.insert s v).data[i]? = b.data[i]?)
      ∧ (b.insert s v).data[b.size]? = some v
      ∧ (b.insert s v).view = b.view ++ [v] := by
  obtain ⟨hc, hexp⟩ := GrowBuffer.reachable_inv hs hb
  refine ⟨hexp, ?_, ?_, rfl, ?_, ?_, (GrowBuffer.consistent_insert hc v).2⟩
  · intro h; simp [GrowBuffer.insert, h, hexp]
  · intro h; simp [GrowBuffer.insert, h]
  · intro i hi; exact GrowBuffer.insert_data_of_lt hc v hi
  · exact GrowBuffer.insert_data_at_count hc v

/-- C13 at a buffer constructed with 8 bytes: the third insert of a four-byte element
does not fit and grows the allocation to 1048584 bytes, the first two fit. -/
theorem insert_appends_one_witness :
    GrowBuffer.Reachable 4 (((GrowBuffer.mk 1048576 0 8 0 ([] : List Nat)).insert 4 7).insert 4 8) 2
      ∧ ((((GrowBuffer.mk 1048576 0 8 0 ([] : List Nat)).insert 4 7).insert 4 8).insert 4
          9).allocated_size = 8 + 1048576
      ∧ ((((GrowBuffer.mk 1048576 0 8 0 ([] : List Nat)).insert 4 7).insert 4 8).insert 4
          9).view = [7, 8] ++ [9] := by
  have h0 : GrowBuffer.Reachable 4 (GrowBuffer.mk 1048576 0 8 0 ([] : List Nat)) 0 :=
    GrowBuffer.Reachable.construct 8 _ rfl
  have h2 : GrowBuffer.Reachable 4
      (((GrowBuffer.mk 1048576 0 8 0 ([] : List Nat)).insert 4 7).insert 4 8) 2 :=
    GrowBuffer.Reachable.insert _ _ 8 (GrowBuffer.Reachable.insert _ _ 7 h0)
  exact ⟨h2, (insert_appends_one 4 (by decide) _ 2 h2 9).2.1 (by decide),
    (insert_appends_one 4 (by decide) _ 2 h2 9).2.2.2.2.2.2⟩

end

/-! ## The whole mesh as a list (C14, C15) -/

section
variable {D F : Type}

theorem foldlM_insert_lists {s : Nat} {g : GrowBuffer Nat → Nat → Option (GrowBuffer Nat)}
    {c : List Nat → Option (List Nat)} (hnil : c [] = some [])
    (hcons : ∀ b i is,
      ((g b i).bind fun b1 => (c is).map fun walls => b1.insert_all s walls)
        = (c (i :: is)).map fun walls => b.insert_all s walls) :
    ∀ (is : List Nat) (b : GrowBuffer Nat),
      is.foldlM g b = (c is).map fun walls => b.insert_all s walls := by
  intro is
  induction is with
  | nil => intro b; rw [hnil]; rfl
  | cons i is ih =>
    intro b
    rw [List.foldlM_cons, ← hcons b i is]
    cases g b i with
    | none => rfl
    | some b1 => exact ih b1

theorem extrude_with_duplicates_checked (mapping : List Nat) (count : Nat) (o : Int)
    (bottom top : Nat) (b : GrowBuffer Nat) :
    extrude_with_duplicates mapping count o bottom top b
      = (collect_walls mapping count o bottom top (List.range count)).map
          (fun walls => b.insert_all sizeof_INDICES_TYPE walls) := by
  unfold extrude_with_duplicates
  refine foldlM_insert_lists (s := sizeof_INDICES_TYPE)
    (c := collect_walls mapping count o bottom top) rfl ?_ (List.range count) b
  intro b i is
  simp only [collect_walls, Option.bind_eq_bind, Option.pure_def]
  cases mapping[i % count]? with
  | none => rfl
  | some m_i =>
    cases mapping[(i + 1) % count]? with
    | none => rfl
    | some m_j =>
      simp only [Option.some_bind]
      cases collect_walls mapping count o bottom top is with
      | none => split <;> rfl
      | some walls =>
        simp only [Option.map_some', Option.some_bind, wall_pair, insert_triangle_eq,
          ← GrowBuffer.insert_all_append, List.cons_append, List.nil_append]
        split <;> rfl

theorem triangulate_general_checked (toF : D → F) (cdt : Triangulator D) (poly : Polygon D)
    (zmin zmax : F) (st : TriangulateState F) :
    triangulate_general toF cdt poly zmin zmax st
      = ((polygon_edges poly.point_array.length).bind fun es =>
          (cdt poly.point_array es).bind fun r =>
            general_part_checked toF r poly.point_array.length zmin zmax
              st.indices_offset).map st.append := by
  unfold triangulate_general
  simp only [foldl_push_points, List.nil_append, Option.bind_eq_bind, foldl_cap_positions,
    foldl_bottom_cap, foldl_top_cap]
  cases polygon_edges poly.point_array.length with
  | none => rfl
  | some es =>
    simp only [Option.some_bind]
    cases cdt poly.point_array es with
    | none => rfl
    | some r =>
      simp only [Option.some_bind, general_part_checked, Option.bind_eq_bind,
        extrude_with_duplicates_checked, extrude_without_duplicates_eq, inferred_orientation]
      by_cases hd : r.dup_info.duplicates.length > 0
      · simp only [hd, if_true]
        generalize collect_walls r.dup_info.mapping poly.point_array.length
            (List.foldl update_orientation 0 r.triangles) st.indices_offset
            (st.indices_offset + r.vertices.length) (List.range poly.point_array.length) = cw
        cases cw with
        | none => rfl
        | some walls =>
          simp [TriangulateState.append, GrowBuffer.insert_all_append, Nat.add_assoc]
      · simp [hd, TriangulateState.append, GrowBuffer.insert_all_append, Nat.add_assoc]

end

section
variable {D F : Type}

theorem triangulate_polygon_checked [DecidableEq D] (toF : D → F) (cdt : Triangulator D)
    (zmin zmax : F) (st : TriangulateState F) (poly : Polygon D) :
    triangulate_polygon toF cdt zmin zmax st poly
      = (polygon_part toF cdt zmin zmax st.indices_offset poly).map st.append := by
  cases hrect : is_rectangle poly with
  | true =>
    obtain ⟨p0, p1, p2, p3, hpts⟩ := is_rectangle_points hrect
    rw [triangulate_polygon_rectangle toF cdt zmin zmax st poly p0 p1 p2 p3 hpts hrect]
    unfold polygon_part
    rw [hrect, hpts]
    rfl
  | false =>
    rw [triangulate_polygon_general toF cdt zmin zmax st poly hrect,
      triangulate_general_checked]
    unfold polygon_part
    rw [hrect]
    split
    · rename_i h; cases h
    · rfl

theorem append_empty (st : TriangulateState F) : st.append MeshPart.empty = st := by
  cases st
  simp [TriangulateState.append, MeshPart.empty]

theorem append_append (st : TriangulateState F) (m n : MeshPart F) :
    (st.append m).append n = st.append (m.append n) := by
  simp [TriangulateState.append, MeshPart.append, GrowBuffer.insert_all_append, Nat.add_assoc]

theorem foldlM_triangulate_polygon_checked [DecidableEq D] (toF : D → F)
    (cdt : Triangulator D) (zmin zmax : F) (polygons : List (Polygon D)) :
    ∀ st : TriangulateState F,
      polygons.foldlM (triangulate_polygon toF cdt zmin zmax) st
        = (mesh_parts toF cdt zmin zmax st.indices_offset polygons).map st.append := by
  induction polygons with
  | nil => intro st; simp [mesh_parts, append_empty]
  | cons poly rest ih =>
    intro st
    rw [List.foldlM_cons, triangulate_polygon_checked]
    unfold mesh_parts
    cases polygon_part toF cdt zmin zmax st.indices_offset poly with
    | none => rfl
    | some m =>
      simp only [Option.map_some', Option.some_bind, Option.bind_eq_bind, ih]
      have : (st.append m).indices_offset = st.indices_offset + m.vertices := rfl
      rw [this]
      cases mesh_parts toF cdt zmin zmax (st.indices_offset + m.vertices) rest with
      | none => rfl
      | some ms => simp [append_append]

/-- The result of `triangulate` in terms of the mesh of the polygon list. -/
theorem triangulate_checked [DecidableEq D] (toF : D → F) (cdt : Triangulator D)
    (polygons : List (Polygon D)) (positions_buffer : GrowBuffer F)
    (indices_buffer : GrowBuffer Nat) (zmin zmax : F) (stats : TriangulationStats) :
    triangulate toF cdt polygons positions_buffer indices_buffer zmin zmax stats
      = (mesh_parts toF cdt zmin zmax 0 polygons).map fun m =>
          { positions_buffer :=
              positions_buffer.reset.insert_all sizeof_POSITIONS_TYPE m.positions
            indices_buffer := indices_buffer.reset.insert_all sizeof_INDICES_TYPE m.indices
            g_triangulation_stats :=
              { total_vertices := stats.total_vertices + (0 + m.stat_vertices)
                total_triangles := stats.total_triangles + (0 + m.stat_triangles) } } := by
  rw [triangulate_eq, foldlM_triangulate_polygon_checked]
  cases mesh_parts toF cdt zmin zmax 0 polygons with
  | none => rfl
  | some m => rfl

theorem foldl_createLineBuffers_polygon (toF : D → F) (zmin zmax : F)
    (polygons : List (Polygon D)) :
    ∀ st : LineState F,
      (polygons.foldl (createLineBuffers_polygon toF zmin zmax) st).positions_buffer
          = st.positions_buffer.insert_all sizeof_POSITIONS_TYPE
              (lines_positions toF zmin zmax polygons)
        ∧ (polygons.foldl (createLineBuffers_polygon toF zmin zmax) st).indices_buffer
          = st.indices_buffer.insert_all sizeof_INDICES_TYPE
              (lines_indices st.indices_offset polygons) := by
  induction polygons with
  | nil => intro st; exact ⟨rfl, rfl⟩
  | cons poly rest ih =>
    intro st
    rw [List.foldl_cons]
    obtain ⟨h1, h2⟩ := ih (createLineBuffers_polygon toF zmin zmax st poly)
    rw [h1, h2, createLineBuffers_polygon_eq]
    simp only [lines_positions, lines_indices, List.flatMap_cons,
      GrowBuffer.insert_all_append]
    constructor <;> trivial

/-- The result of `createLineBuffers` in terms of the lines of the polygon list. -/
theorem createLineBuffers_lists (toF : D → F) (polygons : List (Polygon D))
    (positions_buffer : GrowBuffer F) (indices_buffer : GrowBuffer Nat) (zmin zmax : F) :
    createLineBuffers toF polygons positions_buffer indices_buffer zmin zmax
      = { positions_buffer :=
            positions_buffer.reset.insert_all sizeof_POSITIONS_TYPE
              (lines_positions toF zmin zmax polygons)
          indices_buffer :=
            indices_buffer.reset.insert_all sizeof_INDICES_TYPE (lines_indices 0 polygons) } := by
  rw [createLineBuffers_eq]
  obtain ⟨h1, h2⟩ := foldl_createLineBuffers_polygon toF zmin zmax polygons
    { positions_buffer := positions_buffer.reset
      indices_buffer := indices_buffer.reset
      indices_offset := 0 }
  rw [h1, h2]

theorem contents_insert_all_reset (positions_buffer : GrowBuffer F)
    (indices_buffer : GrowBuffer Nat) (ps : List F) (is : List Nat) :
    ((positions_buffer.reset.insert_all sizeof_POSITIONS_TYPE ps).view,
        (positions_buffer.reset.insert_all sizeof_POSITIONS_TYPE ps).size,
        (indices_buffer.reset.insert_all sizeof_INDICES_TYPE is).view,
        (indices_buffer.reset.insert_all sizeof_INDICES_TYPE is).size)
      = (ps, ps.length, is, is.length) := by
  rw [(view_insert_all_reset sizeof_POSITIONS_TYPE_pos positions_buffer ps).1,
    (view_insert_all_reset sizeof_POSITIONS_TYPE_pos positions_buffer ps).2,
    (view_insert_all_reset sizeof_INDICES_TYPE_pos indices_buffer is).1,
    (view_insert_all_reset sizeof_INDICES_TYPE_pos indices_buffer is).2]

/-- C14: what `triangulate` and `createLineBuffers` leave in the two buffers, their
contents and sizes, is the same whatever the buffers (and the statistics) held
before the call, in particular the same as on fresh buffers; `triangulate` also
returns on the one exactly when it returns on the other. -/
theorem mesh_building_idempotent_by_reset [DecidableEq D] (toF : D → F)
    (cdt : Triangulator D) (polygons : List (Polygon D)) (zmin zmax : F)
    (positions_buffer positions_buffer1 : GrowBuffer F)
    (indices_buffer indices_buffer1 : GrowBuffer Nat) (stats stats1 : TriangulationStats) :
    (triangulate toF cdt polygons positions_buffer indices_buffer zmin zmax stats).map
          TriangulateResult.contents
        = (triangulate toF cdt polygons positions_buffer1 indices_buffer1 zmin zmax
            stats1).map TriangulateResult.contents
      ∧ (createLineBuffers toF polygons positions_buffer indices_buffer zmin zmax).contents
        = (createLineBuffers toF polygons positions_buffer1 indices_buffer1 zmin
            zmax).contents := by
  constructor
  · rw [triangulate_checked, triangulate_checked]
    cases mesh_parts toF cdt zmin zmax 0 polygons with
    | none => rfl
    | some m =>
      simp only [Option.map_some', TriangulateResult.contents, contents_insert_all_reset]
  · rw [createLineBuffers_lists, createLineBuffers_lists]
    simp only [LineBuffers.contents, contents_insert_all_reset]

end

section
variable {D F : Type}

theorem polygon_part_none_of_rejected [DecidableEq D] (toF : D → F) (cdt : Triangulator D)
    (zmin zmax : F) (offset : Nat) (poly : Polygon D) (hrect : is_rectangle poly = false)
    (hreject : ∀ es, polygon_edges poly.point_array.length = some es →
      cdt poly.point_array es = none) :
    polygon_part toF cdt zmin zmax offset poly = none := by
  unfold polygon_part
  rw [hrect]
  split
  · rename_i h; cases h
  · cases hedges : polygon_edges poly.point_array.length with
    | none => rfl
    | some es => simp [hreject es hedges]

theorem mesh_parts_none_of_rejected [DecidableEq D] (toF : D → F) (cdt : Triangulator D)
    (zmin zmax : F) (poly : Polygon D) (post : List (Polygon D))
    (hrect : is_rectangle poly = false)
    (hreject : ∀ es, polygon_edges poly.point_array.length = some es →
      cdt poly.point_array es = none) (pre : List (Polygon D)) :
    ∀ offset, mesh_parts toF cdt zmin zmax offset (pre ++ poly :: post) = none := by
  induction pre with
  | nil =>
    intro offset
    simp [mesh_parts, polygon_part_none_of_rejected toF cdt zmin zmax offset poly hrect hreject]
  | cons q qs ih =>
    intro offset
    simp only [List.cons_append, mesh_parts, Option.bind_eq_bind]
    cases polygon_part toF cdt zmin zmax offset q with
    | none => rfl
    | some m => simp [ih]

/-- C15 as stated fails: with a triangulator that rejects the bow tie, `triangulate`
on the square, the bow tie and the triangle does not return, although it returns on
the square and the triangle alone. -/
theorem triangulate_rejected_counterexample :
    strict_triangulator bow_tie.point_array [(0, 1), (1, 2), (2, 3), (3, 4), (4, 0)] = none
      ∧ triangulate (fun x : Int => x) strict_triangulator [square_10, bow_tie, triangle_3]
          fresh_buffer fresh_buffer 0 1 ⟨0, 0⟩ = none
      ∧ (triangulate (fun x : Int => x) strict_triangulator [square_10, triangle_3]
          fresh_buffer fresh_buffer 0 1 ⟨0, 0⟩).isSome = true := by
  decide

/-- C15, amended: when the triangulator rejects one polygon of the list that is on
the general path, `triangulate` does not skip it: the rejection ends the call, which
does not return and hands no mesh to the caller, whatever the other polygons are. -/
theorem triangulate_rejected_aborts [DecidableEq D] (toF : D → F) (cdt : Triangulator D)
    (pre : List (Polygon D)) (poly : Polygon D) (post : List (Polygon D))
    (positions_buffer : GrowBuffer F) (indices_buffer : GrowBuffer Nat) (zmin zmax : F)
    (stats : TriangulationStats) (hrect : is_rectangle poly = false)
    (hreject : ∀ es, polygon_edges poly.point_array.length = some es →
      cdt poly.point_array es = none) :
    triangulate toF cdt (pre ++ poly :: post) positions_buffer indices_buffer zmin zmax stats
      = none := by
  rw [triangulate_checked,
    mesh_parts_none_of_rejected toF cdt zmin zmax poly post hrect hreject pre 0]
  rfl

/-- C15, amended, at the square, the bow tie and the triangle. -/
theorem triangulate_rejected_aborts_witness :
    is_rectangle bow_tie = false
      ∧ (∀ es, polygon_edges bow_tie.point_array.length = some es →
          strict_triangulator bow_tie.point_array es = none)
      ∧ triangulate (fun x : Int => x) strict_triangulator
          ([square_10] ++ bow_tie :: [triangle_3]) fresh_buffer fresh_buffer 0 1 ⟨0, 0⟩
        = none :=
  ⟨by decide, fun _ _ => rfl,
    triangulate_rejected_aborts (fun x : Int => x) strict_triangulator [square_10] bow_tie
      [triangle_3] fresh_buffer fresh_buffer 0 1 ⟨0, 0⟩ (by decide) (fun _ _ => rfl)⟩

/-! ## C17 -/

/-- C17, at a triangle with `zmin = 0`, `zmax = 1` that the triangulator answers with
3 vertices and 1 triangle: `triangulate` leaves 6 vertices and 8 triangles in the
buffers, and adds 3 vertices and 1 triangle to the statistics; for the 10 by 10
square it leaves 8 vertices and 12 triangles and adds 8 and 12. -/
theorem triangulate_statistics_general :
    (triangulate (fun x : Int => x) fan_triangulator [triangle_3] fresh_buffer fresh_buffer
        0 1 ⟨0, 0⟩).map
        (fun r => (r.positions_buffer.size / 3, r.indices_buffer.size / 3,
          r.g_triangulation_stats.total_vertices, r.g_triangulation_stats.total_triangles))
      = some (6, 8, 3, 1)
      ∧ (triangulate (fun x : Int => x) fan_triangulator [square_10] fresh_buffer
          fresh_buffer 0 1 ⟨0, 0⟩).map
          (fun r => (r.positions_buffer.size / 3, r.indices_buffer.size / 3,
            r.g_triangulation_stats.total_vertices,
            r.g_triangulation_stats.total_triangles))
        = some (8, 12, 8, 12) := by
  decide

end

/-! ## C18 -/

section
variable {D F : Type}

theorem count_flatMap_range (S : Nat) (f : Nat → List Nat) (n : Nat)
    (h : ∀ k < n, (f k).count S = 1) : ((List.range n).flatMap f).count S = n := by
  induction n with
  | zero => rfl
  | succ n ih =>
    rw [List.range_succ, List.flatMap_append, List.count_append,
      ih (fun k hk => h k (Nat.lt_succ_of_lt hk))]
    simp [h n (Nat.lt_succ_self n)]

theorem line_indices_zero (count : Nat) :
    line_indices count 0
      = List.range count ++ [0, RESTART_INDEX_VALUE]
        ++ (List.range count).map (· + count) ++ [count, RESTART_INDEX_VALUE]
        ++ (List.range count).flatMap fun k => [count + k, k, RESTART_INDEX_VALUE] := by
  have h1 : (List.range count).map (· + 0) = List.range count := by simp
  have h2 : strut_indices count (count + count)
      = (List.range count).flatMap fun k => [count + k, k, RESTART_INDEX_VALUE] := by
    unfold strut_indices
    congr 1
    funext k
    have e1 : k + (count + count) - count = count + k := by omega
    have e2 : k + (count + count) - 2 * count = k := by omega
    rw [e1, e2]
  simp only [line_indices, ring_indices, h1, h2, Nat.zero_add, List.append_assoc]

/-- C18: for a single polygon with `K` points `createLineBuffers` writes `2 * K`
vertices, the points at `zmin` and then the points at `zmax`, and the index sequence
`0, ..., K-1, 0, S, K, ..., 2K-1, K, S` followed by `K + k, k, S` for `k = 0, ..., K-1`,
where `S` is the restart index `0xFFFFFFFF`: `5 * K + 4` entries, of which exactly
`K + 2` are the restart index (the vertex indices being below it). -/
theorem createLineBuffers_single_sequence (toF : D → F) (poly : Polygon D)
    (positions_buffer : GrowBuffer F) (indices_buffer : GrowBuffer Nat) (zmin zmax : F) :
    (createLineBuffers toF [poly] positions_buffer indices_buffer zmin
          zmax).positions_buffer.view
        = (poly.point_array.flatMap fun p => [toF p.x, toF p.y, zmin])
          ++ (poly.point_array.flatMap fun p => [toF p.x, toF p.y, zmax])
      ∧ (createLineBuffers toF [poly] positions_buffer indices_buffer zmin
          zmax).positions_buffer.size = 3 * (2 * poly.point_array.length)
      ∧ (createLineBuffers toF [poly] positions_buffer indices_buffer zmin
          zmax).indices_buffer.view
        = List.range poly.point_array.length ++ [0, RESTART_INDEX_VALUE]
          ++ (List.range poly.point_array.length).map (· + poly.point_array.length)
          ++ [poly.point_array.length, RESTART_INDEX_VALUE]
          ++ ((List.range poly.point_array.length).flatMap fun k =>
              [poly.point_array.length + k, k, RESTART_INDEX_VALUE])
      ∧ RESTART_INDEX_VALUE = 4294967295
      ∧ (createLineBuffers toF [poly] positions_buffer indices_buffer zmin
          zmax).indices_buffer.size = 5 * poly.point_array.length + 4
      ∧ (2 * poly.point_array.length ≤ RESTART_INDEX_VALUE →
          (createLineBuffers toF [poly] positions_buffer indices_buffer zmin
            zmax).indices_buffer.view.count RESTART_INDEX_VALUE
          = poly.point_array.length + 2) := by
  rw [createLineBuffers_lists]
  simp only [lines_positions, lines_indices, List.flatMap_cons, List.flatMap_nil,
    List.append_nil]
  have hp := view_insert_all_reset sizeof_POSITIONS_TYPE_pos positions_buffer
    (cap_positions toF poly.point_array zmin ++ cap_positions toF poly.point_array zmax)
  have hi := view_insert_all_reset sizeof_INDICES_TYPE_pos indices_buffer
    (line_indices poly.point_array.length 0)
  refine ⟨hp.1, ?_, ?_, rfl, ?_, ?_⟩
  · rw [hp.2, List.length_append, length_cap_positions, length_cap_positions]
    omega
  · rw [hi.1, line_indices_zero]
  · rw [hi.2, length_line_indices]
  · intro hK
    rw [hi.1, line_indices_zero]
    have hS : RESTART_INDEX_VALUE = 4294967295 := rfl
    have c1 : (List.range poly.point_array.length).count RESTART_INDEX_VALUE = 0 := by
      rw [List.count_eq_zero]
      intro hmem
      have := List.mem_range.mp hmem
      omega
    have c2 : ((List.range poly.point_array.length).map
        (· + poly.point_array.length)).count RESTART_INDEX_VALUE = 0 := by
      rw [List.count_eq_zero]
      intro hmem
      obtain ⟨k, hk, hkS⟩ := List.mem_map.mp hmem
      have := List.mem_range.mp hk
      omega
    have c3 : ((List.range poly.point_array.length).flatMap fun k =>
        [poly.point_array.length + k, k, RESTART_INDEX_VALUE]).count RESTART_INDEX_VALUE
        = poly.point_array.length := by
      apply count_flatMap_range
      intro k hk
      have e1 : poly.point_array.length + k ≠ RESTART_INDEX_VALUE := by omega
      have e2 : k ≠ RESTART_INDEX_VALUE := by omega
      simp [List.count_cons, e1, e2]
    have c4 : ([0, RESTART_INDEX_VALUE] : List Nat).count RESTART_INDEX_VALUE = 1 := by
      decide
    have c5 : ([poly.point_array.length, RESTART_INDEX_VALUE] : List Nat).count
        RESTART_INDEX_VALUE = 1 := by
      have e : poly.point_array.length ≠ RESTART_INDEX_VALUE := by omega
      simp [List.count_cons, e]
    rw [List.count_append, List.count_append, List.count_append, List.count_append, c1, c2,
      c3, c4, c5]
    omega

/-- C18 at a triangle: 6 vertices, 19 indices, 5 of them the restart index. -/
theorem createLineBuffers_single_sequence_witness :
    2 * triangle_3.point_array.length ≤ RESTART_INDEX_VALUE
      ∧ (createLineBuffers (fun x : Int => x) [triangle_3] fresh_buffer fresh_buffer 0
          1).indices_buffer.view
        = [0, 1, 2, 0, 4294967295, 3, 4, 5, 3, 4294967295,
           3, 0, 4294967295, 4, 1, 4294967295, 5, 2, 4294967295]
      ∧ (createLineBuffers (fun x : Int => x) [triangle_3] fresh_buffer fresh_buffer 0
          1).indices_buffer.view.count RESTART_INDEX_VALUE = 3 + 2 :=
  ⟨by decide,
    (createLineBuffers_single_sequence (fun x : Int => x) triangle_3 fresh_buffer
      fresh_buffer 0 1).2.2.1.trans (by decide),
    (createLineBuffers_single_sequence (fun x : Int => x) triangle_3 fresh_buffer
      fresh_buffer 0 1).2.2.2.2.2 (by decide)⟩

end

/-! ## The general path (C19, C20) -/

section
variable {D F : Type}

theorem triangles_of_flatMap {α : Type} (f g h : α → Nat) (ts : List α) :
    triangles_of (ts.flatMap fun t => [f t, g t, h t]) = ts.map fun t => (f t, g t, h t) := by
  induction ts with
  | nil => rfl
  | cons t ts ih =>
    rw [List.flatMap_cons, List.map_cons, ← ih]
    rfl

theorem flatMap_congr_mem {α β : Type} {f g : α → List β} (xs : List α)
    (h : ∀ x ∈ xs, f x = g x) : xs.flatMap f = xs.flatMap g := by
  induction xs with
  | nil => rfl
  | cons x xs ih =>
    rw [List.flatMap_cons, List.flatMap_cons, h x (List.mem_cons_self _ _),
      ih (fun y hy => h y (List.mem_cons_of_mem _ hy))]

/-- What the general branch leaves in the buffers of a consistent state. -/
theorem triangulate_general_views (toF : D → F) (cdt : Triangulator D) (poly : Polygon D)
    (zmin zmax : F) (st : TriangulateState F) {es : List (Nat × Nat)} {r : CDTResult D}
    (hp : GrowBuffer.Consistent sizeof_POSITIONS_TYPE st.positions_buffer)
    (hi : GrowBuffer.Consistent sizeof_INDICES_TYPE st.indices_buffer)
    (hedges : polygon_edges poly.point_array.length = some es)
    (hcdt : cdt poly.point_array es = some r)
    (hmap : r.dup_info.duplicates.length > 0 →
      poly.point_array.length ≤ r.dup_info.mapping.length) :
    ∃ st1, triangulate_general toF cdt poly zmin zmax st = some st1
      ∧ st1.positions_buffer.view
        = st.positions_buffer.view
          ++ (cap_positions toF r.vertices zmin ++ cap_positions toF r.vertices zmax)
      ∧ st1.indices_buffer.view
        = st.indices_buffer.view
          ++ (bottom_cap_indices r.triangles st.indices_offset
            ++ top_cap_indices r.triangles (st.indices_offset + r.vertices.length)
            ++ general_side_indices r poly.point_array.length st.indices_offset) := by
  refine ⟨_, triangulate_general_eq toF cdt poly zmin zmax st hedges hcdt hmap, ?_, ?_⟩
  · exact (GrowBuffer.consistent_insert_all _ hp).2
  · exact (GrowBuffer.consistent_insert_all _ hi).2

/-- C19: on the general path, for a triangulation with `V` vertices and triangles
`(a_i, b_i, c_i)`, `triangulate` appends the `V` vertices at `zmin` and then the same
vertices at `zmax`, and appends first the bottom cap, the triple
`(c_i, b_i, a_i) + bottomOffset` for every triangle in order, and then the top cap,
the triple `(a_i, b_i, c_i) + bottomOffset + V` for every triangle in order. -/
theorem general_path_caps (toF : D → F) (cdt : Triangulator D) (poly : Polygon D)
    (zmin zmax : F) (st : TriangulateState F) (es : List (Nat × Nat)) (r : CDTResult D)
    (hp : GrowBuffer.Consistent sizeof_POSITIONS_TYPE st.positions_buffer)
    (hi : GrowBuffer.Consistent sizeof_INDICES_TYPE st.indices_buffer)
    (hedges : polygon_edges poly.point_array.length = some es)
    (hcdt : cdt poly.point_array es = some r)
    (hmap : r.dup_info.duplicates.length > 0 →
      poly.point_array.length ≤ r.dup_info.mapping.length) :
    ∃ st1 bottom top sides, triangulate_general toF cdt poly zmin zmax st = some st1
      ∧ st1.positions_buffer.view
        = st.positions_buffer.view
          ++ ((r.vertices.flatMap fun v => [toF v.x, toF v.y, zmin])
            ++ (r.vertices.flatMap fun v => [toF v.x, toF v.y, zmax]))
      ∧ st1.indices_buffer.view = st.indices_buffer.view ++ (bottom ++ top ++ sides)
      ∧ triangles_of bottom
        = (r.triangles.map fun t =>
            (t.v2 + st.indices_offset, t.v1 + st.indices_offset, t.v0 + st.indices_offset))
      ∧ triangles_of top
        = (r.triangles.map fun t =>
            (t.v0 + (st.indices_offset + r.vertices.length),
              t.v1 + (st.indices_offset + r.vertices.length),
              t.v2 + (st.indices_offset + r.vertices.length)))
      ∧ bottom.length = 3 * r.triangles.length
      ∧ top.length = 3 * r.triangles.length := by
  obtain ⟨st1, h1, h2, h3⟩ :=
    triangulate_general_views toF cdt poly zmin zmax st hp hi hedges hcdt hmap
  exact ⟨st1, _, _, _, h1, h2, h3, triangles_of_flatMap _ _ _ _, triangles_of_flatMap _ _ _ _,
    length_bottom_cap_indices _ _, length_top_cap_indices _ _⟩

/-- C19 at the triangle with a duplicate point, from the state in which `triangulate`
enters the polygon loop. -/
theorem general_path_caps_witness :
    GrowBuffer.Consistent sizeof_POSITIONS_TYPE (fresh_state (F := Int)).positions_buffer
      ∧ GrowBuffer.Consistent sizeof_INDICES_TYPE (fresh_state (F := Int)).indices_buffer
      ∧ polygon_edges triangle_dup.point_array.length = some [(0, 1), (1, 2), (2, 3), (3, 0)]
      ∧ ∃ st1 bottom top sides,
          triangulate_general (fun x : Int => x) dedup_triangulator triangle_dup 0 1 fresh_state
            = some st1
          ∧ st1.indices_buffer.view = [] ++ (bottom ++ top ++ sides)
          ∧ triangles_of bottom = [(2, 1, 0)]
          ∧ triangles_of top = [(3, 4, 5)] := by
  have hp := GrowBuffer.consistent_reset sizeof_POSITIONS_TYPE_pos (fresh_buffer : GrowBuffer Int)
  have hi := GrowBuffer.consistent_reset sizeof_INDICES_TYPE_pos (fresh_buffer : GrowBuffer Nat)
  obtain ⟨st1, bottom, top, sides, h1, _, h3, h4, h5, _, _⟩ :=
    general_path_caps (fun x : Int => x) dedup_triangulator triangle_dup 0 1 fresh_state
      [(0, 1), (1, 2), (2, 3), (3, 0)] _ hp hi (by decide) rfl (fun _ => by decide)
  exact ⟨hp, hi, by decide, st1, bottom, top, sides, h1, h3, h4, h5⟩

/-- C20: on the general path, when the triangulator reports removed duplicates (and
the mapping `m` has an entry for each of the `N` points), the side walls are the
last indices appended and walk the `N` points: for every `i` in `0..N-1`, with
`j = (i+1) mod N`, `b` the bottom offset and `t` the top offset, the two triangles
`(m[i]+b, m[j]+b, m[i]+t)` and `(m[j]+b, m[j]+t, m[i]+t)` when the orientation is `-1`,
and the same two with the vertex order reversed otherwise: `2 * N` triangles, whatever
the number of vertices. -/
theorem general_path_walls_remapped (toF : D → F) (cdt : Triangulator D) (poly : Polygon D)
    (zmin zmax : F) (st : TriangulateState F) (es : List (Nat × Nat)) (r : CDTResult D)
    (hi : GrowBuffer.Consistent sizeof_INDICES_TYPE st.indices_buffer)
    (hedges : polygon_edges poly.point_array.length = some es)
    (hcdt : cdt poly.point_array es = some r)
    (hdup : r.dup_info.duplicates.length > 0)
    (hmap : poly.point_array.length ≤ r.dup_info.mapping.length) :
    ∃ st1 caps sides, triangulate_general toF cdt poly zmin zmax st = some st1
      ∧ st1.indices_buffer.view = st.indices_buffer.view ++ (caps ++ sides)
      ∧ caps.length = 3 * (2 * r.triangles.length)
      ∧ sides.length = 3 * (2 * poly.point_array.length)
      ∧ sides
        = (List.range poly.point_array.length).flatMap fun i =>
            if inferred_orientation r.triangles = -1 then
              [r.dup_info.mapping.getD i 0 + st.indices_offset,
               r.dup_info.mapping.getD ((i + 1) % poly.point_array.length) 0
                 + st.indices_offset,
               r.dup_info.mapping.getD i 0 + (st.indices_offset + r.vertices.length),
               r.dup_info.mapping.getD ((i + 1) % poly.point_array.length) 0
                 + st.indices_offset,
               r.dup_info.mapping.getD ((i + 1) % poly.point_array.length) 0
                 + (st.indices_offset + r.vertices.length),
               r.dup_info.mapping.getD i 0 + (st.indices_offset + r.vertices.length)]
            else
              [r.dup_info.mapping.getD i 0 + (st.indices_offset + r.vertices.length),
               r.dup_info.mapping.getD ((i + 1) % poly.point_array.length) 0
                 + st.indices_offset,
               r.dup_info.mapping.getD i 0 + st.indices_offset,
               r.dup_info.mapping.getD i 0 + (st.indices_offset + r.vertices.length),
               r.dup_info.mapping.getD ((i + 1) % poly.point_array.length) 0
                 + (st.indices_offset + r.vertices.length),
               r.dup_info.mapping.getD ((i + 1) % poly.point_array.length) 0
                 + st.indices_offset] := by
  refine ⟨_, bottom_cap_indices r.triangles st.indices_offset
      ++ top_cap_indices r.triangles (st.indices_offset + r.vertices.length),
    general_side_indices r poly.point_array.length st.indices_offset,
    triangulate_general_eq toF cdt poly zmin zmax st hedges hcdt (fun _ => hmap), ?_, ?_, ?_, ?_⟩
  · exact (GrowBuffer.consistent_insert_all _ hi).2
  · rw [List.length_append, length_bottom_cap_indices, length_top_cap_indices]
    omega
  · simp only [general_side_indices, hdup, if_true, length_side_wall_indices_remapped]
    omega
  · simp only [general_side_indices, hdup, if_true, side_wall_indices_remapped]
    apply flatMap_congr_mem
    intro i hi
    rw [Nat.mod_eq_of_lt (List.mem_range.mp hi)]
    rfl

/-- C20 at the triangle with a duplicate point: four points, three vertices, eight
side-wall triangles. -/
theorem general_path_walls_remapped_witness :
    GrowBuffer.Consistent sizeof_INDICES_TYPE (fresh_state (F := Int)).indices_buffer
      ∧ polygon_edges triangle_dup.point_array.length = some [(0, 1), (1, 2), (2, 3), (3, 0)]
      ∧ ∃ st1 caps sides,
          triangulate_general (fun x : Int => x) dedup_triangulator triangle_dup 0 1 fresh_state
            = some st1
          ∧ st1.indices_buffer.view = [] ++ (caps ++ sides)
          ∧ sides.length = 3 * (2 * 4)
          ∧ sides
            = [0, 1, 3, 1, 4, 3, 1, 1, 4, 1, 4, 4, 1, 2, 4, 2, 5, 4, 2, 0, 5, 0, 3, 5] := by
  have hi := GrowBuffer.consistent_reset sizeof_INDICES_TYPE_pos (fresh_buffer : GrowBuffer Nat)
  obtain ⟨st1, caps, sides, h1, h2, _, h4, h5⟩ :=
    general_path_walls_remapped (fun x : Int => x) dedup_triangulator triangle_dup 0 1
      fresh_state [(0, 1), (1, 2), (2, 3), (3, 0)] _ hi (by decide) rfl (by decide) (by decide)
  exact ⟨hi, by decide, st1, caps, sides, h1, h2, h4, h5.trans (by decide)⟩

end

/-! ## processGDS (C16) -/

section
variable {D : Type} [DecidableEq D] [Add D] [Zero D]

omit [Add D] [Zero D] in
theorem mem_foldl_add_cell (env : GdsEnvironment D) (top_cells : List (Cell D))
    (cells : List (Cell D)) :
    ∀ events : List (ProcessEvent D),
      (∀ e ∈ events, e ∈ cells.foldl
          (fun events cell =>
            events ++ [ProcessEvent.gds_add_cell cell.name (env.bounding_box cell).1
              (env.bounding_box cell).2 (decide (cell ∈ top_cells))])
          events)
        ∧ ∀ cell ∈ cells,
            ProcessEvent.gds_add_cell cell.name (env.bounding_box cell).1
                (env.bounding_box cell).2 (decide (cell ∈ top_cells))
              ∈ cells.foldl
                (fun events cell =>
                  events ++ [ProcessEvent.gds_add_cell cell.name (env.bounding_box cell).1
                    (env.bounding_box cell).2 (decide (cell ∈ top_cells))])
                events := by
  induction cells with
  | nil =>
    intro events
    exact ⟨fun e he => he, fun cell hc => by cases hc⟩
  | cons c cs ih =>
    intro events
    rw [List.foldl_cons]
    obtain ⟨h1, h2⟩ := ih (events ++ [ProcessEvent.gds_add_cell c.name (env.bounding_box c).1
      (env.bounding_box c).2 (decide (c ∈ top_cells))])
    refine ⟨fun e he => h1 e (List.mem_append_left _ he), ?_⟩
    intro cell hc
    rcases List.mem_cons.mp hc with rfl | hc
    · exact h1 _ (List.mem_append_right _ (List.mem_singleton_self _))
    · exact h2 cell hc

/-- C16 as stated fails: for the path `chip.txt`, whose extension is neither `gds` nor
`oas`, `processGDS` hands the file to the OASIS reader and emits the statistics, the
cell and the reference of the library that the reader returns. -/
theorem processGDS_unsupported_counterexample :
    check_extension_matches "chip.txt" "gds" = false
      ∧ check_extension_matches "chip.txt" "oas" = false
      ∧ processGDS small_environment "S_GDS_PROPERTY" "chip.txt" false
        = some (small_library,
            [ProcessEvent.gds_process_progress 0, ProcessEvent.gds_process_progress 5,
             ProcessEvent.gds_stats "top" LibraryInfo.zero,
             ProcessEvent.gds_add_cell "top" ⟨0, 0⟩ ⟨10, 10⟩ true,
             ProcessEvent.reference_walk
               (JSEvent.gds_add_reference "top" "inv" "???" 100 200 0 false),
             ProcessEvent.reference_walk JSEvent.gds_finished_references]) := by
  decide

/-- C16, amended: `processGDS` does not reject a path: for every path whose extension
is not `gds` the library is the one that the OASIS reader returns for the path, with
empty statistics; when that library has a top cell the call returns, and among the
events are the statistics under the name of the first top cell, one cell event for
every cell of the library, and the events of the reference walk. -/
theorem processGDS_reads_other_extensions_as_oas (env : GdsEnvironment D) (s : String)
    (gds_filepath : String) (opt_just_lines : Bool)
    (hext : check_extension_matches gds_filepath "gds" = false) :
    processGDS env s gds_filepath opt_just_lines
        = (process_library env s (env.read_oas gds_filepath) LibraryInfo.zero
            [ProcessEvent.gds_process_progress 0]).map
            (fun events => (env.read_oas gds_filepath, events))
      ∧ ∀ top_cell rest, env.top_level (env.read_oas gds_filepath) = top_cell :: rest →
          ∃ events,
            processGDS env s gds_filepath opt_just_lines
                = some (env.read_oas gds_filepath, events)
              ∧ ProcessEvent.gds_stats top_cell.name LibraryInfo.zero ∈ events
              ∧ (∀ cell ∈ (env.read_oas gds_filepath).cell_array,
                  ProcessEvent.gds_add_cell cell.name (env.bounding_box cell).1
                      (env.bounding_box cell).2 (decide (cell ∈ top_cell :: rest))
                    ∈ events)
              ∧ ∀ e ∈ processReferencesHierarchy s (env.read_oas gds_filepath),
                  ProcessEvent.reference_walk e ∈ events := by
  have h1 : processGDS env s gds_filepath opt_just_lines
      = (process_library env s (env.read_oas gds_filepath) LibraryInfo.zero
          [ProcessEvent.gds_process_progress 0]).map
          (fun events => (env.read_oas gds_filepath, events)) := by
    simp [processGDS, hext]
  refine ⟨h1, ?_⟩
  intro top_cell rest htop
  rw [h1]
  simp only [process_library, htop, Option.map_some']
  obtain ⟨hkeep, hcells⟩ := mem_foldl_add_cell env (top_cell :: rest)
    (env.read_oas gds_filepath).cell_array
    ([ProcessEvent.gds_process_progress 0] ++ [ProcessEvent.gds_process_progress 5]
      ++ [ProcessEvent.gds_stats top_cell.name LibraryInfo.zero])
  refine ⟨_, rfl, ?_, ?_, ?_⟩
  · exact List.mem_append_left _
      (hkeep _ (List.mem_append_right _ (List.mem_singleton_self _)))
  · intro cell hc
    exact List.mem_append_left _ (hcells cell hc)
  · intro e he
    exact List.mem_append_right _ (List.mem_map_of_mem _ he)

end

/-- C16, amended, at the path `chip.txt`. -/
theorem processGDS_reads_other_extensions_as_oas_witness :
    check_extension_matches "chip.txt" "gds" = false
      ∧ small_environment.top_level (small_environment.read_oas "chip.txt")
          = top_cell [single_reference []] :: []
      ∧ ∃ events,
          processGDS small_environment "S_GDS_PROPERTY" "chip.txt" false
              = some (small_environment.read_oas "chip.txt", events)
            ∧ ProcessEvent.gds_stats "top" LibraryInfo.zero ∈ events := by
  obtain ⟨events, h1, h2, _⟩ :=
    (processGDS_reads_other_extensions_as_oas small_environment "S_GDS_PROPERTY" "chip.txt"
      false (by decide)).2 (top_cell [single_reference []]) [] rfl
  exact ⟨by decide, rfl, events, h1, h2⟩

/-! ## The inferred orientation (C21) -/

theorem update_orientation_plus {o : Int} {t : Triangle} (h : t.has_plus_one) :
    update_orientation o t = 1 := by
  unfold Triangle.has_plus_one at h
  simp only [update_orientation]
  rw [if_pos h]

theorem update_orientation_minus {o : Int} {t : Triangle} (h1 : ¬ t.has_plus_one)
    (h : t.has_minus_one) : update_orientation o t = -1 := by
  unfold Triangle.has_plus_one at h1
  unfold Triangle.has_minus_one at h
  simp only [update_orientation]
  rw [if_neg h1, if_pos h]

theorem update_orientation_none {o : Int} {t : Triangle} (h1 : ¬ t.has_plus_one)
    (h2 : ¬ t.has_minus_one) : update_orientation o t = o := by
  unfold Triangle.has_plus_one at h1
  unfold Triangle.has_minus_one at h2
  simp only [update_orientation]
  rw [if_neg h1, if_neg h2]

theorem foldl_update_orientation_none (ts : List Triangle) :
    ∀ o : Int, (∀ t ∈ ts, ¬ t.has_plus_one ∧ ¬ t.has_minus_one) →
      ts.foldl update_orientation o = o := by
  induction ts with
  | nil => intro o _; rfl
  | cons t ts ih =>
    intro o h
    obtain ⟨h1, h2⟩ := h t (List.mem_cons_self _ _)
    rw [List.foldl_cons, update_orientation_none h1 h2]
    exact ih o (fun u hu => h u (List.mem_cons_of_mem _ hu))

/-- C21 as stated fails: for the triangles `(0, 1, 2)` and `(3, 2, 0)` the first
triangle with a difference of `+1` or `-1` is `(0, 1, 2)`, which has `-1` and no
`+1`, but the orientation is `+1`, from the second triangle; the side walls that
`triangulate` writes start with `(4, 1, 0)`, the order for an orientation other
than `-1`. -/
theorem inferred_orientation_counterexample :
    (⟨0, 1, 2⟩ : Triangle).has_minus_one ∧ ¬ (⟨0, 1, 2⟩ : Triangle).has_plus_one
      ∧ inferred_orientation [⟨0, 1, 2⟩, ⟨3, 2, 0⟩] = 1
      ∧ (triangulate (fun x : Int => x) twisted_triangulator [quad_4] fresh_buffer
          fresh_buffer 0 1 ⟨0, 0⟩).map (fun r => (r.indices_buffer.view.drop 12).take 6)
        = some [4, 1, 0, 4, 5, 1] := by
  decide

/-- C21, amended: the inferred orientation is decided by the last triangle, in
triangle-list order, that has a cyclic vertex-index difference equal to `+1` or `-1`:
it is `+1` if one of that triangle's differences is `+1`, otherwise `-1`; earlier
triangles do not matter, and it is `0` when no triangle has such a difference.  The
side walls that the general branch appends are in the vertex order of this value. -/
theorem inferred_orientation_last_match {D F : Type} (toF : D → F) (cdt : Triangulator D)
    (poly : Polygon D) (zmin zmax : F) (st : TriangulateState F) :
    (∀ (pre : List Triangle) (t : Triangle) (post : List Triangle),
        (t.has_plus_one ∨ t.has_minus_one) →
          (∀ u ∈ post, ¬ u.has_plus_one ∧ ¬ u.has_minus_one) →
            (t.has_plus_one → inferred_orientation (pre ++ t :: post) = 1)
              ∧ (¬ t.has_plus_one → inferred_orientation (pre ++ t :: post) = -1))
      ∧ (∀ ts : List Triangle, (∀ u ∈ ts, ¬ u.has_plus_one ∧ ¬ u.has_minus_one) →
          inferred_orientation ts = 0)
      ∧ (∀ es r, GrowBuffer.Consistent sizeof_INDICES_TYPE st.indices_buffer →
          polygon_edges poly.point_array.length = some es →
            cdt poly.point_array es = some r →
              (r.dup_info.duplicates.length > 0 →
                poly.point_array.length ≤ r.dup_info.mapping.length) →
                ∃ st1, triangulate_general toF cdt poly zmin zmax st = some st1
                  ∧ st1.indices_buffer.view
                    = st.indices_buffer.view
                      ++ (bottom_cap_indices r.triangles st.indices_offset
                        ++ top_cap_indices r.triangles (st.indices_offset + r.vertices.length)
                        ++ if r.dup_info.duplicates.length > 0 then
                            side_wall_indices_remapped r.dup_info.mapping
                              poly.point_array.length (inferred_orientation r.triangles)
                              st.indices_offset (st.indices_offset + r.vertices.length)
                          else
                            side_wall_indices r.vertices.length
                              (inferred_orientation r.triangles) st.indices_offset
                              (st.indices_offset + r.vertices.length))) := by
  refine ⟨?_, ?_, ?_⟩
  · intro pre t post ht hpost
    have hfold : inferred_orientation (pre ++ t :: post)
        = update_orientation (pre.foldl update_orientation 0) t := by
      unfold inferred_orientation
      rw [List.foldl_append, List.foldl_cons]
      exact foldl_update_orientation_none post _ hpost
    constructor
    · intro hp
      rw [hfold, update_orientation_plus hp]
    · intro hp
      rcases ht with h | h
      · exact absurd h hp
      · rw [hfold, update_orientation_minus hp h]
  · intro ts h
    exact foldl_update_orientation_none ts 0 h
  · intro es r hi hedges hcdt hmap
    refine ⟨_, triangulate_general_eq toF cdt poly zmin zmax st hedges hcdt hmap, ?_⟩
    exact (GrowBuffer.consistent_insert_all _ hi).2

/-- C21, amended, at the triangles `(0, 1, 2)` and `(3, 2, 0)`, and at a list of one
triangle without such a difference. -/
theorem inferred_orientation_last_match_witness :
    ((⟨3, 2, 0⟩ : Triangle).has_plus_one ∨ (⟨3, 2, 0⟩ : Triangle).has_minus_one)
      ∧ (⟨3, 2, 0⟩ : Triangle).has_plus_one
      ∧ inferred_orientation ([⟨0, 1, 2⟩] ++ ⟨3, 2, 0⟩ :: []) = 1
      ∧ (∀ u ∈ [(⟨0, 2, 4⟩ : Triangle)], ¬ u.has_plus_one ∧ ¬ u.has_minus_one)
      ∧ inferred_orientation [⟨0, 2, 4⟩] = 0 := by
  have h1 : (⟨3, 2, 0⟩ : Triangle).has_plus_one := Or.inl (by decide)
  have h2 : ∀ u ∈ [(⟨0, 2, 4⟩ : Triangle)], ¬ u.has_plus_one ∧ ¬ u.has_minus_one := by
    intro u hu
    rw [List.mem_singleton.mp hu]
    decide
  exact ⟨Or.inl h1, h1,
    ((inferred_orientation_last_match (fun x : Int => x) twisted_triangulator quad_4 0 1
      fresh_state).1 [⟨0, 1, 2⟩] ⟨3, 2, 0⟩ [] (Or.inl h1)
      (fun u hu => by cases hu)).1 h1,
    h2,
    (inferred_orientation_last_match (fun x : Int => x) twisted_triangulator quad_4 0 1
      fresh_state).2.1 _ h2⟩

/-! ## The constraint edges (C22) -/

theorem foldl_push_edges (n : Nat) :
    (List.range n).foldl (fun edges k => edges ++ [(k, k + 1)]) ([] : List (Nat × Nat))
      = (List.range n).map fun k => (k, k + 1) := by
  rw [foldl_push_map (fun k => (k, k + 1)) (List.range n) []]
  rfl

theorem polygon_edges_eq_ring {count : Nat} (h : count ≠ 0) :
    polygon_edges count = some (ring_edges count) := by
  obtain ⟨n, rfl⟩ : ∃ n, count = n + 1 := ⟨count - 1, by omega⟩
  simp only [polygon_edges, h, if_false, Nat.add_sub_cancel, foldl_push_edges, ring_edges,
    List.range_succ, List.map_append, List.map_cons, List.map_nil, Nat.mod_self]
  congr 2
  apply List.map_congr_left
  intro k hk
  have := List.mem_range.mp hk
  rw [Nat.mod_eq_of_lt (by omega)]

/-- C22: for a polygon with `N ≥ 1` points on the general path, the constraint edges
handed to the triangulator are `N` edges, the `k`-th being `(k, (k + 1) mod N)`: the
general branch is the triangulator called on the points and these edges, followed by
the extrusion. -/
theorem general_path_edges {D F : Type} (toF : D → F) (cdt : Triangulator D)
    (poly : Polygon D) (zmin zmax : F) (st : TriangulateState F)
    (hN : 1 ≤ poly.point_array.length) :
    ∃ es, polygon_edges poly.point_array.length = some es
      ∧ es.length = poly.point_array.length
      ∧ (∀ k, k < poly.point_array.length →
          es[k]? = some (k, (k + 1) % poly.point_array.length))
      ∧ triangulate_general toF cdt poly zmin zmax st
        = ((cdt poly.point_array es).bind fun r =>
            general_part_checked toF r poly.point_array.length zmin zmax
              st.indices_offset).map st.append := by
  have hne : poly.point_array.length ≠ 0 := by omega
  refine ⟨ring_edges poly.point_array.length, polygon_edges_eq_ring hne, ?_, ?_, ?_⟩
  · simp [ring_edges]
  · intro k hk
    simp [ring_edges, List.getElem?_map, List.getElem?_range hk]
  · rw [triangulate_general_checked, polygon_edges_eq_ring hne]
    rfl

/-- C22 at the quadrilateral: the edges `(0,1), (1,2), (2,3), (3,0)`. -/
theorem general_path_edges_witness :
    1 ≤ quad_4.point_array.length
      ∧ polygon_edges quad_4.point_array.length = some [(0, 1), (1, 2), (2, 3), (3, 0)]
      ∧ ∃ es, polygon_edges quad_4.point_array.length = some es
          ∧ es.length = quad_4.point_array.length := by
  obtain ⟨es, h1, h2, _⟩ :=
    general_path_edges (fun x : Int => x) twisted_triangulator quad_4 0 1 fresh_state
      (by decide)
  exact ⟨by decide, by decide, es, h1, h2⟩

/-! ## The rectangle test (C23) -/

section
variable {D F : Type} [DecidableEq D]

/-- C23: a polygon takes the rectangle branch exactly when it has four points that
are, in order, `(xa,ya), (xa,yb), (xb,yb), (xb,ya)` or `(xa,ya), (xb,ya), (xb,yb),
(xa,yb)`; the eight rings that walk the corners of an axis-aligned rectangle, from
any corner and in either direction, are accepted; a polygon that is accepted goes to
the rectangle branch and every other polygon goes to the general branch. -/
theorem is_rectangle_iff_corners (toF : D → F) (cdt : Triangulator D) (zmin zmax : F)
    (st : TriangulateState F) (poly : Polygon D) :
    (is_rectangle poly = true
        ↔ ∃ xa ya xb yb,
            poly.point_array = [⟨xa, ya⟩, ⟨xa, yb⟩, ⟨xb, yb⟩, ⟨xb, ya⟩]
              ∨ poly.point_array = [⟨xa, ya⟩, ⟨xb, ya⟩, ⟨xb, yb⟩, ⟨xa, yb⟩])
      ∧ (∀ xa ya xb yb : D,
          is_rectangle ⟨[⟨xa, ya⟩, ⟨xa, yb⟩, ⟨xb, yb⟩, ⟨xb, ya⟩]⟩ = true
            ∧ is_rectangle ⟨[⟨xa, yb⟩, ⟨xb, yb⟩, ⟨xb, ya⟩, ⟨xa, ya⟩]⟩ = true
            ∧ is_rectangle ⟨[⟨xb, yb⟩, ⟨xb, ya⟩, ⟨xa, ya⟩, ⟨xa, yb⟩]⟩ = true
            ∧ is_rectangle ⟨[⟨xb, ya⟩, ⟨xa, ya⟩, ⟨xa, yb⟩, ⟨xb, yb⟩]⟩ = true
            ∧ is_rectangle ⟨[⟨xa, ya⟩, ⟨xb, ya⟩, ⟨xb, yb⟩, ⟨xa, yb⟩]⟩ = true
            ∧ is_rectangle ⟨[⟨xb, ya⟩, ⟨xb, yb⟩, ⟨xa, yb⟩, ⟨xa, ya⟩]⟩ = true
            ∧ is_rectangle ⟨[⟨xb, yb⟩, ⟨xa, yb⟩, ⟨xa, ya⟩, ⟨xb, ya⟩]⟩ = true
            ∧ is_rectangle ⟨[⟨xa, yb⟩, ⟨xa, ya⟩, ⟨xb, ya⟩, ⟨xb, yb⟩]⟩ = true)
      ∧ (∀ p0 p1 p2 p3, poly.point_array = [p0, p1, p2, p3] → is_rectangle poly = true →
          triangulate_polygon toF cdt zmin zmax st poly
            = some (triangulate_rectangle toF p0 p1 p2 p3 zmin zmax st))
      ∧ (is_rectangle poly = false →
          triangulate_polygon toF cdt zmin zmax st poly
            = triangulate_general toF cdt poly zmin zmax st) := by
  refine ⟨?_, ?_, ?_, triangulate_polygon_general toF cdt zmin zmax st poly⟩
  · constructor
    · intro h
      obtain ⟨p0, p1, p2, p3, hpts⟩ := is_rectangle_points h
      obtain ⟨x0, y0⟩ := p0
      obtain ⟨x1, y1⟩ := p1
      obtain ⟨x2, y2⟩ := p2
      obtain ⟨x3, y3⟩ := p3
      unfold is_rectangle at h
      rw [hpts] at h
      simp only [Bool.or_eq_true, Bool.and_eq_true, decide_eq_true_eq] at h
      rcases h with ⟨⟨⟨h1, h2⟩, h3⟩, h4⟩ | ⟨⟨⟨h1, h2⟩, h3⟩, h4⟩
      · subst h1 h2 h3 h4
        exact ⟨x0, y0, x2, y1, Or.inl hpts⟩
      · subst h1 h2 h3 h4
        exact ⟨x0, y0, x1, y2, Or.inr hpts⟩
    · rintro ⟨xa, ya, xb, yb, h | h⟩
      · unfold is_rectangle; rw [h]; simp
      · unfold is_rectangle; rw [h]; simp
  · intro xa ya xb yb
    simp [is_rectangle]
  · intro p0 p1 p2 p3 hpts hrect
    rw [triangulate_polygon_rectangle toF cdt zmin zmax st poly p0 p1 p2 p3 hpts hrect,
      triangulate_rectangle_eq]
    rfl

end

/-- C23 at the 10 by 10 square, which is accepted, and at the quadrilateral and the
triangle, which are not. -/
theorem is_rectangle_iff_corners_witness :
    is_rectangle square_10 = true ∧ is_rectangle square_10_ccw = true
      ∧ is_rectangle quad_4 = false ∧ is_rectangle triangle_3 = false
      ∧ triangulate_polygon (fun x : Int => x) fan_triangulator 0 1 fresh_state quad_4
        = triangulate_general (fun x : Int => x) fan_triangulator quad_4 0 1 fresh_state :=
  ⟨by decide, by decide, by decide, by decide,
    (is_rectangle_iff_corners (fun x : Int => x) fan_triangulator 0 1 fresh_state
      quad_4).2.2.2 (by decide)⟩

/-! ## The state invariant of GrowBuffer (C26) -/

/-- C26: for an element size `s` of at most the expansion increment, every buffer
obtained from the constructor by calls of `insert` and `reset` has
`current_offset = s * items_count` and `current_offset ≤ allocated_size`; the `s`
bytes that an `insert` writes at `current_offset` lie inside the allocation it
leaves; and neither `insert` nor `reset` decreases `allocated_size`. -/
theorem growbuffer_state_invariant {T : Type} (s : Nat) (hs : 0 < s) (hexp : s ≤ 1048576)
    (b : GrowBuffer T) (high_water : Nat) (hb : GrowBuffer.Reachable s b high_water) :
    b.expansion_size = 1048576
      ∧ b.current_offset = s * b.items_count
      ∧ b.current_offset ≤ b.allocated_size
      ∧ (∀ v : T, b.current_offset + s ≤ (b.insert s v).allocated_size)
      ∧ (∀ v : T, (b.insert s v).current_offset = b.current_offset + s)
      ∧ (∀ v : T, b.allocated_size ≤ (b.insert s v).allocated_size)
      ∧ b.allocated_size ≤ b.reset.allocated_size := by
  obtain ⟨hc, hexpb⟩ := GrowBuffer.reachable_inv hs hb
  obtain ⟨hcap, _, _⟩ := GrowBuffer.reachable_capacity hs hexp hb
  refine ⟨hexpb, hc.2.1, hcap, ?_, fun _ => rfl, ?_, le_refl _⟩
  · intro v
    simp only [GrowBuffer.insert]
    split <;> omega
  · intro v
    simp only [GrowBuffer.insert]
    split <;> omega

/-- C26 at the buffer of `uint32_t` constructed with 8 bytes after three inserts. -/
theorem growbuffer_state_invariant_witness :
    GrowBuffer.Reachable 4
        ((((GrowBuffer.mk 1048576 0 8 0 ([] : List Nat)).insert 4 7).insert 4 8).insert 4 9) 3
      ∧ ((((GrowBuffer.mk 1048576 0 8 0 ([] : List Nat)).insert 4 7).insert 4 8).insert 4
          9).current_offset = 4 * 3
      ∧ ((((GrowBuffer.mk 1048576 0 8 0 ([] : List Nat)).insert 4 7).insert 4 8).insert 4
          9).allocated_size = 1048584 := by
  have h0 : GrowBuffer.Reachable 4 (GrowBuffer.mk 1048576 0 8 0 ([] : List Nat)) 0 :=
    GrowBuffer.Reachable.construct 8 _ rfl
  have h3 : GrowBuffer.Reachable 4
      ((((GrowBuffer.mk 1048576 0 8 0 ([] : List Nat)).insert 4 7).insert 4 8).insert 4 9) 3 :=
    GrowBuffer.Reachable.insert _ _ 9
      (GrowBuffer.Reachable.insert _ _ 8 (GrowBuffer.Reachable.insert _ _ 7 h0))
  exact ⟨h3, (growbuffer_state_invariant 4 (by decide) (by decide) _ 3 h3).2.1, by decide⟩

/-! ## check_extension_matches (C28) -/

theorem check_extension_loop_iff (ys : List Char) :
    ∀ xs : List Char, xs.length = ys.length →
      (check_extension_loop xs ys = true ↔ xs.map Char.toLower = ys.map Char.toLower) := by
  induction ys with
  | nil =>
    intro xs hlen
    have : xs = [] := List.length_eq_zero.mp hlen
    subst this
    simp [check_extension_loop]
  | cons y ys ih =>
    intro xs hlen
    match xs, hlen with
    | x :: xs, hlen =>
      have hlen2 : xs.length = ys.length := by simpa using hlen
      simp only [check_extension_loop, List.map_cons, List.cons.injEq]
      by_cases hxy : x.toLower = y.toLower
      · simp [hxy, ih xs hlen2]
      · simp [hxy]

/-- C28: `check_extension_matches(filename, ext)` is true exactly when the file name
has at least `length(ext) + 2` characters, the character just before its last
`length(ext)` characters is `.`, and those last characters equal `ext` when both are
put in lower case. -/
theorem check_extension_matches_iff (filename target_extension : String) :
    check_extension_matches filename target_extension = true
      ↔ filename.data.length ≥ target_extension.data.length + 2
        ∧ filename.data[filename.data.length - target_extension.data.length - 1]? = some '.'
        ∧ (filename.data.drop (filename.data.length - target_extension.data.length)).map
            Char.toLower
          = target_extension.data.map Char.toLower := by
  unfold check_extension_matches
  simp only []
  by_cases hlen : filename.data.length < target_extension.data.length + 2
  · simp only [hlen, true_or, if_true]
    constructor
    · intro h; cases h
    · intro h; omega
  · have hidx : filename.data.length - target_extension.data.length - 1
        < filename.data.length := by omega
    rw [List.getD_eq_getElem _ _ hidx, List.getElem?_eq_getElem hidx]
    by_cases hdot : filename.data[filename.data.length - target_extension.data.length - 1]
        = '.'
    · have hdrop : (filename.data.drop
          (filename.data.length - target_extension.data.length)).length
          = target_extension.data.length := by
        rw [List.length_drop]; omega
      simp only [hlen, hdot, ne_eq, not_true_eq_false, or_self, if_false,
        check_extension_loop_iff _ _ hdrop]
      constructor
      · intro h; exact ⟨by omega, trivial, h⟩
      · intro h; exact h.2.2
    · simp only [hlen, hdot, ne_eq, not_false_eq_true, or_true, if_true]
      constructor
      · intro h; cases h
      · intro h
        exact absurd (Option.some.inj h.2.1) hdot

/-- C28 at the names of the claim: `a.GDS` matches `gds`; `.gds`, with nothing before
the dot, and `agds` do not. -/
theorem check_extension_matches_iff_witness :
    check_extension_matches "a.GDS" "gds" = true
      ∧ check_extension_matches ".gds" "gds" = false
      ∧ check_extension_matches "agds" "gds" = false
      ∧ ("a.GDS".data.length ≥ "gds".data.length + 2
        ∧ "a.GDS".data["a.GDS".data.length - "gds".data.length - 1]? = some '.'
        ∧ ("a.GDS".data.drop ("a.GDS".data.length - "gds".data.length)).map Char.toLower
          = "gds".data.map Char.toLower) :=
  ⟨by decide, by decide, by decide,
    (check_extension_matches_iff "a.GDS" "gds").mp (by decide)⟩

/-! ## Composition of line buffers (C27) -/

section
variable {D F : Type}

theorem length_lines_positions (toF : D → F) (zmin zmax : F) (polygons : List (Polygon D)) :
    (lines_positions toF zmin zmax polygons).length = 3 * lines_vertices polygons := by
  induction polygons with
  | nil => rfl
  | cons p ps ih =>
    simp only [lines_positions, List.flatMap_cons, List.length_append,
      length_cap_positions, lines_vertices] at ih ⊢
    omega

theorem lines_indices_append (ps qs : List (Polygon D)) :
    ∀ offset, lines_indices offset (ps ++ qs)
      = lines_indices offset ps ++ lines_indices (offset + lines_vertices ps) qs := by
  induction ps with
  | nil => intro offset; simp [lines_indices, lines_vertices]
  | cons p ps ih =>
    intro offset
    have e : offset + p.point_array.length + p.point_array.length + lines_vertices ps
        = offset + (p.point_array.length + p.point_array.length + lines_vertices ps) := by
      omega
    have h1 : ∀ (l : List (Polygon D)), lines_indices offset (p :: l)
        = line_indices p.point_array.length offset
          ++ lines_indices (offset + p.point_array.length + p.point_array.length) l :=
      fun _ => rfl
    have h2 : lines_vertices (p :: ps)
        = p.point_array.length + p.point_array.length + lines_vertices ps := rfl
    rw [List.cons_append, h1, h1, ih, h2, List.append_assoc, e]

theorem line_indices_shift (count offset n : Nat)
    (h : offset + count + count < RESTART_INDEX_VALUE) :
    line_indices count (offset + n) = (line_indices count offset).map (shift_index n) := by
  have hS : RESTART_INDEX_VALUE = 4294967295 := rfl
  have hsent : shift_index n RESTART_INDEX_VALUE = RESTART_INDEX_VALUE := by
    simp [shift_index]
  have hreal : ∀ i, i < RESTART_INDEX_VALUE → shift_index n i = i + n := by
    intro i hi
    have : i ≠ RESTART_INDEX_VALUE := by omega
    simp [shift_index, this]
  simp only [line_indices, ring_indices, strut_indices, List.map_append, List.map_map,
    List.map_cons, List.map_nil, hsent, List.map_flatMap]
  rw [hreal offset (by omega), hreal (offset + count) (by omega)]
  congr 1
  · congr 1
    · congr 1
      apply List.map_congr_left
      intro k hk
      have := List.mem_range.mp hk
      simp only [Function.comp]
      rw [hreal _ (by omega)]
      omega
    · congr 1
      · apply List.map_congr_left
        intro k hk
        have := List.mem_range.mp hk
        simp only [Function.comp]
        rw [hreal _ (by omega)]
        omega
      · congr 1
        omega
  · apply flatMap_congr_mem
    intro k hk
    have := List.mem_range.mp hk
    rw [hreal _ (by omega), hreal _ (by omega)]
    congr 1
    · omega
    · congr 1
      omega

theorem lines_indices_shift (n : Nat) (qs : List (Polygon D)) :
    ∀ offset, offset + lines_vertices qs < RESTART_INDEX_VALUE →
      lines_indices (offset + n) qs = (lines_indices offset qs).map (shift_index n) := by
  induction qs with
  | nil => intro offset _; rfl
  | cons q qs ih =>
    intro offset h
    simp only [lines_vertices] at h
    simp only [lines_indices, List.map_append]
    rw [line_indices_shift _ _ _ (by omega),
      ← ih (offset + q.point_array.length + q.point_array.length) (by omega)]
    congr 2
    omega

/-- C27: for polygon lists `ps` and `qs`, the positions that `createLineBuffers`
leaves for `ps ++ qs` are those for `ps` followed by those for `qs`, and the indices
are those for `ps` followed by those for `qs` with every index other than the restart
index increased by the number of vertices written for `ps`; the vertices of `qs` are
fewer than the restart index, so that no vertex index of `qs` is the restart index. -/
theorem createLineBuffers_append (toF : D → F) (ps qs : List (Polygon D))
    (positions_buffer : GrowBuffer F) (indices_buffer : GrowBuffer Nat) (zmin zmax : F)
    (hq : (createLineBuffers toF qs positions_buffer indices_buffer zmin
      zmax).positions_buffer.size / 3 < RESTART_INDEX_VALUE) :
    (createLineBuffers toF (ps ++ qs) positions_buffer indices_buffer zmin
          zmax).positions_buffer.view
        = (createLineBuffers toF ps positions_buffer indices_buffer zmin
            zmax).positions_buffer.view
          ++ (createLineBuffers toF qs positions_buffer indices_buffer zmin
            zmax).positions_buffer.view
      ∧ (createLineBuffers toF (ps ++ qs) positions_buffer indices_buffer zmin
          zmax).indices_buffer.view
        = (createLineBuffers toF ps positions_buffer indices_buffer zmin
            zmax).indices_buffer.view
          ++ (createLineBuffers toF qs positions_buffer indices_buffer zmin
            zmax).indices_buffer.view.map
              (fun i =>
                if i = RESTART_INDEX_VALUE then i
                else i + (createLineBuffers toF ps positions_buffer indices_buffer zmin
                  zmax).positions_buffer.size / 3) := by
  simp only [createLineBuffers_lists] at hq ⊢
  have hp := fun l => view_insert_all_reset sizeof_POSITIONS_TYPE_pos positions_buffer l
  have hi := fun l => view_insert_all_reset sizeof_INDICES_TYPE_pos indices_buffer l
  simp only [(hp _).1, (hp _).2, (hi _).1, length_lines_positions] at hq ⊢
  have hdiv : ∀ n, 3 * n / 3 = n := fun n => Nat.mul_div_cancel_left n (by decide)
  rw [hdiv] at hq
  rw [hdiv]
  constructor
  · simp [lines_positions, List.flatMap_append]
  · rw [lines_indices_append, Nat.zero_add]
    congr 1
    have := lines_indices_shift (lines_vertices ps) qs 0 (by omega)
    rw [Nat.zero_add] at this
    rw [this]
    rfl

/-- C27 at the triangle followed by the square. -/
theorem createLineBuffers_append_witness :
    (createLineBuffers (fun x : Int => x) [square_10] fresh_buffer fresh_buffer 0
        1).positions_buffer.size / 3 < RESTART_INDEX_VALUE
      ∧ (createLineBuffers (fun x : Int => x) ([triangle_3] ++ [square_10]) fresh_buffer
          fresh_buffer 0 1).indices_buffer.view
        = [0, 1, 2, 0, 4294967295, 3, 4, 5, 3, 4294967295,
           3, 0, 4294967295, 4, 1, 4294967295, 5, 2, 4294967295]
          ++ [6, 7, 8, 9, 6, 4294967295, 10, 11, 12, 13, 10, 4294967295,
              10, 6, 4294967295, 11, 7, 4294967295, 12, 8, 4294967295, 13, 9, 4294967295] :=
  ⟨by decide,
    (createLineBuffers_append (fun x : Int => x) [triangle_3] [square_10] fresh_buffer
      fresh_buffer 0 1 (by decide)).2.trans (by decide)⟩

end

/-! ## addProcessLayer (C25) -/

theorem takeWhile_append_zeros (a : List Char) (k : Nat) (h : Char.ofNat 0 ∉ a) :
    (a ++ List.replicate k (Char.ofNat 0)).takeWhile (fun c => c ≠ Char.ofNat 0) = a := by
  induction a with
  | nil =>
    cases k with
    | zero => rfl
    | succ k => simp [List.replicate_succ, List.takeWhile_cons]
  | cons c cs ih =>
    have hc : c ≠ Char.ofNat 0 := fun e => h (e ▸ List.mem_cons_self _ _)
    have hcs : Char.ofNat 0 ∉ cs := fun e => h (List.mem_cons_of_mem _ e)
    simp only [List.cons_append, List.takeWhile_cons, ne_eq, hc, not_false_eq_true,
      decide_True, if_true, List.cons.injEq, true_and]
    exact ih hcs

theorem name_buffer_eq (src : List Char) :
    (strncpy src 255).set (255 - 1) (Char.ofNat 0)
      = src.take 254 ++ List.replicate (255 - (src.take 254).length) (Char.ofNat 0) := by
  apply List.ext_getElem?
  intro i
  simp only [strncpy, List.getElem?_set, List.length_append, List.length_take,
    List.length_replicate, List.getElem?_append, List.getElem?_take, List.getElem?_replicate]
  by_cases h254 : 255 - 1 = i
  · subst h254
    have h1 : 255 - 1 < min 255 src.length + (255 - src.length) := by omega
    have h2 : ¬ 255 - 1 < min 254 src.length := by omega
    have h3 : 255 - 1 - min 254 src.length < 255 - min 254 src.length := by omega
    simp [h1, h2, h3]
  · simp only [h254, if_false]
    by_cases hi : i < src.length
    · by_cases hi2 : i < 254
      · have e1 : i < min 255 src.length := by omega
        have e2 : i < min 254 src.length := by omega
        have e3 : i < 255 := by omega
        simp [e1, e2, e3, hi2]
      · have e0 : 255 ≤ i := by omega
        have e1 : ¬ i < min 255 src.length := by omega
        have e2 : ¬ i < min 254 src.length := by omega
        have e3 : ¬ i - min 255 src.length < 255 - src.length := by omega
        have e4 : ¬ i - min 254 src.length < 255 - min 254 src.length := by omega
        simp [e1, e2, e3, e4]
    · have e1 : ¬ i < min 255 src.length := by omega
      have e2 : ¬ i < min 254 src.length := by omega
      simp only [e1, e2, if_false]
      by_cases hi3 : i < 255
      · have e3 : i - min 255 src.length < 255 - src.length := by omega
        have e4 : i - min 254 src.length < 255 - min 254 src.length := by omega
        simp [e3, e4]
      · have e3 : ¬ i - min 255 src.length < 255 - src.length := by omega
        have e4 : ¬ i - min 254 src.length < 255 - min 254 src.length := by omega
        simp [e3, e4]

/-- C25: `addProcessLayer` appends exactly one record to the layer stack: the stack
before it is unchanged and in the same order, and the new record, at the end, has
the tag of the layer number and datatype, the heights given, and as its name the
first 254 characters of the name given. -/
theorem addProcessLayer_appends {D : Type} (g_layer_stack : List (layer_stack_data D))
    (layer_number layer_datatype : Nat) (name : String) (layer_zmin layer_zmax : D)
    (hname : Char.ofNat 0 ∉ name.data) :
    ∃ layer,
      addProcessLayer g_layer_stack layer_number layer_datatype name layer_zmin layer_zmax
          = g_layer_stack ++ [layer]
        ∧ (addProcessLayer g_layer_stack layer_number layer_datatype name layer_zmin
            layer_zmax).length = g_layer_stack.length + 1
        ∧ (∀ i, i < g_layer_stack.length →
            (addProcessLayer g_layer_stack layer_number layer_datatype name layer_zmin
              layer_zmax)[i]? = g_layer_stack[i]?)
        ∧ layer.tag = make_tag layer_number layer_datatype
        ∧ get_layer layer.tag = layer_number ∧ get_type layer.tag = layer_datatype
        ∧ layer.zmin = layer_zmin ∧ layer.zmax = layer_zmax
        ∧ layer.name.length = 255
        ∧ c_string layer.name = name.data.take 254
        ∧ (c_string layer.name).length ≤ 254 := by
  have hbuf := name_buffer_eq name.data
  have hmem : Char.ofNat 0 ∉ name.data.take 254 := fun h => hname (List.mem_of_mem_take h)
  have hc : c_string ((strncpy name.data 255).set (255 - 1) (Char.ofNat 0))
      = name.data.take 254 := by
    rw [hbuf]
    exact takeWhile_append_zeros _ _ hmem
  refine ⟨_, rfl, by simp [addProcessLayer], ?_, rfl, rfl, rfl, rfl, rfl, ?_, hc, ?_⟩
  · intro i hi
    simp only [addProcessLayer]
    rw [List.getElem?_append_left hi]
  · show ((strncpy name.data 255).set (255 - 1) (Char.ofNat 0)).length = 255
    simp only [List.length_set, strncpy, List.length_append, List.length_take,
      List.length_replicate]
    omega
  · show (c_string ((strncpy name.data 255).set (255 - 1) (Char.ofNat 0))).length ≤ 254
    rw [hc, List.length_take]
    omega

/-- C25 at `addProcessLayer(68, 20, "met1", 0, 1)` on a stack of one record. -/
theorem addProcessLayer_appends_witness :
    Char.ofNat 0 ∉ "met1".data
      ∧ ∃ layer, addProcessLayer met1_stack 68 20 "met1" 0 1 = met1_stack ++ [layer]
          ∧ layer.tag = make_tag 68 20
          ∧ c_string layer.name = "met1".data.take 254 := by
  obtain ⟨layer, h1, _, _, h4, _, _, _, _, _, h10, _⟩ :=
    addProcessLayer_appends met1_stack 68 20 "met1" (0 : Int) 1 (by decide)
  exact ⟨by decide, layer, h1, h4, h10⟩

/-! ## The progress of processCells (C24) -/

section
variable {D F : Type}

theorem progress_values_append (xs ys : List (CellsEvent D F)) :
    progress_values (xs ++ ys) = progress_values xs ++ progress_values ys := by
  simp [progress_values, List.filterMap_append]

theorem process_cell_layer_progress [DecidableEq D] (toF : D → F) (cdt : Triangulator D)
    (env : CellsEnvironment D) (flag : Bool) (cell : Cell D) (st st1 : CellsState D F)
    (layer : layer_stack_data D)
    (h : process_cell_layer toF cdt env flag cell st layer = some st1) :
    progress_values st1.events = progress_values st.events := by
  unfold process_cell_layer at h
  simp only [] at h
  split at h
  · split at h
    · cases h
      simp [progress_values_append, progress_values]
    · cases htri : triangulate toF cdt (env.get_polygons cell layer.tag) st.positions_buffer
          st.indices_buffer (toF layer.zmin) (toF layer.zmax) st.g_triangulation_stats with
      | none => rw [htri] at h; cases h
      | some r =>
        rw [htri] at h
        cases h
        simp [progress_values_append, progress_values]
  · cases h
    rfl

theorem foldlM_layers_progress [DecidableEq D] (toF : D → F) (cdt : Triangulator D)
    (env : CellsEnvironment D) (flag : Bool) (cell : Cell D)
    (layers : List (layer_stack_data D)) :
    ∀ st st1 : CellsState D F,
      layers.foldlM (process_cell_layer toF cdt env flag cell) st = some st1 →
        progress_values st1.events = progress_values st.events := by
  induction layers with
  | nil => intro st st1 h; cases h; rfl
  | cons layer rest ih =>
    intro st st1 h
    rw [List.foldlM_cons] at h
    cases hstep : process_cell_layer toF cdt env flag cell st layer with
    | none => rw [hstep] at h; cases h
    | some st2 =>
      rw [hstep] at h
      exact (ih st2 st1 h).trans
        (process_cell_layer_progress toF cdt env flag cell st st2 layer hstep)

theorem foldl_labels_progress (cell : Cell D) (pos_z : ℚ) (labels : List (Label D)) :
    ∀ events : List (CellsEvent D F),
      progress_values
          (labels.foldl
            (fun events label =>
              events ++ [CellsEvent.gds_add_label cell.name (get_layer label.tag)
                (get_type label.tag) label.text label.origin.x label.origin.y pos_z])
            events)
        = progress_values events := by
  induction labels with
  | nil => intro events; rfl
  | cons l ls ih =>
    intro events
    rw [List.foldl_cons, ih, progress_values_append]
    simp [progress_values]

theorem process_cell_labels_progress (env : CellsEnvironment D) (cell : Cell D)
    (events : List (CellsEvent D F)) :
    progress_values (process_cell_labels env cell events) = progress_values events := by
  unfold process_cell_labels
  generalize label_layers = entries
  induction entries generalizing events with
  | nil => rfl
  | cons e es ih =>
    rw [List.foldl_cons, ih]
    exact foldl_labels_progress cell e.2 (env.get_labels cell e.1) events

theorem process_cell_progress [DecidableEq D] (toF : D → F) (cdt : Triangulator D)
    (env : CellsEnvironment D) (layers : List (layer_stack_data D)) (flag : Bool)
    (count : Nat) (acc acc1 : CellsState D F × Nat) (cell : Cell D)
    (h : process_cell toF cdt env layers flag count acc cell = some acc1) :
    acc1.2 = acc.2 + 1
      ∧ progress_values acc1.1.events
        = progress_values acc.1.events ++ [((acc.2 : ℚ) + 1) / (count : ℚ) * 95 + 5] := by
  unfold process_cell at h
  simp only [Option.bind_eq_bind] at h
  cases hl : layers.foldlM (process_cell_layer toF cdt env flag cell) acc.1 with
  | none => rw [hl] at h; cases h
  | some st =>
    rw [hl] at h
    simp only [Option.some_bind, Option.some.injEq] at h
    subst h
    refine ⟨rfl, ?_⟩
    simp only [progress_values_append, process_cell_labels_progress,
      foldlM_layers_progress toF cdt env flag cell layers acc.1 st hl]
    rfl

theorem foldlM_cells_progress [DecidableEq D] (toF : D → F) (cdt : Triangulator D)
    (env : CellsEnvironment D) (layers : List (layer_stack_data D)) (flag : Bool)
    (count : Nat) (cells : List (Cell D)) :
    ∀ acc acc1 : CellsState D F × Nat,
      cells.foldlM (process_cell toF cdt env layers flag count) acc = some acc1 →
        progress_values acc1.1.events
          = progress_values acc.1.events
            ++ (List.range' acc.2 cells.length).map
                (fun i : Nat => ((i : ℚ) + 1) / (count : ℚ) * 95 + 5) := by
  induction cells with
  | nil => intro acc acc1 h; cases h; simp
  | cons cell rest ih =>
    intro acc acc1 h
    rw [List.foldlM_cons] at h
    cases hstep : process_cell toF cdt env layers flag count acc cell with
    | none => rw [hstep] at h; cases h
    | some acc2 =>
      rw [hstep] at h
      obtain ⟨hi, hp⟩ := process_cell_progress toF cdt env layers flag count acc acc2 cell hstep
      rw [ih acc2 acc1 h, hp, hi]
      simp [List.range'_succ]

theorem process_cell_layer_lines_isSome [DecidableEq D] (toF : D → F) (cdt : Triangulator D)
    (env : CellsEnvironment D) (cell : Cell D) (layers : List (layer_stack_data D)) :
    ∀ st : CellsState D F,
      (layers.foldlM (process_cell_layer toF cdt env true cell) st).isSome := by
  induction layers with
  | nil => intro st; rfl
  | cons layer rest ih =>
    intro st
    rw [List.foldlM_cons]
    have : ∃ st2, process_cell_layer toF cdt env true cell st layer = some st2 := by
      unfold process_cell_layer
      simp only []
      split
      · exact ⟨_, rfl⟩
      · exact ⟨_, rfl⟩
    obtain ⟨st2, h2⟩ := this
    rw [h2]
    exact ih st2

theorem foldlM_cells_lines_isSome [DecidableEq D] (toF : D → F) (cdt : Triangulator D)
    (env : CellsEnvironment D) (layers : List (layer_stack_data D)) (count : Nat)
    (cells : List (Cell D)) :
    ∀ acc : CellsState D F × Nat,
      (cells.foldlM (process_cell toF cdt env layers true count) acc).isSome := by
  induction cells with
  | nil => intro acc; rfl
  | cons cell rest ih =>
    intro acc
    rw [List.foldlM_cons]
    obtain ⟨st, hst⟩ := Option.isSome_iff_exists.mp
      (process_cell_layer_lines_isSome toF cdt env cell layers acc.1)
    have : ∃ acc2, process_cell toF cdt env layers true count acc cell = some acc2 := by
      unfold process_cell
      simp only [Option.bind_eq_bind, hst, Option.some_bind]
      exact ⟨_, rfl⟩
    obtain ⟨acc2, h2⟩ := this
    rw [h2]
    exact ih acc2

end

theorem progress_formula (i n : Nat) :
    ((i : ℚ) + 1) / (n : ℚ) * 95 + 5 = 5 + 95 * ((i : ℚ) + 1) / (n : ℚ) := by
  ring

theorem progress_mono {i j n : Nat} (h : i ≤ j) :
    5 + 95 * ((i : ℚ) + 1) / (n : ℚ) ≤ 5 + 95 * ((j : ℚ) + 1) / (n : ℚ) := by
  have hn : (0 : ℚ) ≤ (n : ℚ) := Nat.cast_nonneg n
  have hij : (i : ℚ) ≤ (j : ℚ) := Nat.cast_le.mpr h
  have : 95 * ((i : ℚ) + 1) / (n : ℚ) ≤ 95 * ((j : ℚ) + 1) / (n : ℚ) :=
    div_le_div_of_nonneg_right (by linarith) hn
  linarith

theorem progress_bounds {i n : Nat} (h : i < n) :
    0 ≤ 5 + 95 * ((i : ℚ) + 1) / (n : ℚ) ∧ 5 + 95 * ((i : ℚ) + 1) / (n : ℚ) ≤ 100 := by
  have hn : (0 : ℚ) < (n : ℚ) := Nat.cast_pos.mpr (by omega)
  have hi : (i : ℚ) + 1 ≤ (n : ℚ) := by exact_mod_cast h
  have hi0 : (0 : ℚ) ≤ (i : ℚ) := Nat.cast_nonneg i
  have h1 : 0 ≤ 95 * ((i : ℚ) + 1) / (n : ℚ) := div_nonneg (by linarith) (le_of_lt hn)
  have h2 : 95 * ((i : ℚ) + 1) / (n : ℚ) ≤ 95 := by
    rw [div_le_iff₀ hn]
    linarith
  constructor <;> linarith

theorem progress_list_facts (n : Nat) :
    ((List.range n).map (fun i : Nat => 5 + 95 * ((i : ℚ) + 1) / (n : ℚ)) ++ [100]).Pairwise
        (· ≤ ·)
      ∧ (∀ p ∈ (List.range n).map (fun i : Nat => 5 + 95 * ((i : ℚ) + 1) / (n : ℚ)) ++ [100],
          0 ≤ p ∧ p ≤ 100)
      ∧ ((List.range n).map (fun i : Nat => 5 + 95 * ((i : ℚ) + 1) / (n : ℚ))
          ++ [100]).getLast? = some 100 := by
  have hmem : ∀ p ∈ (List.range n).map (fun i : Nat => 5 + 95 * ((i : ℚ) + 1) / (n : ℚ)),
      0 ≤ p ∧ p ≤ 100 := by
    intro p hp
    obtain ⟨i, hi, rfl⟩ := List.mem_map.mp hp
    exact progress_bounds (List.mem_range.mp hi)
  refine ⟨?_, ?_, by simp⟩
  · rw [List.pairwise_append]
    refine ⟨?_, List.pairwise_singleton _ _, ?_⟩
    · rw [List.pairwise_map]
      exact (List.pairwise_lt_range n).imp (fun h => progress_mono (le_of_lt h))
    · intro a ha b hb
      rw [List.mem_singleton.mp hb]
      exact (hmem a ha).2
  · intro p hp
    rcases List.mem_append.mp hp with h | h
    · exact hmem p h
    · rw [List.mem_singleton.mp h]
      constructor <;> norm_num

section
variable {D F : Type} [DecidableEq D]

/-- C24: when `processCells` returns for a library with `n` cells, the progress values
among its JavaScript calls are, in order, `5 + 95 * (i + 1) / n` after cell `i` for
`i = 0, ..., n - 1`, and finally `100`; in exact arithmetic the sequence is
non-decreasing, every value lies in `[0, 100]`, and the last value is `100`; for
`n = 0` the only value is `100`.  With `opt_just_lines` set, `processCells` returns. -/
theorem processCells_progress (toF : D → F) (cdt : Triangulator D)
    (env : CellsEnvironment D) (g_lib : Library D) (g_layer_stack : List (layer_stack_data D))
    (stats : TriangulationStats) (opt_just_lines : Bool) :
    (∀ r, processCells toF cdt env g_lib g_layer_stack stats opt_just_lines = some r →
        progress_values r.2
            = (List.range g_lib.cell_array.length).map
                (fun i : Nat => 5 + 95 * ((i : ℚ) + 1) / (g_lib.cell_array.length : ℚ))
              ++ [100]
          ∧ (progress_values r.2).Pairwise (· ≤ ·)
          ∧ (∀ p ∈ progress_values r.2, 0 ≤ p ∧ p ≤ 100)
          ∧ (progress_values r.2).getLast? = some 100
          ∧ (g_lib.cell_array.length = 0 → progress_values r.2 = [100]))
      ∧ (processCells toF cdt env g_lib g_layer_stack stats true).isSome := by
  constructor
  · intro r hr
    have hvals : progress_values r.2
        = (List.range g_lib.cell_array.length).map
            (fun i : Nat => 5 + 95 * ((i : ℚ) + 1) / (g_lib.cell_array.length : ℚ))
          ++ [100] := by
      unfold processCells at hr
      simp only [GrowBuffer.mk_reserve, Nat.ofNat_pos, Nat.mul_pos_iff_of_pos_left, if_true,
        Option.bind_eq_bind, Option.some_bind] at hr
      generalize hacc : g_lib.cell_array.foldlM
        (process_cell toF cdt env g_layer_stack opt_just_lines g_lib.cell_array.length) _
        = acc at hr
      cases acc with
      | none => cases hr
      | some acc =>
        simp only [Option.some_bind, Option.some.injEq] at hr
        subst hr
        rw [progress_values_append,
          foldlM_cells_progress toF cdt env g_layer_stack opt_just_lines _ _ _ acc hacc,
          List.range_eq_range']
        have e1 : progress_values ([] : List (CellsEvent D F)) = [] := rfl
        have e2 : progress_values
            [(CellsEvent.gds_process_progress 100 : CellsEvent D F)] = [100] := rfl
        rw [e2]
        show (progress_values ([] : List (CellsEvent D F)) ++ _) ++ _ = _
        rw [e1, List.nil_append]
        congr 1
        apply List.map_congr_left
        intro i _
        exact progress_formula i g_lib.cell_array.length
    obtain ⟨h1, h2, h3⟩ := progress_list_facts g_lib.cell_array.length
    rw [← hvals] at h1 h2 h3
    refine ⟨hvals, h1, h2, h3, ?_⟩
    intro h0
    rw [hvals, h0]
    rfl
  · unfold processCells
    simp only [GrowBuffer.mk_reserve, Nat.ofNat_pos, Nat.mul_pos_iff_of_pos_left, if_true,
      Option.bind_eq_bind, Option.some_bind]
    obtain ⟨acc, hacc⟩ := Option.isSome_iff_exists.mp
      (foldlM_cells_lines_isSome toF cdt env g_layer_stack g_lib.cell_array.length
        g_lib.cell_array
        (({ positions_buffer :=
              { expansion_size := 1024 * 1024, current_offset := 0,
                allocated_size := 1024 * 1024, items_count := 0, data := [] }
            indices_buffer :=
              { expansion_size := 1024 * 1024, current_offset := 0,
                allocated_size := 1024 * 1024, items_count := 0, data := [] }
            g_triangulation_stats := stats
            events := [] } : CellsState D F), 0))
    rw [hacc]
    rfl

end

/-- C24 at a library of three cells, each with one square on the layer `met1`, with
triangles and with lines: the progress values `110/3, 205/3, 100, 100`. -/
theorem processCells_progress_witness :
    (processCells (fun x : Int => x) fan_triangulator square_environment three_cells
        met1_stack ⟨0, 0⟩ false).isSome = true
      ∧ (∀ r, processCells (fun x : Int => x) fan_triangulator square_environment three_cells
            met1_stack ⟨0, 0⟩ false = some r →
          progress_values r.2
            = (List.range 3).map (fun i : Nat => 5 + 95 * ((i : ℚ) + 1) / ((3 : Nat) : ℚ))
              ++ [100])
      ∧ (processCells (fun x : Int => x) fan_triangulator square_environment three_cells
          met1_stack ⟨0, 0⟩ true).isSome = true :=
  ⟨by decide,
    fun r hr => ((processCells_progress (fun x : Int => x) fan_triangulator
      square_environment three_cells met1_stack ⟨0, 0⟩ false).1 r hr).1,
    (processCells_progress (fun x : Int => x) fan_triangulator square_environment three_cells
      met1_stack ⟨0, 0⟩ false).2⟩

end GdsProcessor
